import Mathlib

/-!
# czt-contrib: the RabbitMQ consumer (`mq/rabbitmq`)

A shallow embedding of `mq/rabbitmq/interceptor.go` and `mq/rabbitmq/listener.go`.

Go code with side effects is embedded as explicit state passing over a `World`:
every broker call, handler invocation, log line, metric update and wait-group
operation appends one `Event` to the world's trace, in program order.  A Go
call that may panic returns a `Result`, which is either a normal return or a
panic carrying the panic value; `defer` is embedded by running the deferred
action on both branches.

External code is taken as a parameter:
* `json.Unmarshal` into `RabbitMsgBody` is the function `unmarshal`;
* the outcome of the broker calls `Channel.Publish` and `Delivery.Reject` is
  given by the oracles of `Channel` (they may depend on the history);
* the application handler is a state transformer over its own state `σ`; it
  has no access to the delivery or to the channel.
-/

set_option autoImplicit false

namespace Rabbitmq

/-! ## Data model -/

/-- Go `[]byte`. -/
abbrev Bytes := List Nat

/-- A non-nil Go `error`, identified by its text.  A value of type `error` is
an `Option GoError`, with `none` for `nil`. -/
structure GoError where
  msg : String
  deriving DecidableEq, Repr

/-- The value of a panic (what `recover()` returns), identified by its
rendering under the `%v` verb.  A recovered value is never nil: since Go 1.21 a
`panic(nil)` is recovered as a `*runtime.PanicNilError`. -/
structure PanicValue where
  text : String
  deriving DecidableEq, Repr

/-- Outcome of a Go call: a normal return or a panic unwinding the stack. -/
inductive Result (α : Type) where
  | ret (a : α)
  | panic (v : PanicValue)
  deriving DecidableEq, Repr

/-- A value of an `amqp.Table` (`map[string]interface{}`), by dynamic type.
Only the three integer types that `processMessage` switches on are told apart;
`other` stands for a value of any other dynamic type. -/
inductive HeaderVal where
  | int64 (v : Int)
  | int32 (v : Int)
  | int (v : Int)
  | other (repr : String)
  deriving DecidableEq, Repr

/-- An `amqp.Table` as an association list; the first binding of a key counts. -/
abbrev Table := List (String × HeaderVal)

/-- Map read `t[k]` with the comma-ok result. -/
def Table.get (t : Table) (k : String) : Option HeaderVal :=
  List.lookup k t

/-- Map write `t[k] = v`. -/
def Table.set (t : Table) (k : String) (v : HeaderVal) : Table :=
  (k, v) :: t.filter (fun p => p.1 != k)

/-- The fields of `amqp.Delivery` that the listener reads.  `Headers = none` is
the nil table. -/
structure Delivery where
  Headers : Option Table
  Body : Bytes
  DeliveryTag : Nat
  deriving DecidableEq, Repr

/-- The fields of `amqp.Publishing` that `requeueMessage` sets. -/
structure Publishing where
  Headers : Table
  ContentType : String
  Body : Bytes
  deriving DecidableEq, Repr

/-- The envelope `RabbitMsgBody`: `{"carrier": ..., "msg": ...}`. -/
structure RabbitMsgBody where
  Carrier : List (String × String)
  Msg : Bytes
  deriving DecidableEq, Repr

/-- One entry of `RabbitListenerConf.ListenerQueues`. -/
structure ConsumerConf where
  Name : String
  AutoAck : Bool
  MaxRetryCount : Int
  deriving DecidableEq, Repr

/-- A `context.Context` as the listener sees it: whether `Done()` is closed,
the remote span context extracted from a carrier, and the span started on it.
Cancellation by another goroutine during a call is not part of the sequential
embedding: a context is cancelled or live for the whole call. -/
structure Context where
  done : Bool
  remote : Option (List (String × String))
  span : Option String
  deriving DecidableEq, Repr

/-- The log lines of the two files, by call site. -/
inductive LogLine where
  | mqPanic (queue : String) (r : PanicValue)
  | mqError (queue : String) (err : GoError) (payload : Bytes)
  | parseFailed (tag : Nat) (err : GoError)
  | requeueFailed (body : Bytes) (err : GoError)
  | requeueOk (body : Bytes)
  deriving DecidableEq, Repr

/-- Observable actions, in program order. -/
inductive Event where
  /-- `message.Ack(multiple)` -/
  | ack (tag : Nat) (multiple : Bool)
  /-- `message.Reject(requeue)` -/
  | reject (tag : Nat) (requeue : Bool)
  /-- `q.channel.Publish(exchange, key, mandatory, immediate, msg)` -/
  | publish (exchange key : String) (mandatory immediate : Bool) (msg : Publishing)
  /-- `q.handler.Consume(ctx, payload)` -/
  | consume (ctx : Context) (payload : Bytes)
  /-- `time.Sleep` in milliseconds -/
  | sleep (ms : Nat)
  /-- `q.taskWg.Add(n)` -/
  | wgAdd (n : Nat)
  /-- `q.taskWg.Done()` -/
  | wgDone
  /-- `tracer.Start(..., name, WithSpanKind(SpanKindConsumer))` -/
  | spanStart (name : String)
  /-- `span.End()` -/
  | spanEnd (name : String)
  /-- `metricConsumeDuration.Observe(_, queue)`; the measured time is not modelled -/
  | metricDuration (queue : String)
  /-- `metricConsumeTotal.Inc(queue, status)` -/
  | metricTotal (queue status : String)
  | log (line : LogLine)
  deriving DecidableEq, Repr

/-- The state threaded through the code: the trace of actions so far and the
private state of the application handler. -/
structure World (σ : Type) where
  trace : List Event
  hstate : σ

/-- Append one action to the trace. -/
def World.emit {σ : Type} (w : World σ) (e : Event) : World σ :=
  { w with trace := w.trace ++ [e] }

/-- A Go function body: from the world before to the outcome and the world after. -/
abbrev M (σ : Type) (α : Type) := World σ → Result α × World σ

/-- The continuation type `func(context.Context, []byte) error`. -/
abbrev Next (σ : Type) := Context → Bytes → M σ (Option GoError)

/-- The type `Interceptor`:
`func(ctx, queueName, message, next func(context.Context, []byte) error) error`. -/
abbrev Interceptor (σ : Type) := Context → String → Bytes → Next σ → M σ (Option GoError)

/-- The interface `ConsumeHandler`: `Consume(ctx, message) error`, which may
return an error or panic, and may change the handler's own state. -/
structure ConsumeHandler (σ : Type) where
  Consume : Context → Bytes → σ → Result (Option GoError) × σ

/-- The broker side of `*amqp.Channel` and of the delivery's acknowledger: the
error returned by `Publish` and by `Reject`, given the actions so far.  The
result of `Ack` is discarded at every call site and is not modelled. -/
structure Channel where
  publishErr : List Event → Publishing → Option GoError
  rejectErr : List Event → Nat → Option GoError

/-! ## `interceptor.go` -/

section Code

variable {σ : Type}

/-- The loop of `Chain`: `for i := len(interceptors) - 1; i >= 0; i--`, with
the loop counter shifted by one (`n = i + 1`), wrapping `chained` once per
iteration. -/
def chainLoop (interceptors : List (Interceptor σ)) (queueName : String) :
    Nat → Next σ → Next σ
  | 0, chained => chained
  | i + 1, chained =>
    match interceptors.get? i with
    | some interceptor =>
      let currentNext := chained
      chainLoop interceptors queueName i (fun c b => interceptor c queueName b currentNext)
    | none => chained

/-- `Chain(interceptors...)`. -/
def Chain (interceptors : List (Interceptor σ)) : Interceptor σ :=
  fun ctx queueName message next =>
    let chained := chainLoop interceptors queueName interceptors.length next
    chained ctx message

/-- `recoveryInterceptor`: the deferred `recover()` turns a panic of `next`
into the returned error `fmt.Errorf("panic: %v", r)` after logging it. -/
def recoveryInterceptor : Interceptor σ :=
  fun ctx queueName body next w =>
    match next ctx body w with
    | (.ret err, w1) => (.ret err, w1)
    | (.panic r, w1) =>
      (.ret (some ⟨"panic: " ++ r.text⟩), w1.emit (.log (.mqPanic queueName r)))

/-- `traceInterceptor`: on a body that does not decode, `next(ctx, body)`;
otherwise the carrier is extracted into the context, a consumer span named
`mq-consume-<queue>` is started, and `span.End()` is deferred around
`next(childCtx, body)`. -/
def traceInterceptor (unmarshal : Bytes → Except GoError RabbitMsgBody) : Interceptor σ :=
  fun ctx queueName body next w =>
    match unmarshal body with
    | .error _ => next ctx body w
    | .ok msgBody =>
      let extractedCtx : Context := { ctx with remote := some msgBody.Carrier }
      let name := "mq-consume-" ++ queueName
      let childCtx : Context := { extractedCtx with span := some name }
      let w1 := w.emit (.spanStart name)
      match next childCtx body w1 with
      | (r, w2) => (r, w2.emit (.spanEnd name))

/-- `prometheusInterceptor`: after `next` returns, observe the duration and
count the call as `success` or `fail`. -/
def prometheusInterceptor : Interceptor σ :=
  fun ctx queueName body next w =>
    match next ctx body w with
    | (.panic r, w1) => (.panic r, w1)
    | (.ret err, w1) =>
      let w2 := w1.emit (.metricDuration queueName)
      let status := if err.isSome then "fail" else "success"
      (.ret err, w2.emit (.metricTotal queueName status))

/-- `loggingInterceptor`: log a non-nil error of `next` and return it. -/
def loggingInterceptor : Interceptor σ :=
  fun ctx queueName body next w =>
    match next ctx body w with
    | (.panic r, w1) => (.panic r, w1)
    | (.ret (some err), w1) => (.ret (some err), w1.emit (.log (.mqError queueName err body)))
    | (.ret none, w1) => (.ret none, w1)

/-! ## `listener.go` -/

/-- The fields of `RabbitListenerConf` that message processing reads. -/
structure RabbitListenerConf where
  ContentType : String
  ListenerQueues : List ConsumerConf
  deriving DecidableEq, Repr

/-- The fields of `RabbitListener` that message processing reads. -/
structure RabbitListener (σ : Type) where
  queues : RabbitListenerConf
  handler : ConsumeHandler σ
  channel : Channel
  maxRetry : Nat
  interceptor : Interceptor σ

/-- Conversion of an integer to `int64`: two's-complement wrap-around. -/
def wrapInt64 (x : Int) : Int :=
  (x + 2 ^ 63) % 2 ^ 64 - 2 ^ 63

/-- The header key of the retry counter. -/
def retryHeader : String := "x-retry-count"

/-- The retry-count extraction of `processMessage`:
`var retryCount int64`, then the type switch on `message.Headers["x-retry-count"]`.
Reading a nil map yields "absent"; the conversion `int64(v)` of an `int32` or
`int` keeps the value. -/
def extractRetryCount (message : Delivery) : Int :=
  match (message.Headers.getD []).get retryHeader with
  | some (.int64 v) => v
  | some (.int32 v) => v
  | some (.int v) => v
  | some (.other _) => 0
  | none => 0

/-- The default chain built by `MustNewListener`. -/
def defaultInterceptor (unmarshal : Bytes → Except GoError RabbitMsgBody) : Interceptor σ :=
  Chain [recoveryInterceptor, traceInterceptor unmarshal, prometheusInterceptor,
    loggingInterceptor]

/-- `MustNewListener`, without the connection set-up: the listener it returns. -/
def MustNewListener (unmarshal : Bytes → Except GoError RabbitMsgBody)
    (rabbitListenerConf : RabbitListenerConf) (handler : ConsumeHandler σ)
    (channel : Channel) : RabbitListener σ :=
  { queues := rabbitListenerConf
    handler := handler
    channel := channel
    maxRetry := 10
    interceptor := defaultInterceptor unmarshal }

/-- `parseMessage`: decode the body; on failure log, acknowledge unless the
queue is auto-ack, and return the error. -/
def parseMessage (unmarshal : Bytes → Except GoError RabbitMsgBody)
    (listenerConsumer : ConsumerConf) (message : Delivery) (w : World σ) :
    Except GoError RabbitMsgBody × World σ :=
  match unmarshal message.Body with
  | .error err =>
    let w1 := w.emit (.log (.parseFailed message.DeliveryTag err))
    let w2 := if listenerConsumer.AutoAck == false then
      w1.emit (.ack message.DeliveryTag false) else w1
    (.error err, w2)
  | .ok msgBody => (.ok msgBody, w)

/-- The `amqp.Publishing` that `requeueMessage` builds. -/
def requeuePublishing (q : RabbitListener σ) (message : Delivery) (retryCount : Int) :
    Publishing :=
  let headers : Table := match message.Headers with
    | none => []
    | some t => t
  { Headers := headers.set retryHeader (.int64 (wrapInt64 (retryCount + 1)))
    ContentType := q.queues.ContentType
    Body := message.Body }

/-- `requeueMessage`: publish a copy with the incremented counter to the default
exchange under the queue's name, log the outcome, and acknowledge the original
unless the queue is auto-ack. -/
def requeueMessage (q : RabbitListener σ) (listenerConsumer : ConsumerConf)
    (message : Delivery) (retryCount : Int) (w : World σ) : World σ :=
  let msg := requeuePublishing q message retryCount
  let err := q.channel.publishErr w.trace msg
  let w1 := w.emit (.publish "" listenerConsumer.Name false false msg)
  let w2 := match err with
    | some e => w1.emit (.log (.requeueFailed message.Body e))
    | none => w1.emit (.log (.requeueOk message.Body))
  if !listenerConsumer.AutoAck then w2.emit (.ack message.DeliveryTag false) else w2

/-- The closure `handleLogic` of `processMessage`. -/
def handleLogic (unmarshal : Bytes → Except GoError RabbitMsgBody) (q : RabbitListener σ)
    (listenerConsumer : ConsumerConf) (message : Delivery) : Next σ :=
  fun ctx _rawBody w =>
    if ctx.done then
      (.ret (q.channel.rejectErr w.trace message.DeliveryTag),
        w.emit (.reject message.DeliveryTag true))
    else
      match parseMessage unmarshal listenerConsumer message w with
      | (.error err, w1) => (.ret (some err), w1)
      | (.ok msgBody, w1) =>
        let retryCount := extractRetryCount message
        if retryCount > listenerConsumer.MaxRetryCount then
          (.ret none,
            if !listenerConsumer.AutoAck then w1.emit (.ack message.DeliveryTag false) else w1)
        else
          let w2 := w1.emit (.consume ctx msgBody.Msg)
          match q.handler.Consume ctx msgBody.Msg w2.hstate with
          | (.panic v, s) => (.panic v, { w2 with hstate := s })
          | (.ret (some err), s) =>
            let w3 := ({ w2 with hstate := s } : World σ).emit (.sleep 100)
            (.ret (some err), requeueMessage q listenerConsumer message retryCount w3)
          | (.ret none, s) =>
            let w3 : World σ := { w2 with hstate := s }
            (.ret none,
              if !listenerConsumer.AutoAck then w3.emit (.ack message.DeliveryTag false) else w3)

/-- `processMessage`: reject under a cancelled generation; otherwise register
the task, run the interceptor around `handleLogic`, and (deferred) unregister. -/
def processMessage (unmarshal : Bytes → Except GoError RabbitMsgBody) (q : RabbitListener σ)
    (listenerConsumer : ConsumerConf) (message : Delivery) (runCtx : Context) : M σ Unit :=
  fun w =>
    if runCtx.done then
      (.ret (), w.emit (.reject message.DeliveryTag true))
    else
      let w1 := w.emit (.wgAdd 1)
      match q.interceptor runCtx listenerConsumer.Name message.Body
          (handleLogic unmarshal q listenerConsumer message) w1 with
      | (.ret _, w2) => (.ret (), w2.emit .wgDone)
      | (.panic v, w2) => (.panic v, w2.emit .wgDone)

end Code

/-! ## Observations on traces -/

/-- The actions that a call added: the trace after it, without the trace before it. -/
def emitted {σ : Type} (before after : World σ) : List Event :=
  after.trace.drop before.trace.length

/-- The acknowledgements in a list of actions: delivery tag and `multiple` flag. -/
def acks : List Event → List (Nat × Bool)
  | [] => []
  | .ack tag multiple :: es => (tag, multiple) :: acks es
  | _ :: es => acks es

/-- The rejections in a list of actions: delivery tag and `requeue` flag. -/
def rejects : List Event → List (Nat × Bool)
  | [] => []
  | .reject tag requeue :: es => (tag, requeue) :: rejects es
  | _ :: es => rejects es

/-- One call of `Channel.Publish`, with its arguments. -/
structure PublishCall where
  exchange : String
  key : String
  mandatory : Bool
  immediate : Bool
  msg : Publishing
  deriving DecidableEq, Repr

/-- The publish calls in a list of actions. -/
def publishes : List Event → List PublishCall
  | [] => []
  | .publish exchange key mandatory immediate msg :: es =>
    ⟨exchange, key, mandatory, immediate, msg⟩ :: publishes es
  | _ :: es => publishes es

/-- The payloads passed to the application handler in a list of actions. -/
def consumes : List Event → List Bytes
  | [] => []
  | .consume _ payload :: es => payload :: consumes es
  | _ :: es => consumes es

/-- The wait-group operations in a list of actions: `+n` for `Add(n)`, `-1` for `Done()`. -/
def wgOps : List Event → List Int
  | [] => []
  | .wgAdd n :: es => (n : Int) :: wgOps es
  | .wgDone :: es => (-1) :: wgOps es
  | _ :: es => wgOps es

/-! ## Derived definitions: the specification's nesting, expected traces,
the redelivery sequence and concrete inputs -/

section Derived

variable {σ : Type}

/-- The nesting that the specification describes: the head of the list wraps
the chain of the tail, and every interceptor is given the same queue name. -/
def nest (queueName : String) : List (Interceptor σ) → Next σ → Next σ
  | [], next => next
  | i1 :: rest, next => fun c b => i1 c queueName b (nest queueName rest next)

/-- The context that the default chain hands to `handleLogic` for a body that
decodes: the trace interceptor's `childCtx`. -/
def consumerCtx (runCtx : Context) (msgBody : RabbitMsgBody) (queueName : String) : Context :=
  { done := runCtx.done, remote := some msgBody.Carrier, span := some ("mq-consume-" ++ queueName) }

/-- The acknowledgement of a queue that is not auto-ack. -/
def ackUnlessAuto (lc : ConsumerConf) (message : Delivery) : List Event :=
  if lc.AutoAck then [] else [.ack message.DeliveryTag false]

/-- The actions of `requeueMessage`, given the trace at its entry. -/
def requeueEvents (q : RabbitListener σ) (lc : ConsumerConf) (message : Delivery)
    (retryCount : Int) (before : List Event) : List Event :=
  let msg := requeuePublishing q message retryCount
  [.publish "" lc.Name false false msg,
    match q.channel.publishErr before msg with
    | some e => .log (.requeueFailed message.Body e)
    | none => .log (.requeueOk message.Body)] ++ ackUnlessAuto lc message

/-- The value of the in-flight counter `taskWg` after a list of actions, counted
from 0. -/
def inflight (es : List Event) : Int :=
  (wgOps es).sum

/-- A call that only appends actions to the trace, none of them on the wait group. -/
def LeavesCounter {α : Type} (f : M σ α) : Prop :=
  ∀ w, ∃ evs, (f w).2.trace = w.trace ++ evs ∧ wgOps evs = []

/-- An interceptor that does not touch the wait group itself: around a continuation
that leaves the counter alone, it leaves the counter alone. -/
def CounterNeutral (i : Interceptor σ) : Prop :=
  ∀ (ctx : Context) (queueName : String) (body : Bytes) (next : Next σ),
    (∀ c b, LeavesCounter (next c b)) → LeavesCounter (i ctx queueName body next)

/-- A toy envelope decoder for concrete inputs: the empty body does not decode,
any other body decodes to its tail as payload with an empty carrier. -/
def sampleUnmarshal : Bytes → Except GoError RabbitMsgBody
  | [] => .error ⟨"unexpected end of JSON input"⟩
  | _ :: payload => .ok ⟨[], payload⟩

/-- A handler that counts its calls and returns `nil`. -/
def okHandler : ConsumeHandler Nat := ⟨fun _ _ n => (.ret none, n + 1)⟩

/-- A handler that counts its calls and returns an error every time. -/
def failingHandler : ConsumeHandler Nat :=
  ⟨fun _ _ n => (.ret (some ⟨"handler failed"⟩), n + 1)⟩

/-- A handler that counts its calls and panics every time. -/
def panickingHandler : ConsumeHandler Nat :=
  ⟨fun _ _ n => (.panic ⟨"index out of range"⟩, n + 1)⟩

/-- A channel on which every broker call succeeds. -/
def okChannel : Channel := ⟨fun _ _ => none, fun _ _ => none⟩

/-- A channel on which every publish fails. -/
def brokenChannel : Channel :=
  ⟨fun _ _ => some ⟨"channel/connection is not open"⟩, fun _ _ => none⟩

/-- A listener configuration with content type `text/plain`. -/
def sampleConf : RabbitListenerConf := ⟨"text/plain", []⟩

/-- A queue that is not auto-ack, with three retries. -/
def ordersQueue : ConsumerConf := ⟨"orders", false, 3⟩

/-- An auto-ack queue with three retries. -/
def auditQueue : ConsumerConf := ⟨"audit", true, 3⟩

/-- A generation context that is not cancelled. -/
def liveCtx : Context := ⟨false, none, none⟩

/-- A generation context that is cancelled. -/
def cancelledCtx : Context := ⟨true, none, none⟩

/-- The world before anything happened, with a handler that has seen no call. -/
def startWorld : World Nat := ⟨[], 0⟩

/-- A first delivery: no headers, a body that decodes. -/
def freshDelivery : Delivery := ⟨none, [123, 7, 8], 1⟩

/-- A delivery whose body does not decode. -/
def poisonDelivery : Delivery := ⟨none, [], 2⟩

/-- A delivery that has used up the three retries of `ordersQueue`. -/
def wornDelivery : Delivery := ⟨some [("x-retry-count", .int64 4)], [123, 7, 8], 3⟩

/-- A delivery whose retry header holds a string. -/
def textCountDelivery : Delivery := ⟨some [("x-retry-count", .other "two")], [123, 7, 8], 6⟩

/-- A queue whose retry cap is the largest `int64`. -/
def bulkQueue : ConsumerConf := ⟨"bulk", false, 9223372036854775807⟩

/-- A delivery whose retry counter is the largest `int64`. -/
def saturatedDelivery : Delivery :=
  ⟨some [("x-retry-count", .int64 9223372036854775807)], [123, 7, 8], 5⟩

/-- The broker's side of a retry: a message published to the queue comes back as
a new delivery with the published headers and body. -/
def redeliver (p : Publishing) (tag : Nat) : Delivery :=
  { Headers := some p.Headers, Body := p.Body, DeliveryTag := tag }

/-- One delivery of a redelivery sequence and the actions of processing it. -/
structure Attempt where
  delivery : Delivery
  events : List Event

/-- The redelivery sequence of one message: process the delivery; when that
published a message, the broker redelivers it and the sequence goes on, otherwise
it ends.  `fuel` bounds the number of deliveries looked at. -/
def redeliveries (unmarshal : Bytes → Except GoError RabbitMsgBody) (q : RabbitListener σ)
    (lc : ConsumerConf) (runCtx : Context) :
    Nat → Delivery → World σ → List Attempt × World σ
  | 0, _, w => ([], w)
  | fuel + 1, d, w =>
    match processMessage unmarshal q lc d runCtx w with
    | (.panic _, w1) => ([⟨d, emitted w w1⟩], w1)
    | (.ret _, w1) =>
      match publishes (emitted w w1) with
      | [] => ([⟨d, emitted w w1⟩], w1)
      | p :: _ =>
        let rest := redeliveries unmarshal q lc runCtx fuel
          (redeliver p.msg (d.DeliveryTag + 1)) w1
        (⟨d, emitted w w1⟩ :: rest.1, rest.2)

/-- The delivery that follows `d` in the sequence when `d` is republished. -/
def nextDelivery (q : RabbitListener σ) (d : Delivery) : Delivery :=
  redeliver (requeuePublishing q d (extractRetryCount d)) (d.DeliveryTag + 1)

end Derived

/-! ## The chain built by `Chain` -/

section ChainFacts

variable {σ : Type}

theorem chainLoop_cons (x : Interceptor σ) (rest : List (Interceptor σ)) (queueName : String) :
    ∀ (n : Nat) (k : Next σ), n ≤ rest.length →
      chainLoop (x :: rest) queueName (n + 1) k =
        fun c b => x c queueName b (chainLoop rest queueName n k) := by
  intro n
  induction n with
  | zero =>
    intro k _
    simp [chainLoop]
  | succ m ih =>
    intro k hm
    have hlt : m < rest.length := hm
    have hget : (x :: rest).get? (m + 1) = some (rest.get ⟨m, hlt⟩) := by
      simp [List.get?_eq_get hlt]
    have hget2 : rest.get? m = some (rest.get ⟨m, hlt⟩) := List.get?_eq_get hlt
    rw [chainLoop, hget]
    simp only []
    rw [ih _ (Nat.le_of_lt hlt)]
    conv => rhs; rw [chainLoop, hget2]

theorem Chain_nil (ctx : Context) (queueName : String) (body : Bytes) (next : Next σ) :
    Chain ([] : List (Interceptor σ)) ctx queueName body next = next ctx body := by
  simp [Chain, chainLoop]

theorem Chain_cons (x : Interceptor σ) (rest : List (Interceptor σ)) (ctx : Context)
    (queueName : String) (body : Bytes) (next : Next σ) :
    Chain (x :: rest) ctx queueName body next =
      x ctx queueName body (fun c b => Chain rest c queueName b next) := by
  simp only [Chain, List.length_cons]
  rw [chainLoop_cons x rest queueName rest.length next (Nat.le_refl _)]

theorem Chain_eq_nest (is : List (Interceptor σ)) (ctx : Context) (queueName : String)
    (body : Bytes) (next : Next σ) :
    Chain is ctx queueName body next = nest queueName is next ctx body := by
  induction is generalizing ctx body with
  | nil => simp [Chain_nil, nest]
  | cons x rest ih =>
    have h : (fun c b => Chain rest c queueName b next) = nest queueName rest next := by
      funext c b
      exact ih c b
    rw [Chain_cons, h]
    rfl

/-- C1: `Chain(i1,...,in)(ctx, queue, body, next)` is the nesting
`i1(ctx, queue, body, k1)` with `k1(c, b) = i2(c, queue, b, k2)`, ..., `kn = next`:
it equals `nest`, the empty chain calls `next(ctx, body)`, and the head of the
list is the outermost wrapper whose continuation is the chain of the tail under
the same queue name. -/
theorem chain_nests_outermost_first (ctx : Context) (queueName : String) (body : Bytes)
    (next : Next σ) :
    (∀ is : List (Interceptor σ),
        Chain is ctx queueName body next = nest queueName is next ctx body) ∧
      Chain ([] : List (Interceptor σ)) ctx queueName body next = next ctx body ∧
      (∀ (i1 : Interceptor σ) (rest : List (Interceptor σ)),
        Chain (i1 :: rest) ctx queueName body next =
          i1 ctx queueName body (fun c b => Chain rest c queueName b next)) :=
  ⟨fun is => Chain_eq_nest is ctx queueName body next,
    Chain_nil ctx queueName body next,
    fun i1 rest => Chain_cons i1 rest ctx queueName body next⟩

end ChainFacts

/-! ## `processMessage` under the default chain -/

section Processing

variable {σ : Type}

theorem emitted_append (w w1 : World σ) (evs : List Event) (h : w1.trace = w.trace ++ evs) :
    emitted w w1 = evs := by
  simp [emitted, h]

theorem processMessage_cancelled (unmarshal : Bytes → Except GoError RabbitMsgBody)
    (q : RabbitListener σ) (lc : ConsumerConf) (message : Delivery) (runCtx : Context)
    (w : World σ) (hdone : runCtx.done = true) :
    processMessage unmarshal q lc message runCtx w =
      (.ret (), { w with trace := w.trace ++ [.reject message.DeliveryTag true] }) := by
  simp [processMessage, hdone, World.emit]

theorem processMessage_undecodable (unmarshal : Bytes → Except GoError RabbitMsgBody)
    (conf : RabbitListenerConf) (handler : ConsumeHandler σ) (channel : Channel)
    (lc : ConsumerConf) (message : Delivery) (runCtx : Context) (err : GoError)
    (w : World σ) (hdec : unmarshal message.Body = .error err) (hlive : runCtx.done = false) :
    processMessage unmarshal (MustNewListener unmarshal conf handler channel) lc message runCtx w
      = (.ret (), { w with trace := w.trace ++ ([.wgAdd 1,
          .log (.parseFailed message.DeliveryTag err)] ++ ackUnlessAuto lc message ++
          [.log (.mqError lc.Name err message.Body), .metricDuration lc.Name,
            .metricTotal lc.Name "fail", .wgDone]) }) := by
  cases hauto : lc.AutoAck <;>
  simp [processMessage, MustNewListener, defaultInterceptor, Chain_cons, Chain_nil,
    recoveryInterceptor, traceInterceptor, prometheusInterceptor, loggingInterceptor,
    handleLogic, parseMessage, hdec, hlive, hauto, World.emit, ackUnlessAuto]

theorem processMessage_over_cap (unmarshal : Bytes → Except GoError RabbitMsgBody)
    (conf : RabbitListenerConf) (handler : ConsumeHandler σ) (channel : Channel)
    (lc : ConsumerConf) (message : Delivery) (runCtx : Context) (msgBody : RabbitMsgBody)
    (w : World σ) (hdec : unmarshal message.Body = .ok msgBody) (hlive : runCtx.done = false)
    (hcap : extractRetryCount message > lc.MaxRetryCount) :
    processMessage unmarshal (MustNewListener unmarshal conf handler channel) lc message runCtx w
      = (.ret (), { w with trace := w.trace ++ ([.wgAdd 1,
          .spanStart ("mq-consume-" ++ lc.Name)] ++ ackUnlessAuto lc message ++
          [.metricDuration lc.Name, .metricTotal lc.Name "success",
            .spanEnd ("mq-consume-" ++ lc.Name), .wgDone]) }) := by
  cases hauto : lc.AutoAck <;>
  simp [processMessage, MustNewListener, defaultInterceptor, Chain_cons, Chain_nil,
    recoveryInterceptor, traceInterceptor, prometheusInterceptor, loggingInterceptor,
    handleLogic, parseMessage, hdec, hlive, hauto, hcap, World.emit, ackUnlessAuto]

theorem processMessage_handler_ok (unmarshal : Bytes → Except GoError RabbitMsgBody)
    (conf : RabbitListenerConf) (handler : ConsumeHandler σ) (channel : Channel)
    (lc : ConsumerConf) (message : Delivery) (runCtx : Context) (msgBody : RabbitMsgBody)
    (w : World σ) (s : σ) (hdec : unmarshal message.Body = .ok msgBody)
    (hlive : runCtx.done = false) (hcap : extractRetryCount message ≤ lc.MaxRetryCount)
    (hok : handler.Consume (consumerCtx runCtx msgBody lc.Name) msgBody.Msg w.hstate =
      (.ret none, s)) :
    processMessage unmarshal (MustNewListener unmarshal conf handler channel) lc message runCtx w
      = (.ret (), { trace := w.trace ++ ([.wgAdd 1, .spanStart ("mq-consume-" ++ lc.Name),
          .consume (consumerCtx runCtx msgBody lc.Name) msgBody.Msg] ++
          ackUnlessAuto lc message ++
          [.metricDuration lc.Name, .metricTotal lc.Name "success",
            .spanEnd ("mq-consume-" ++ lc.Name), .wgDone]), hstate := s }) := by
  have hcap2 : ¬ extractRetryCount message > lc.MaxRetryCount := not_lt.mpr hcap
  simp only [consumerCtx, hlive] at hok
  cases hauto : lc.AutoAck <;>
  simp [processMessage, MustNewListener, defaultInterceptor, Chain_cons, Chain_nil,
    recoveryInterceptor, traceInterceptor, prometheusInterceptor, loggingInterceptor,
    handleLogic, parseMessage, hdec, hlive, hauto, hcap2, World.emit, ackUnlessAuto,
    consumerCtx, hok]

theorem processMessage_handler_panic (unmarshal : Bytes → Except GoError RabbitMsgBody)
    (conf : RabbitListenerConf) (handler : ConsumeHandler σ) (channel : Channel)
    (lc : ConsumerConf) (message : Delivery) (runCtx : Context) (msgBody : RabbitMsgBody)
    (w : World σ) (s : σ) (v : PanicValue) (hdec : unmarshal message.Body = .ok msgBody)
    (hlive : runCtx.done = false) (hcap : extractRetryCount message ≤ lc.MaxRetryCount)
    (hpanic : handler.Consume (consumerCtx runCtx msgBody lc.Name) msgBody.Msg w.hstate =
      (.panic v, s)) :
    processMessage unmarshal (MustNewListener unmarshal conf handler channel) lc message runCtx w
      = (.ret (), { trace := w.trace ++ [.wgAdd 1, .spanStart ("mq-consume-" ++ lc.Name),
          .consume (consumerCtx runCtx msgBody lc.Name) msgBody.Msg,
          .spanEnd ("mq-consume-" ++ lc.Name), .log (.mqPanic lc.Name v),
          .wgDone], hstate := s }) := by
  have hcap2 : ¬ extractRetryCount message > lc.MaxRetryCount := not_lt.mpr hcap
  simp only [consumerCtx, hlive] at hpanic
  simp [processMessage, MustNewListener, defaultInterceptor, Chain_cons, Chain_nil,
    recoveryInterceptor, traceInterceptor, prometheusInterceptor, loggingInterceptor,
    handleLogic, parseMessage, hdec, hlive, hcap2, World.emit,
    consumerCtx, hpanic]

theorem requeueMessage_trace (q : RabbitListener σ) (lc : ConsumerConf) (message : Delivery)
    (retryCount : Int) (w : World σ) :
    requeueMessage q lc message retryCount w =
      { w with trace := w.trace ++ requeueEvents q lc message retryCount w.trace } := by
  cases hauto : lc.AutoAck <;> cases hp : q.channel.publishErr w.trace
      (requeuePublishing q message retryCount) <;>
  simp [requeueMessage, requeueEvents, hauto, hp, World.emit, ackUnlessAuto]

theorem processMessage_handler_err (unmarshal : Bytes → Except GoError RabbitMsgBody)
    (conf : RabbitListenerConf) (handler : ConsumeHandler σ) (channel : Channel)
    (lc : ConsumerConf) (message : Delivery) (runCtx : Context) (msgBody : RabbitMsgBody)
    (w : World σ) (s : σ) (e : GoError) (hdec : unmarshal message.Body = .ok msgBody)
    (hlive : runCtx.done = false) (hcap : extractRetryCount message ≤ lc.MaxRetryCount)
    (herr : handler.Consume (consumerCtx runCtx msgBody lc.Name) msgBody.Msg w.hstate =
      (.ret (some e), s)) :
    processMessage unmarshal (MustNewListener unmarshal conf handler channel) lc message runCtx w
      = (.ret (), { trace := w.trace ++ ([.wgAdd 1, .spanStart ("mq-consume-" ++ lc.Name),
          .consume (consumerCtx runCtx msgBody lc.Name) msgBody.Msg, .sleep 100] ++
          requeueEvents (MustNewListener unmarshal conf handler channel) lc message
            (extractRetryCount message)
            (w.trace ++ [.wgAdd 1, .spanStart ("mq-consume-" ++ lc.Name),
              .consume (consumerCtx runCtx msgBody lc.Name) msgBody.Msg, .sleep 100]) ++
          [.log (.mqError lc.Name e message.Body), .metricDuration lc.Name,
            .metricTotal lc.Name "fail", .spanEnd ("mq-consume-" ++ lc.Name),
            .wgDone]), hstate := s }) := by
  have hcap2 : ¬ extractRetryCount message > lc.MaxRetryCount := not_lt.mpr hcap
  simp only [consumerCtx, hlive] at herr
  simp [processMessage, MustNewListener, defaultInterceptor, Chain_cons, Chain_nil,
    recoveryInterceptor, traceInterceptor, prometheusInterceptor, loggingInterceptor,
    handleLogic, parseMessage, hdec, hlive, hcap2, World.emit,
    consumerCtx, herr, requeueMessage_trace]

/-! ### The closure `handleLogic` by case -/

theorem handleLogic_undecodable (unmarshal : Bytes → Except GoError RabbitMsgBody)
    (q : RabbitListener σ) (lc : ConsumerConf) (message : Delivery) (ctx : Context)
    (rawBody : Bytes) (err : GoError) (w : World σ)
    (hdec : unmarshal message.Body = .error err) (hlive : ctx.done = false) :
    handleLogic unmarshal q lc message ctx rawBody w =
      (.ret (some err), { w with trace := w.trace ++
        ([.log (.parseFailed message.DeliveryTag err)] ++ ackUnlessAuto lc message) }) := by
  cases hauto : lc.AutoAck <;>
  simp [handleLogic, parseMessage, hdec, hlive, hauto, World.emit, ackUnlessAuto]

theorem handleLogic_over_cap (unmarshal : Bytes → Except GoError RabbitMsgBody)
    (q : RabbitListener σ) (lc : ConsumerConf) (message : Delivery) (ctx : Context)
    (rawBody : Bytes) (msgBody : RabbitMsgBody) (w : World σ)
    (hdec : unmarshal message.Body = .ok msgBody) (hlive : ctx.done = false)
    (hcap : extractRetryCount message > lc.MaxRetryCount) :
    handleLogic unmarshal q lc message ctx rawBody w =
      (.ret none, { w with trace := w.trace ++ ackUnlessAuto lc message }) := by
  cases hauto : lc.AutoAck <;>
  simp [handleLogic, parseMessage, hdec, hlive, hauto, hcap, World.emit, ackUnlessAuto]

theorem handleLogic_handler_ok (unmarshal : Bytes → Except GoError RabbitMsgBody)
    (q : RabbitListener σ) (lc : ConsumerConf) (message : Delivery) (ctx : Context)
    (rawBody : Bytes) (msgBody : RabbitMsgBody) (w : World σ) (s : σ)
    (hdec : unmarshal message.Body = .ok msgBody) (hlive : ctx.done = false)
    (hcap : extractRetryCount message ≤ lc.MaxRetryCount)
    (hok : q.handler.Consume ctx msgBody.Msg w.hstate = (.ret none, s)) :
    handleLogic unmarshal q lc message ctx rawBody w =
      (.ret none, { trace := w.trace ++ ([.consume ctx msgBody.Msg] ++
        ackUnlessAuto lc message), hstate := s }) := by
  have hcap2 : ¬ extractRetryCount message > lc.MaxRetryCount := not_lt.mpr hcap
  cases hauto : lc.AutoAck <;>
  simp [handleLogic, parseMessage, hdec, hlive, hauto, hcap2, World.emit, ackUnlessAuto, hok]

theorem handleLogic_handler_err (unmarshal : Bytes → Except GoError RabbitMsgBody)
    (q : RabbitListener σ) (lc : ConsumerConf) (message : Delivery) (ctx : Context)
    (rawBody : Bytes) (msgBody : RabbitMsgBody) (w : World σ) (s : σ) (e : GoError)
    (hdec : unmarshal message.Body = .ok msgBody) (hlive : ctx.done = false)
    (hcap : extractRetryCount message ≤ lc.MaxRetryCount)
    (herr : q.handler.Consume ctx msgBody.Msg w.hstate = (.ret (some e), s)) :
    handleLogic unmarshal q lc message ctx rawBody w =
      (.ret (some e), { trace := w.trace ++ ([.consume ctx msgBody.Msg, .sleep 100] ++
        requeueEvents q lc message (extractRetryCount message)
          (w.trace ++ [.consume ctx msgBody.Msg, .sleep 100])), hstate := s }) := by
  have hcap2 : ¬ extractRetryCount message > lc.MaxRetryCount := not_lt.mpr hcap
  simp [handleLogic, parseMessage, hdec, hlive, hcap2, World.emit, herr, requeueMessage_trace]

/-! ### Observations commute with concatenation -/

theorem acks_append (xs ys : List Event) : acks (xs ++ ys) = acks xs ++ acks ys := by
  induction xs with
  | nil => rfl
  | cons e es ih => cases e <;> simp [acks, ih]

theorem rejects_append (xs ys : List Event) : rejects (xs ++ ys) = rejects xs ++ rejects ys := by
  induction xs with
  | nil => rfl
  | cons e es ih => cases e <;> simp [rejects, ih]

theorem publishes_append (xs ys : List Event) :
    publishes (xs ++ ys) = publishes xs ++ publishes ys := by
  induction xs with
  | nil => rfl
  | cons e es ih => cases e <;> simp [publishes, ih]

theorem consumes_append (xs ys : List Event) :
    consumes (xs ++ ys) = consumes xs ++ consumes ys := by
  induction xs with
  | nil => rfl
  | cons e es ih => cases e <;> simp [consumes, ih]

theorem wgOps_append (xs ys : List Event) : wgOps (xs ++ ys) = wgOps xs ++ wgOps ys := by
  induction xs with
  | nil => rfl
  | cons e es ih => cases e <;> simp [wgOps, ih]

theorem acks_ackUnlessAuto (lc : ConsumerConf) (message : Delivery) :
    acks (ackUnlessAuto lc message) =
      if lc.AutoAck then [] else [(message.DeliveryTag, false)] := by
  cases h : lc.AutoAck <;> simp [ackUnlessAuto, h, acks]

theorem rejects_ackUnlessAuto (lc : ConsumerConf) (message : Delivery) :
    rejects (ackUnlessAuto lc message) = [] := by
  cases h : lc.AutoAck <;> simp [ackUnlessAuto, h, rejects]

theorem publishes_ackUnlessAuto (lc : ConsumerConf) (message : Delivery) :
    publishes (ackUnlessAuto lc message) = [] := by
  cases h : lc.AutoAck <;> simp [ackUnlessAuto, h, publishes]

theorem consumes_ackUnlessAuto (lc : ConsumerConf) (message : Delivery) :
    consumes (ackUnlessAuto lc message) = [] := by
  cases h : lc.AutoAck <;> simp [ackUnlessAuto, h, consumes]

theorem wgOps_ackUnlessAuto (lc : ConsumerConf) (message : Delivery) :
    wgOps (ackUnlessAuto lc message) = [] := by
  cases h : lc.AutoAck <;> simp [ackUnlessAuto, h, wgOps]

/-! ### Header tables and the `int64` increment -/

theorem wrapInt64_succ (r : Int) (hlo : -2 ^ 63 ≤ r) (hhi : r ≤ 2 ^ 63 - 1) :
    wrapInt64 (r + 1) = if r = 2 ^ 63 - 1 then -2 ^ 63 else r + 1 := by
  unfold wrapInt64
  split <;> omega

theorem wrapInt64_le (x : Int) : wrapInt64 x ≤ 2 ^ 63 - 1 := by
  unfold wrapInt64
  omega

theorem lookup_filter_ne (t : Table) (k k1 : String) (h : k1 ≠ k) :
    List.lookup k1 (t.filter (fun p => p.1 != k)) = List.lookup k1 t := by
  induction t with
  | nil => rfl
  | cons p ps ih =>
    obtain ⟨a, b⟩ := p
    by_cases hak : a = k
    · subst hak
      have hne : (k1 == a) = false := by simpa using h
      simp [List.filter, List.lookup, hne, ih]
    · have h1 : (a != k) = true := by simpa using hak
      simp only [List.filter, h1, List.lookup]
      rw [ih]

theorem Table.get_set_self (t : Table) (k : String) (v : HeaderVal) :
    (t.set k v).get k = some v := by
  simp [Table.get, Table.set, List.lookup]

theorem Table.get_set_other (t : Table) (k k1 : String) (v : HeaderVal) (h : k1 ≠ k) :
    (t.set k v).get k1 = t.get k1 := by
  have hne : (k1 == k) = false := by simpa using h
  simp only [Table.get, Table.set, List.lookup, hne]
  exact lookup_filter_ne t k k1 h

theorem requeuePublishing_retry (q : RabbitListener σ) (message : Delivery) (r : Int) :
    (requeuePublishing q message r).Headers.get retryHeader =
      some (.int64 (wrapInt64 (r + 1))) := by
  cases h : message.Headers <;> simp [requeuePublishing, h, Table.get_set_self]

theorem requeuePublishing_other (q : RabbitListener σ) (message : Delivery) (r : Int)
    (k : String) (hk : k ≠ retryHeader) :
    (requeuePublishing q message r).Headers.get k = (message.Headers.getD []).get k := by
  cases h : message.Headers <;>
  simp [requeuePublishing, h, Table.get_set_other _ _ _ _ hk]

theorem publishes_requeueEvents (q : RabbitListener σ) (lc : ConsumerConf) (message : Delivery)
    (r : Int) (before : List Event) :
    publishes (requeueEvents q lc message r before) =
      [⟨"", lc.Name, false, false, requeuePublishing q message r⟩] := by
  cases h : q.channel.publishErr before (requeuePublishing q message r) <;>
  simp [requeueEvents, h, publishes, publishes_append, publishes_ackUnlessAuto]

theorem acks_requeueEvents (q : RabbitListener σ) (lc : ConsumerConf) (message : Delivery)
    (r : Int) (before : List Event) :
    acks (requeueEvents q lc message r before) =
      if lc.AutoAck then [] else [(message.DeliveryTag, false)] := by
  cases h : q.channel.publishErr before (requeuePublishing q message r) <;>
  simp [requeueEvents, h, acks, acks_append, acks_ackUnlessAuto]

theorem rejects_requeueEvents (q : RabbitListener σ) (lc : ConsumerConf) (message : Delivery)
    (r : Int) (before : List Event) :
    rejects (requeueEvents q lc message r before) = [] := by
  cases h : q.channel.publishErr before (requeuePublishing q message r) <;>
  simp [requeueEvents, h, rejects, rejects_append, rejects_ackUnlessAuto]

theorem consumes_requeueEvents (q : RabbitListener σ) (lc : ConsumerConf) (message : Delivery)
    (r : Int) (before : List Event) :
    consumes (requeueEvents q lc message r before) = [] := by
  cases h : q.channel.publishErr before (requeuePublishing q message r) <;>
  simp [requeueEvents, h, consumes, consumes_append, consumes_ackUnlessAuto]

/-! ### The delivery processor: claims -/

/-- C2: a delivery whose body decodes, received under a live generation on a queue
that is not auto-ack, with a retry count above `MaxRetryCount`: `processMessage`
returns having acknowledged the delivery exactly once, without a reject, a
publish or a handler call (the handler's state is untouched), and the closure
`handleLogic` returns `nil`. -/
theorem over_cap_is_acked_and_dropped (unmarshal : Bytes → Except GoError RabbitMsgBody)
    (conf : RabbitListenerConf) (handler : ConsumeHandler σ) (channel : Channel)
    (lc : ConsumerConf) (message : Delivery) (runCtx : Context) (msgBody : RabbitMsgBody)
    (w : World σ) (hdec : unmarshal message.Body = .ok msgBody) (hlive : runCtx.done = false)
    (hauto : lc.AutoAck = false) (hcap : extractRetryCount message > lc.MaxRetryCount) :
    (∃ w1, processMessage unmarshal (MustNewListener unmarshal conf handler channel) lc
          message runCtx w = (.ret (), w1) ∧
        acks (emitted w w1) = [(message.DeliveryTag, false)] ∧
        rejects (emitted w w1) = [] ∧ publishes (emitted w w1) = [] ∧
        consumes (emitted w w1) = [] ∧ w1.hstate = w.hstate) ∧
      ∀ (q : RabbitListener σ) (ctx : Context) (rawBody : Bytes) (w0 : World σ),
        ctx.done = false → (handleLogic unmarshal q lc message ctx rawBody w0).1 = .ret none := by
  refine ⟨⟨_, processMessage_over_cap unmarshal conf handler channel lc message runCtx msgBody w
    hdec hlive hcap, ?_⟩, ?_⟩
  · rw [emitted_append w _ _ rfl]
    simp [acks_append, rejects_append, publishes_append, consumes_append, acks_ackUnlessAuto,
      rejects_ackUnlessAuto, publishes_ackUnlessAuto, consumes_ackUnlessAuto, hauto, acks,
      rejects, publishes, consumes]
  · intro q ctx rawBody w0 hctx
    rw [handleLogic_over_cap unmarshal q lc message ctx rawBody msgBody w0 hdec hctx hcap]

theorem over_cap_is_acked_and_dropped_witness :
    (∃ w1, processMessage sampleUnmarshal
          (MustNewListener sampleUnmarshal sampleConf failingHandler okChannel) ordersQueue
          wornDelivery liveCtx startWorld = (.ret (), w1) ∧
        acks (emitted startWorld w1) = [(3, false)] ∧
        rejects (emitted startWorld w1) = [] ∧ publishes (emitted startWorld w1) = [] ∧
        consumes (emitted startWorld w1) = [] ∧ w1.hstate = 0) ∧
      ∀ (q : RabbitListener Nat) (ctx : Context) (rawBody : Bytes) (w0 : World Nat),
        ctx.done = false →
          (handleLogic sampleUnmarshal q ordersQueue wornDelivery ctx rawBody w0).1 = .ret none :=
  over_cap_is_acked_and_dropped sampleUnmarshal sampleConf failingHandler okChannel ordersQueue
    wornDelivery liveCtx ⟨[], [7, 8]⟩ startWorld rfl rfl rfl (by decide)

/-- C4: a delivery whose body does not decode, received under a live generation on
a queue that is not auto-ack: `processMessage` returns having acknowledged the
delivery exactly once, without a reject, a publish or a handler call, and the
closure `handleLogic` returns the decode error. -/
theorem poison_message_is_acked_once (unmarshal : Bytes → Except GoError RabbitMsgBody)
    (conf : RabbitListenerConf) (handler : ConsumeHandler σ) (channel : Channel)
    (lc : ConsumerConf) (message : Delivery) (runCtx : Context) (err : GoError)
    (w : World σ) (hdec : unmarshal message.Body = .error err) (hlive : runCtx.done = false)
    (hauto : lc.AutoAck = false) :
    (∃ w1, processMessage unmarshal (MustNewListener unmarshal conf handler channel) lc
          message runCtx w = (.ret (), w1) ∧
        acks (emitted w w1) = [(message.DeliveryTag, false)] ∧
        rejects (emitted w w1) = [] ∧ publishes (emitted w w1) = [] ∧
        consumes (emitted w w1) = [] ∧ w1.hstate = w.hstate) ∧
      ∀ (q : RabbitListener σ) (ctx : Context) (rawBody : Bytes) (w0 : World σ),
        ctx.done = false →
          (handleLogic unmarshal q lc message ctx rawBody w0).1 = .ret (some err) := by
  refine ⟨⟨_, processMessage_undecodable unmarshal conf handler channel lc message runCtx err w
    hdec hlive, ?_⟩, ?_⟩
  · rw [emitted_append w _ _ rfl]
    simp [acks_append, rejects_append, publishes_append, consumes_append, acks_ackUnlessAuto,
      rejects_ackUnlessAuto, publishes_ackUnlessAuto, consumes_ackUnlessAuto, hauto, acks,
      rejects, publishes, consumes]
  · intro q ctx rawBody w0 hctx
    rw [handleLogic_undecodable unmarshal q lc message ctx rawBody err w0 hdec hctx]

theorem poison_message_is_acked_once_witness :
    (∃ w1, processMessage sampleUnmarshal
          (MustNewListener sampleUnmarshal sampleConf okHandler okChannel) ordersQueue
          poisonDelivery liveCtx startWorld = (.ret (), w1) ∧
        acks (emitted startWorld w1) = [(2, false)] ∧
        rejects (emitted startWorld w1) = [] ∧ publishes (emitted startWorld w1) = [] ∧
        consumes (emitted startWorld w1) = [] ∧ w1.hstate = 0) ∧
      ∀ (q : RabbitListener Nat) (ctx : Context) (rawBody : Bytes) (w0 : World Nat),
        ctx.done = false →
          (handleLogic sampleUnmarshal q ordersQueue poisonDelivery ctx rawBody w0).1 =
            .ret (some ⟨"unexpected end of JSON input"⟩) :=
  poison_message_is_acked_once sampleUnmarshal sampleConf okHandler okChannel ordersQueue
    poisonDelivery liveCtx ⟨"unexpected end of JSON input"⟩ startWorld rfl rfl rfl

/-- C5: under a generation context that is already cancelled, `processMessage` of
any listener (whatever its interceptor, handler and queue configuration) rejects
the delivery with `requeue = true` and returns: the reject is the only action, so
there is no acknowledgement, publish, handler call or wait-group operation, and
the handler's state is untouched. -/
theorem cancelled_generation_rejects_only (unmarshal : Bytes → Except GoError RabbitMsgBody)
    (q : RabbitListener σ) (lc : ConsumerConf) (message : Delivery) (runCtx : Context)
    (w : World σ) (hdone : runCtx.done = true) :
    ∃ w1, processMessage unmarshal q lc message runCtx w = (.ret (), w1) ∧
      emitted w w1 = [.reject message.DeliveryTag true] ∧
      rejects (emitted w w1) = [(message.DeliveryTag, true)] ∧
      acks (emitted w w1) = [] ∧ publishes (emitted w w1) = [] ∧
      consumes (emitted w w1) = [] ∧ wgOps (emitted w w1) = [] ∧ w1.hstate = w.hstate := by
  refine ⟨_, processMessage_cancelled unmarshal q lc message runCtx w hdone, ?_⟩
  rw [emitted_append w _ _ rfl]
  simp [acks, rejects, publishes, consumes, wgOps]

theorem cancelled_generation_rejects_only_witness :
    ∃ w1, processMessage sampleUnmarshal
        (MustNewListener sampleUnmarshal sampleConf okHandler okChannel) ordersQueue
        freshDelivery cancelledCtx startWorld = (.ret (), w1) ∧
      emitted startWorld w1 = [.reject 1 true] ∧
      rejects (emitted startWorld w1) = [(1, true)] ∧
      acks (emitted startWorld w1) = [] ∧ publishes (emitted startWorld w1) = [] ∧
      consumes (emitted startWorld w1) = [] ∧ wgOps (emitted startWorld w1) = [] ∧
      w1.hstate = 0 :=
  cancelled_generation_rejects_only sampleUnmarshal
    (MustNewListener sampleUnmarshal sampleConf okHandler okChannel) ordersQueue freshDelivery
    cancelledCtx startWorld rfl

/-- C7: a delivery whose body decodes and whose retry count is within
`MaxRetryCount`, under a live generation, with a handler call that returns `nil`:
`processMessage` returns after exactly one handler call, without a publish or a
reject, with exactly one acknowledgement when the queue is not auto-ack and none
when it is, and the closure `handleLogic` returns `nil`. -/
theorem handler_success_acks_unless_auto (unmarshal : Bytes → Except GoError RabbitMsgBody)
    (conf : RabbitListenerConf) (handler : ConsumeHandler σ) (channel : Channel)
    (lc : ConsumerConf) (message : Delivery) (runCtx : Context) (msgBody : RabbitMsgBody)
    (w : World σ) (s : σ) (hdec : unmarshal message.Body = .ok msgBody)
    (hlive : runCtx.done = false) (hcap : extractRetryCount message ≤ lc.MaxRetryCount)
    (hok : handler.Consume (consumerCtx runCtx msgBody lc.Name) msgBody.Msg w.hstate =
      (.ret none, s)) :
    (∃ w1, processMessage unmarshal (MustNewListener unmarshal conf handler channel) lc
          message runCtx w = (.ret (), w1) ∧
        publishes (emitted w w1) = [] ∧ rejects (emitted w w1) = [] ∧
        acks (emitted w w1) = (if lc.AutoAck then [] else [(message.DeliveryTag, false)]) ∧
        consumes (emitted w w1) = [msgBody.Msg] ∧ w1.hstate = s) ∧
      ∀ (rawBody : Bytes) (w0 : World σ), w0.hstate = w.hstate →
        (handleLogic unmarshal (MustNewListener unmarshal conf handler channel) lc message
          (consumerCtx runCtx msgBody lc.Name) rawBody w0).1 = .ret none := by
  refine ⟨⟨_, processMessage_handler_ok unmarshal conf handler channel lc message runCtx msgBody
    w s hdec hlive hcap hok, ?_⟩, ?_⟩
  · rw [emitted_append w _ _ rfl]
    simp [acks_append, rejects_append, publishes_append, consumes_append, acks_ackUnlessAuto,
      rejects_ackUnlessAuto, publishes_ackUnlessAuto, consumes_ackUnlessAuto, acks,
      rejects, publishes, consumes]
  · intro rawBody w0 hw0
    rw [handleLogic_handler_ok unmarshal _ lc message _ rawBody msgBody w0 s hdec
      (by simp [consumerCtx, hlive]) hcap (by rw [hw0]; exact hok)]

theorem handler_success_acks_unless_auto_witness :
    (∃ w1, processMessage sampleUnmarshal
          (MustNewListener sampleUnmarshal sampleConf okHandler okChannel) auditQueue
          freshDelivery liveCtx startWorld = (.ret (), w1) ∧
        publishes (emitted startWorld w1) = [] ∧ rejects (emitted startWorld w1) = [] ∧
        acks (emitted startWorld w1) = (if auditQueue.AutoAck then [] else [(1, false)]) ∧
        consumes (emitted startWorld w1) = [[7, 8]] ∧ w1.hstate = 1) ∧
      ∀ (rawBody : Bytes) (w0 : World Nat), w0.hstate = 0 →
        (handleLogic sampleUnmarshal
          (MustNewListener sampleUnmarshal sampleConf okHandler okChannel) auditQueue
          freshDelivery (consumerCtx liveCtx ⟨[], [7, 8]⟩ "audit") rawBody w0).1 = .ret none :=
  handler_success_acks_unless_auto sampleUnmarshal sampleConf okHandler okChannel auditQueue
    freshDelivery liveCtx ⟨[], [7, 8]⟩ startWorld 1 rfl rfl (by decide) rfl

/-- C3, amended: for every delivery and every previous retry count `r` of type
`int64`, `requeueMessage` publishes exactly one message, to the default exchange
with the queue's name as routing key, with the delivery's body and with the
delivery's header table (nil counting as empty) in which `x-retry-count` is the
`int64` sum `r + 1` (`r + 1` below the largest `int64`, `-2^63` at it) and every
other key is unchanged. -/
theorem requeue_publishes_incremented_copy (q : RabbitListener σ) (lc : ConsumerConf)
    (message : Delivery) (r : Int) (w : World σ) (hlo : -2 ^ 63 ≤ r) (hhi : r ≤ 2 ^ 63 - 1) :
    ∃ p : Publishing,
      publishes (emitted w (requeueMessage q lc message r w)) =
        [⟨"", lc.Name, false, false, p⟩] ∧
      p.Body = message.Body ∧
      p.Headers.get "x-retry-count" =
        some (.int64 (if r = 2 ^ 63 - 1 then -2 ^ 63 else r + 1)) ∧
      ∀ k : String, k ≠ "x-retry-count" →
        p.Headers.get k = (message.Headers.getD []).get k := by
  refine ⟨requeuePublishing q message r, ?_, rfl, ?_, ?_⟩
  · rw [requeueMessage_trace, emitted_append w _ _ rfl, publishes_requeueEvents]
  · rw [← wrapInt64_succ r hlo hhi]
    exact requeuePublishing_retry q message r
  · intro k hk
    exact requeuePublishing_other q message r k hk

theorem requeue_publishes_incremented_copy_witness :
    ∃ p : Publishing,
      publishes (emitted startWorld
          (requeueMessage (MustNewListener sampleUnmarshal sampleConf failingHandler okChannel)
            ordersQueue freshDelivery 0 startWorld)) =
        [⟨"", "orders", false, false, p⟩] ∧
      p.Body = [123, 7, 8] ∧
      p.Headers.get "x-retry-count" =
        some (.int64 (if (0 : Int) = 2 ^ 63 - 1 then -2 ^ 63 else 0 + 1)) ∧
      ∀ k : String, k ≠ "x-retry-count" →
        p.Headers.get k = (freshDelivery.Headers.getD []).get k :=
  requeue_publishes_incremented_copy
    (MustNewListener sampleUnmarshal sampleConf failingHandler okChannel) ordersQueue
    freshDelivery 0 startWorld (by norm_num) (by norm_num)

/-- C3 fails as stated at the previous retry count `2^63 - 1`: the published
counter is `-2^63`, not `2^63`. -/
theorem requeue_counter_wraps_at_max_int64 :
    publishes (emitted startWorld
        (requeueMessage (MustNewListener sampleUnmarshal sampleConf failingHandler okChannel)
          bulkQueue saturatedDelivery 9223372036854775807 startWorld)) =
      [⟨"", "bulk", false, false,
        ⟨[("x-retry-count", .int64 (-9223372036854775808))], "text/plain", [123, 7, 8]⟩⟩] ∧
    HeaderVal.int64 (-9223372036854775808) ≠ HeaderVal.int64 (9223372036854775807 + 1) := by
  decide

/-- C9: `recoveryInterceptor` never returns a panic.  When `next` returns, the
interceptor returns the same error value and the same world (one call of `next`
on the same context and body, nothing added); when `next` panics with `r`, the
interceptor returns the non-nil error `"panic: " ++ r`, having only added the
panic log line to what `next` did. -/
theorem recovery_contains_panics (ctx : Context) (queueName : String) (body : Bytes)
    (next : Next σ) (w : World σ) :
    (∀ v : PanicValue, (recoveryInterceptor ctx queueName body next w).1 ≠ .panic v) ∧
      (∀ (err : Option GoError) (w1 : World σ), next ctx body w = (.ret err, w1) →
        recoveryInterceptor ctx queueName body next w = (.ret err, w1)) ∧
      (∀ (r : PanicValue) (w1 : World σ), next ctx body w = (.panic r, w1) →
        ∃ e : GoError, e.msg = "panic: " ++ r.text ∧
          recoveryInterceptor ctx queueName body next w =
            (.ret (some e), { w1 with trace := w1.trace ++ [.log (.mqPanic queueName r)] })) := by
  refine ⟨?_, ?_, ?_⟩
  · intro v
    unfold recoveryInterceptor
    split <;> simp
  · intro err w1 h
    simp [recoveryInterceptor, h]
  · intro r w1 h
    exact ⟨⟨"panic: " ++ r.text⟩, rfl, by simp [recoveryInterceptor, h, World.emit]⟩

theorem recovery_contains_panics_witness :
    recoveryInterceptor liveCtx "orders" [123, 7, 8]
        (handleLogic sampleUnmarshal
          (MustNewListener sampleUnmarshal sampleConf panickingHandler okChannel) ordersQueue
          freshDelivery) startWorld =
      (.ret (some ⟨"panic: index out of range"⟩),
        { trace := [.consume liveCtx [7, 8], .log (.mqPanic "orders" ⟨"index out of range"⟩)],
          hstate := 1 }) ∧
    recoveryInterceptor liveCtx "orders" [123, 7, 8]
        (handleLogic sampleUnmarshal
          (MustNewListener sampleUnmarshal sampleConf okHandler okChannel) ordersQueue
          freshDelivery) startWorld =
      (.ret none, { trace := [.consume liveCtx [7, 8], .ack 1 false], hstate := 1 }) := by
  have h := recovery_contains_panics liveCtx "orders" [123, 7, 8]
    (handleLogic sampleUnmarshal
      (MustNewListener sampleUnmarshal sampleConf panickingHandler okChannel) ordersQueue
      freshDelivery) startWorld
  have h2 := recovery_contains_panics liveCtx "orders" [123, 7, 8]
    (handleLogic sampleUnmarshal
      (MustNewListener sampleUnmarshal sampleConf okHandler okChannel) ordersQueue
      freshDelivery) startWorld
  refine ⟨?_, h2.2.1 none _ rfl⟩
  obtain ⟨e, he, heq⟩ := h.2.2 ⟨"index out of range"⟩ _ rfl
  rw [heq]
  cases e
  simp only [] at he
  subst he
  rfl

/-- C6, amended: a delivery whose body decodes and whose retry count `r` (an
`int64`) is within `MaxRetryCount`, on a queue that is not auto-ack under a live
generation, with a handler call that returns an error: whatever the channel
answers to the publish, `processMessage` makes exactly one handler call and
exactly one publish, to the default exchange with the queue's name as routing
key, of the same body with retry count the `int64` sum `r + 1` (`r + 1` below the
largest `int64`, `-2^63` at it), acknowledges the original delivery exactly once
and rejects nothing; the closure `handleLogic` returns the handler's error. -/
theorem handler_error_republishes_and_acks (unmarshal : Bytes → Except GoError RabbitMsgBody)
    (conf : RabbitListenerConf) (handler : ConsumeHandler σ) (channel : Channel)
    (lc : ConsumerConf) (message : Delivery) (runCtx : Context) (msgBody : RabbitMsgBody)
    (w : World σ) (s : σ) (e : GoError) (hdec : unmarshal message.Body = .ok msgBody)
    (hlive : runCtx.done = false) (hauto : lc.AutoAck = false)
    (hcap : extractRetryCount message ≤ lc.MaxRetryCount)
    (hlo : -2 ^ 63 ≤ extractRetryCount message) (hhi : lc.MaxRetryCount ≤ 2 ^ 63 - 1)
    (herr : handler.Consume (consumerCtx runCtx msgBody lc.Name) msgBody.Msg w.hstate =
      (.ret (some e), s)) :
    (∃ (w1 : World σ) (p : Publishing),
        processMessage unmarshal (MustNewListener unmarshal conf handler channel) lc
          message runCtx w = (.ret (), w1) ∧
        publishes (emitted w w1) = [⟨"", lc.Name, false, false, p⟩] ∧
        p.Body = message.Body ∧
        p.Headers.get "x-retry-count" =
          some (.int64 (if extractRetryCount message = 2 ^ 63 - 1 then -2 ^ 63
            else extractRetryCount message + 1)) ∧
        acks (emitted w w1) = [(message.DeliveryTag, false)] ∧
        rejects (emitted w w1) = [] ∧ consumes (emitted w w1) = [msgBody.Msg] ∧
        w1.hstate = s) ∧
      ∀ (rawBody : Bytes) (w0 : World σ), w0.hstate = w.hstate →
        (handleLogic unmarshal (MustNewListener unmarshal conf handler channel) lc message
          (consumerCtx runCtx msgBody lc.Name) rawBody w0).1 = .ret (some e) := by
  refine ⟨⟨_, requeuePublishing (MustNewListener unmarshal conf handler channel) message
    (extractRetryCount message), processMessage_handler_err unmarshal conf handler channel lc
    message runCtx msgBody w s e hdec hlive hcap herr, ?_⟩, ?_⟩
  · rw [emitted_append w _ _ rfl]
    refine ⟨?_, rfl, ?_, ?_, ?_, ?_, rfl⟩
    · simp only [publishes_append, publishes_requeueEvents]
      simp [publishes]
    · rw [← wrapInt64_succ _ hlo (le_trans hcap hhi)]
      exact requeuePublishing_retry _ message _
    · simp only [acks_append, acks_requeueEvents, hauto]
      simp [acks]
    · simp only [rejects_append, rejects_requeueEvents]
      simp [rejects]
    · simp only [consumes_append, consumes_requeueEvents]
      simp [consumes]
  · intro rawBody w0 hw0
    rw [handleLogic_handler_err unmarshal _ lc message _ rawBody msgBody w0 s e hdec
      (by simp [consumerCtx, hlive]) hcap (by rw [hw0]; exact herr)]

theorem handler_error_republishes_and_acks_witness :
    (∃ (w1 : World Nat) (p : Publishing),
        processMessage sampleUnmarshal
          (MustNewListener sampleUnmarshal sampleConf failingHandler brokenChannel) ordersQueue
          freshDelivery liveCtx startWorld = (.ret (), w1) ∧
        publishes (emitted startWorld w1) = [⟨"", "orders", false, false, p⟩] ∧
        p.Body = [123, 7, 8] ∧
        p.Headers.get "x-retry-count" =
          some (.int64 (if extractRetryCount freshDelivery = 2 ^ 63 - 1 then -2 ^ 63
            else extractRetryCount freshDelivery + 1)) ∧
        acks (emitted startWorld w1) = [(1, false)] ∧
        rejects (emitted startWorld w1) = [] ∧ consumes (emitted startWorld w1) = [[7, 8]] ∧
        w1.hstate = 1) ∧
      ∀ (rawBody : Bytes) (w0 : World Nat), w0.hstate = 0 →
        (handleLogic sampleUnmarshal
          (MustNewListener sampleUnmarshal sampleConf failingHandler brokenChannel) ordersQueue
          freshDelivery (consumerCtx liveCtx ⟨[], [7, 8]⟩ "orders") rawBody w0).1 =
            .ret (some ⟨"handler failed"⟩) :=
  handler_error_republishes_and_acks sampleUnmarshal sampleConf failingHandler brokenChannel
    ordersQueue freshDelivery liveCtx ⟨[], [7, 8]⟩ startWorld 1 ⟨"handler failed"⟩ rfl rfl
    rfl (by decide) (by decide) (by decide) rfl

/-- C6 fails as stated on a queue whose `MaxRetryCount` is the largest `int64`, for
a delivery whose retry count is that value: the handler's error leads to a
republish with retry count `-2^63`, not `2^63`. -/
theorem republish_counter_wraps_at_max_int64 :
    extractRetryCount saturatedDelivery = 9223372036854775807 ∧
    extractRetryCount saturatedDelivery ≤ bulkQueue.MaxRetryCount ∧
    publishes (emitted startWorld
        (processMessage sampleUnmarshal
          (MustNewListener sampleUnmarshal sampleConf failingHandler okChannel) bulkQueue
          saturatedDelivery liveCtx startWorld).2) =
      [⟨"", "bulk", false, false,
        ⟨[("x-retry-count", .int64 (-9223372036854775808))], "text/plain", [123, 7, 8]⟩⟩] ∧
    (-9223372036854775808 : Int) ≠ 9223372036854775807 + 1 := by
  decide

/-- C8 on the code: with the default chain on a queue that is not auto-ack, a
handler that panics on a first delivery leaves the delivery without publish,
acknowledgement or reject (the panic is only logged by the recovery interceptor),
while a handler that returns an error on the same delivery gets it republished
with retry count 1 and acknowledged. -/
theorem handler_panic_skips_requeue_and_ack :
    processMessage sampleUnmarshal
        (MustNewListener sampleUnmarshal sampleConf panickingHandler okChannel) ordersQueue
        freshDelivery liveCtx startWorld =
      (.ret (), { trace := [.wgAdd 1, .spanStart "mq-consume-orders",
          .consume ⟨false, some [], some "mq-consume-orders"⟩ [7, 8],
          .spanEnd "mq-consume-orders", .log (.mqPanic "orders" ⟨"index out of range"⟩),
          .wgDone], hstate := 1 }) ∧
    publishes (emitted startWorld (processMessage sampleUnmarshal
        (MustNewListener sampleUnmarshal sampleConf panickingHandler okChannel) ordersQueue
        freshDelivery liveCtx startWorld).2) = [] ∧
    acks (emitted startWorld (processMessage sampleUnmarshal
        (MustNewListener sampleUnmarshal sampleConf panickingHandler okChannel) ordersQueue
        freshDelivery liveCtx startWorld).2) = [] ∧
    rejects (emitted startWorld (processMessage sampleUnmarshal
        (MustNewListener sampleUnmarshal sampleConf panickingHandler okChannel) ordersQueue
        freshDelivery liveCtx startWorld).2) = [] ∧
    publishes (emitted startWorld (processMessage sampleUnmarshal
        (MustNewListener sampleUnmarshal sampleConf failingHandler okChannel) ordersQueue
        freshDelivery liveCtx startWorld).2) =
      [⟨"", "orders", false, false,
        ⟨[("x-retry-count", .int64 1)], "text/plain", [123, 7, 8]⟩⟩] ∧
    acks (emitted startWorld (processMessage sampleUnmarshal
        (MustNewListener sampleUnmarshal sampleConf failingHandler okChannel) ordersQueue
        freshDelivery liveCtx startWorld).2) = [(1, false)] := by
  refine ⟨?_, ?_, ?_, ?_, ?_, ?_⟩
  · exact processMessage_handler_panic sampleUnmarshal sampleConf panickingHandler okChannel
      ordersQueue freshDelivery liveCtx ⟨[], [7, 8]⟩ startWorld 1 ⟨"index out of range"⟩ rfl
      rfl (by decide) rfl
  all_goals decide

/-! ### The redelivery sequence of a failing message -/

theorem extractRetryCount_nextDelivery (q : RabbitListener σ) (d : Delivery) :
    extractRetryCount (nextDelivery q d) = wrapInt64 (extractRetryCount d + 1) := by
  have h := requeuePublishing_retry q d (extractRetryCount d)
  simp only [nextDelivery, redeliver]
  generalize extractRetryCount d = r at h ⊢
  simp only [extractRetryCount, Option.getD_some, h]

theorem processMessage_over_cap_obs (unmarshal : Bytes → Except GoError RabbitMsgBody)
    (conf : RabbitListenerConf) (handler : ConsumeHandler σ) (channel : Channel)
    (lc : ConsumerConf) (d : Delivery) (runCtx : Context) (msgBody : RabbitMsgBody)
    (w : World σ) (hdec : unmarshal d.Body = .ok msgBody)
    (hlive : runCtx.done = false) (hcap : extractRetryCount d > lc.MaxRetryCount) :
    ∃ evs : List Event,
      processMessage unmarshal (MustNewListener unmarshal conf handler channel) lc d runCtx w =
        (.ret (), ⟨w.trace ++ evs, w.hstate⟩) ∧
      consumes evs = [] ∧ publishes evs = [] ∧ rejects evs = [] ∧
      acks evs = (if lc.AutoAck then [] else [(d.DeliveryTag, false)]) := by
  refine ⟨_, processMessage_over_cap unmarshal conf handler channel lc d runCtx msgBody w
    hdec hlive hcap, ?_, ?_, ?_, ?_⟩
  · simp only [consumes_append, consumes_ackUnlessAuto]
    simp [consumes]
  · simp only [publishes_append, publishes_ackUnlessAuto]
    simp [publishes]
  · simp only [rejects_append, rejects_ackUnlessAuto]
    simp [rejects]
  · simp only [acks_append, acks_ackUnlessAuto]
    simp [acks]

theorem processMessage_handler_err_obs (unmarshal : Bytes → Except GoError RabbitMsgBody)
    (conf : RabbitListenerConf) (handler : ConsumeHandler σ) (channel : Channel)
    (lc : ConsumerConf) (d : Delivery) (runCtx : Context) (msgBody : RabbitMsgBody)
    (w : World σ) (s : σ) (e : GoError) (hdec : unmarshal d.Body = .ok msgBody)
    (hlive : runCtx.done = false) (hcap : extractRetryCount d ≤ lc.MaxRetryCount)
    (herr : handler.Consume (consumerCtx runCtx msgBody lc.Name) msgBody.Msg w.hstate =
      (.ret (some e), s)) :
    ∃ evs : List Event,
      processMessage unmarshal (MustNewListener unmarshal conf handler channel) lc d runCtx w =
        (.ret (), ⟨w.trace ++ evs, s⟩) ∧
      consumes evs = [msgBody.Msg] ∧
      publishes evs = [⟨"", lc.Name, false, false, requeuePublishing
        (MustNewListener unmarshal conf handler channel) d (extractRetryCount d)⟩] ∧
      rejects evs = [] ∧
      acks evs = (if lc.AutoAck then [] else [(d.DeliveryTag, false)]) := by
  refine ⟨_, processMessage_handler_err unmarshal conf handler channel lc d runCtx msgBody w
    s e hdec hlive hcap herr, ?_, ?_, ?_, ?_⟩
  · simp only [consumes_append, consumes_requeueEvents]
    simp [consumes]
  · simp only [publishes_append, publishes_requeueEvents]
    simp [publishes]
  · simp only [rejects_append, rejects_requeueEvents]
    simp [rejects]
  · simp only [acks_append, acks_requeueEvents]
    simp [acks]

theorem redeliveries_drop_step (unmarshal : Bytes → Except GoError RabbitMsgBody)
    (conf : RabbitListenerConf) (handler : ConsumeHandler σ) (channel : Channel)
    (lc : ConsumerConf) (d : Delivery) (runCtx : Context) (msgBody : RabbitMsgBody)
    (w : World σ) (fuel : Nat) (hdec : unmarshal d.Body = .ok msgBody)
    (hlive : runCtx.done = false) (hcap : extractRetryCount d > lc.MaxRetryCount) :
    ∃ (evs : List Event) (w1 : World σ),
      redeliveries unmarshal (MustNewListener unmarshal conf handler channel) lc runCtx
        (fuel + 1) d w = ([⟨d, evs⟩], w1) ∧
      consumes evs = [] ∧ publishes evs = [] ∧ rejects evs = [] ∧
      acks evs = (if lc.AutoAck then [] else [(d.DeliveryTag, false)]) ∧
      w1.trace = w.trace ++ evs := by
  obtain ⟨evs, h, hc, hp, hr, ha⟩ := processMessage_over_cap_obs unmarshal conf handler channel
    lc d runCtx msgBody w hdec hlive hcap
  refine ⟨evs, ⟨w.trace ++ evs, w.hstate⟩, ?_, hc, hp, hr, ha, rfl⟩
  rw [redeliveries, h]
  simp only [emitted_append w ⟨w.trace ++ evs, w.hstate⟩ evs rfl, hp]

theorem redeliveries_republish_step (unmarshal : Bytes → Except GoError RabbitMsgBody)
    (conf : RabbitListenerConf) (handler : ConsumeHandler σ) (channel : Channel)
    (lc : ConsumerConf) (d : Delivery) (runCtx : Context) (msgBody : RabbitMsgBody)
    (w : World σ) (fuel : Nat) (hdec : unmarshal d.Body = .ok msgBody)
    (hlive : runCtx.done = false) (hcap : extractRetryCount d ≤ lc.MaxRetryCount)
    (hfail : ∀ c b s, ∃ e s1, handler.Consume c b s = (.ret (some e), s1)) :
    ∃ (evs : List Event) (w1 : World σ),
      redeliveries unmarshal (MustNewListener unmarshal conf handler channel) lc runCtx
          (fuel + 1) d w =
        (⟨d, evs⟩ :: (redeliveries unmarshal (MustNewListener unmarshal conf handler channel)
            lc runCtx fuel
            (nextDelivery (MustNewListener unmarshal conf handler channel) d) w1).1,
          (redeliveries unmarshal (MustNewListener unmarshal conf handler channel)
            lc runCtx fuel
            (nextDelivery (MustNewListener unmarshal conf handler channel) d) w1).2) ∧
      consumes evs = [msgBody.Msg] ∧ (publishes evs).length = 1 ∧ rejects evs = [] ∧
      acks evs = (if lc.AutoAck then [] else [(d.DeliveryTag, false)]) ∧
      w1.trace = w.trace ++ evs := by
  obtain ⟨e, s1, herr⟩ := hfail (consumerCtx runCtx msgBody lc.Name) msgBody.Msg w.hstate
  obtain ⟨evs, h, hc, hp, hr, ha⟩ := processMessage_handler_err_obs unmarshal conf handler
    channel lc d runCtx msgBody w s1 e hdec hlive hcap herr
  refine ⟨evs, ⟨w.trace ++ evs, s1⟩, ?_, hc, by rw [hp]; rfl, hr, ha, rfl⟩
  rw [redeliveries, h]
  simp only [emitted_append w ⟨w.trace ++ evs, s1⟩ evs rfl, hp]
  rfl

theorem range_succ_map_add (r : Int) (n : Nat) :
    (List.range (n + 1)).map (fun i : Nat => r + (i : Int)) =
      r :: (List.range n).map (fun i : Nat => r + 1 + (i : Int)) := by
  rw [List.range_succ_eq_map]
  simp only [List.map_cons, List.map_map, Nat.cast_zero, add_zero, List.cons.injEq, true_and]
  apply List.map_congr_left
  intro i _
  simp only [Function.comp, Nat.cast_succ]
  ring

theorem redeliveries_countdown (unmarshal : Bytes → Except GoError RabbitMsgBody)
    (conf : RabbitListenerConf) (handler : ConsumeHandler σ) (channel : Channel)
    (lc : ConsumerConf) (runCtx : Context) (msgBody : RabbitMsgBody)
    (hlive : runCtx.done = false) (hM : lc.MaxRetryCount < 2 ^ 63 - 1)
    (hfail : ∀ c b s, ∃ e s1, handler.Consume c b s = (.ret (some e), s1)) :
    ∀ (k : Nat) (d : Delivery) (w : World σ) (fuel : Nat),
      unmarshal d.Body = .ok msgBody → 0 ≤ extractRetryCount d →
      extractRetryCount d + (k : Int) = lc.MaxRetryCount + 1 → k + 1 ≤ fuel →
      ∃ (attempts : List Attempt) (wf : World σ) (evs : List Event),
        redeliveries unmarshal (MustNewListener unmarshal conf handler channel) lc runCtx
          fuel d w = (attempts, wf) ∧
        attempts.map (fun a => extractRetryCount a.delivery) =
          (List.range (k + 1)).map (fun i : Nat => extractRetryCount d + (i : Int)) ∧
        attempts.map (fun a => consumes a.events) = List.replicate k [msgBody.Msg] ++ [[]] ∧
        attempts.map (fun a => (publishes a.events).length) = List.replicate k 1 ++ [0] ∧
        (∀ a ∈ attempts, rejects a.events = [] ∧
          acks a.events = (if lc.AutoAck then [] else [(a.delivery.DeliveryTag, false)])) ∧
        wf.trace = w.trace ++ evs ∧
        consumes evs = List.replicate k msgBody.Msg ∧ (publishes evs).length = k := by
  intro k
  induction k with
  | zero =>
    intro d w fuel hdec _ hk hfuel
    obtain ⟨f, rfl⟩ : ∃ f, fuel = f + 1 := ⟨fuel - 1, by omega⟩
    have hcap : extractRetryCount d > lc.MaxRetryCount := by
      simp only [Nat.cast_zero, add_zero] at hk
      omega
    obtain ⟨evs, w1, hrun, hc, hp, hr, ha, htr⟩ := redeliveries_drop_step unmarshal conf handler
      channel lc d runCtx msgBody w f hdec hlive hcap
    refine ⟨_, _, evs, hrun, ?_, ?_, ?_, ?_, htr, ?_, ?_⟩
    · simp [List.range_succ]
    · simp [hc]
    · simp [hp]
    · intro a ha1
      simp only [List.mem_singleton] at ha1
      subst ha1
      exact ⟨hr, ha⟩
    · simp [hc]
    · simp [hp]
  | succ k ih =>
    intro d w fuel hdec hr0 hk hfuel
    obtain ⟨f, rfl⟩ : ∃ f, fuel = f + 1 := ⟨fuel - 1, by omega⟩
    have hcap : extractRetryCount d ≤ lc.MaxRetryCount := by
      push_cast at hk
      omega
    obtain ⟨evs, w1, hrun, hc, hp, hr, ha, htr⟩ := redeliveries_republish_step unmarshal conf
      handler channel lc d runCtx msgBody w f hdec hlive hcap hfail
    have hnext : extractRetryCount
        (nextDelivery (MustNewListener unmarshal conf handler channel) d) =
        extractRetryCount d + 1 := by
      rw [extractRetryCount_nextDelivery, wrapInt64_succ _ (by omega) (by omega)]
      rw [if_neg (by omega)]
    obtain ⟨rest, wf, evs2, hrest, h1, h2, h3, h4, htr2, h5, h6⟩ :=
      ih (nextDelivery (MustNewListener unmarshal conf handler channel) d) w1 f hdec
        (by rw [hnext]; omega) (by rw [hnext]; push_cast at hk; omega) (by omega)
    rw [hrest] at hrun
    refine ⟨_, _, evs ++ evs2, hrun, ?_, ?_, ?_, ?_, ?_, ?_, ?_⟩
    · rw [range_succ_map_add, List.map_cons, h1, hnext]
    · rw [List.map_cons, h2, hc, List.replicate_succ, List.cons_append]
    · rw [List.map_cons, h3, hp, List.replicate_succ, List.cons_append]
    · intro a ha1
      rcases List.mem_cons.mp ha1 with rfl | hmem
      · exact ⟨hr, ha⟩
      · exact h4 a hmem
    · rw [htr2, htr, List.append_assoc]
    · rw [consumes_append, hc, h5, List.replicate_succ, List.singleton_append]
    · rw [publishes_append, List.length_append, hp, h6, Nat.add_comm]

/-- C10, amended: on a queue with `MaxRetryCount = M`, `0 <= M < 2^63 - 1`, with a
handler that returns an error on every call, a message whose body decodes, first
delivered without a retry header under a live generation and redelivered each
time it is republished, runs through exactly `M + 2` deliveries with retry counts
`0, 1, ..., M + 1`: each of the first `M + 1` is passed to the handler once and
republished once, the last one is neither passed to the handler nor republished,
every delivery is acknowledged (once, unless the queue is auto-ack) and none is
rejected; the sequence ends there however much fuel is left. -/
theorem failing_message_is_retried_then_dropped
    (unmarshal : Bytes → Except GoError RabbitMsgBody) (conf : RabbitListenerConf)
    (handler : ConsumeHandler σ) (channel : Channel) (lc : ConsumerConf) (runCtx : Context)
    (msgBody : RabbitMsgBody) (d : Delivery) (w : World σ) (M fuel : Nat)
    (hM : lc.MaxRetryCount = (M : Int)) (hbound : (M : Int) < 2 ^ 63 - 1)
    (hdec : unmarshal d.Body = .ok msgBody) (hlive : runCtx.done = false)
    (hfresh : (d.Headers.getD []).get retryHeader = none)
    (hfail : ∀ c b s, ∃ e s1, handler.Consume c b s = (.ret (some e), s1))
    (hfuel : M + 2 ≤ fuel) :
    ∃ (attempts : List Attempt) (wf : World σ),
      redeliveries unmarshal (MustNewListener unmarshal conf handler channel) lc runCtx
        fuel d w = (attempts, wf) ∧
      attempts.map (fun a => extractRetryCount a.delivery) =
        (List.range (M + 2)).map (fun i : Nat => (i : Int)) ∧
      attempts.map (fun a => consumes a.events) = List.replicate (M + 1) [msgBody.Msg] ++ [[]] ∧
      attempts.map (fun a => (publishes a.events).length) = List.replicate (M + 1) 1 ++ [0] ∧
      (∀ a ∈ attempts, rejects a.events = [] ∧
        acks a.events = (if lc.AutoAck then [] else [(a.delivery.DeliveryTag, false)])) ∧
      consumes (emitted w wf) = List.replicate (M + 1) msgBody.Msg ∧
      (publishes (emitted w wf)).length = M + 1 := by
  have hzero : extractRetryCount d = 0 := by simp [extractRetryCount, hfresh]
  obtain ⟨attempts, wf, evs, hrun, h1, h2, h3, h4, htr, h5, h6⟩ :=
    redeliveries_countdown unmarshal conf handler channel lc runCtx msgBody hlive
      (by rw [hM]; exact hbound) hfail (M + 1) d w fuel hdec (by rw [hzero])
      (by rw [hzero, hM]; push_cast; ring) hfuel
  refine ⟨attempts, wf, hrun, ?_, h2, h3, h4, ?_, ?_⟩
  · rw [h1, hzero]
    simp
  · rw [emitted_append w wf evs htr, h5]
  · rw [emitted_append w wf evs htr, h6]

theorem failing_message_is_retried_then_dropped_witness :
    ∃ (attempts : List Attempt) (wf : World Nat),
      redeliveries sampleUnmarshal
        (MustNewListener sampleUnmarshal sampleConf failingHandler okChannel) ordersQueue liveCtx
        10 freshDelivery startWorld = (attempts, wf) ∧
      attempts.map (fun a => extractRetryCount a.delivery) =
        (List.range (3 + 2)).map (fun i : Nat => (i : Int)) ∧
      attempts.map (fun a => consumes a.events) = List.replicate (3 + 1) [[7, 8]] ++ [[]] ∧
      attempts.map (fun a => (publishes a.events).length) = List.replicate (3 + 1) 1 ++ [0] ∧
      (∀ a ∈ attempts, rejects a.events = [] ∧
        acks a.events =
          (if ordersQueue.AutoAck then [] else [(a.delivery.DeliveryTag, false)])) ∧
      consumes (emitted startWorld wf) = List.replicate (3 + 1) [7, 8] ∧
      (publishes (emitted startWorld wf)).length = 3 + 1 :=
  failing_message_is_retried_then_dropped sampleUnmarshal sampleConf failingHandler okChannel
    ordersQueue liveCtx ⟨[], [7, 8]⟩ freshDelivery startWorld 3 10 rfl (by norm_num) rfl rfl rfl
    (fun _ _ s => ⟨⟨"handler failed"⟩, s + 1, rfl⟩) (by norm_num)

theorem redeliveries_never_drop (unmarshal : Bytes → Except GoError RabbitMsgBody)
    (conf : RabbitListenerConf) (handler : ConsumeHandler σ) (channel : Channel)
    (lc : ConsumerConf) (runCtx : Context) (msgBody : RabbitMsgBody)
    (hlive : runCtx.done = false) (hM : lc.MaxRetryCount = 2 ^ 63 - 1)
    (hfail : ∀ c b s, ∃ e s1, handler.Consume c b s = (.ret (some e), s1)) :
    ∀ (fuel : Nat) (d : Delivery) (w : World σ),
      unmarshal d.Body = .ok msgBody → extractRetryCount d ≤ 2 ^ 63 - 1 →
      (redeliveries unmarshal (MustNewListener unmarshal conf handler channel) lc runCtx
        fuel d w).1.length = fuel ∧
      ∀ a ∈ (redeliveries unmarshal (MustNewListener unmarshal conf handler channel) lc runCtx
        fuel d w).1, consumes a.events = [msgBody.Msg] ∧ (publishes a.events).length = 1 := by
  intro fuel
  induction fuel with
  | zero =>
    intro d w _ _
    simp [redeliveries]
  | succ f ih =>
    intro d w hdec hr
    obtain ⟨evs, w1, hrun, hc, hp, _, _, _⟩ := redeliveries_republish_step unmarshal conf
      handler channel lc d runCtx msgBody w f hdec hlive (by rw [hM]; exact hr) hfail
    obtain ⟨hlen, hall⟩ := ih (nextDelivery (MustNewListener unmarshal conf handler channel) d)
      w1 hdec (by rw [extractRetryCount_nextDelivery]; exact wrapInt64_le _)
    rw [hrun]
    refine ⟨by simp [hlen], ?_⟩
    intro a ha
    rcases List.mem_cons.mp ha with rfl | hmem
    · exact ⟨hc, hp⟩
    · exact hall a hmem

/-- C10 fails as stated on a queue whose `MaxRetryCount` is the largest `int64`: a
first delivery without retry header whose handler always fails is passed to the
handler and republished at every delivery of its redelivery sequence, however
long the sequence is followed; no delivery is ever dropped. -/
theorem retries_never_end_at_max_int64 :
    (0 ≤ bulkQueue.MaxRetryCount ∧ bulkQueue.MaxRetryCount = 2 ^ 63 - 1 ∧
      (freshDelivery.Headers.getD []).get retryHeader = none) ∧
    ∀ fuel : Nat,
      (redeliveries sampleUnmarshal
        (MustNewListener sampleUnmarshal sampleConf failingHandler okChannel) bulkQueue liveCtx
        fuel freshDelivery startWorld).1.length = fuel ∧
      ∀ a ∈ (redeliveries sampleUnmarshal
        (MustNewListener sampleUnmarshal sampleConf failingHandler okChannel) bulkQueue liveCtx
        fuel freshDelivery startWorld).1,
        consumes a.events = [[7, 8]] ∧ (publishes a.events).length = 1 := by
  refine ⟨⟨by decide, by decide, rfl⟩, ?_⟩
  intro fuel
  exact redeliveries_never_drop sampleUnmarshal sampleConf failingHandler okChannel bulkQueue
    liveCtx ⟨[], [7, 8]⟩ rfl (by decide) (fun _ _ s => ⟨⟨"handler failed"⟩, s + 1, rfl⟩)
    fuel freshDelivery startWorld rfl (by decide)

/-! ### Retry-count extraction -/

/-- C11: the retry count that `processMessage` extracts is 0 when the header
table has no key `x-retry-count` (a nil table included), is the header's value
when that value is an `int64`, an `int32` or an `int`, and is 0 when the value
has any other type. -/
theorem retry_count_extraction (message : Delivery) :
    (message.Headers = none → extractRetryCount message = 0) ∧
    (∀ t : Table, message.Headers = some t → t.get "x-retry-count" = none →
      extractRetryCount message = 0) ∧
    (∀ (t : Table) (v : Int), message.Headers = some t →
      (t.get "x-retry-count" = some (.int64 v) ∨ t.get "x-retry-count" = some (.int32 v) ∨
        t.get "x-retry-count" = some (.int v)) → extractRetryCount message = v) ∧
    (∀ (t : Table) (r : String), message.Headers = some t →
      t.get "x-retry-count" = some (.other r) → extractRetryCount message = 0) := by
  refine ⟨?_, ?_, ?_, ?_⟩
  · intro h
    simp [extractRetryCount, h, Table.get, retryHeader]
  · intro t h hk
    have hk2 : Table.get t retryHeader = none := hk
    simp [extractRetryCount, h, hk2]
  · intro t v h hk
    have hk2 : Table.get t retryHeader = some (.int64 v) ∨
        Table.get t retryHeader = some (.int32 v) ∨ Table.get t retryHeader = some (.int v) := hk
    rcases hk2 with h1 | h1 | h1 <;> simp [extractRetryCount, h, h1]
  · intro t r h hk
    have hk2 : Table.get t retryHeader = some (.other r) := hk
    simp [extractRetryCount, h, hk2]

theorem retry_count_extraction_witness :
    extractRetryCount freshDelivery = 0 ∧ extractRetryCount wornDelivery = 4 ∧
      extractRetryCount textCountDelivery = 0 ∧
      extractRetryCount ⟨some [("x-retry-count", .int32 2)], [], 7⟩ = 2 ∧
      extractRetryCount ⟨some [("x-retry-count", .int 3)], [], 8⟩ = 3 ∧
      extractRetryCount ⟨some [("x-death", .int 3)], [], 9⟩ = 0 :=
  ⟨(retry_count_extraction freshDelivery).1 rfl,
    (retry_count_extraction wornDelivery).2.2.1 _ 4 rfl (Or.inl (by decide)),
    (retry_count_extraction textCountDelivery).2.2.2 _ "two" rfl (by decide),
    (retry_count_extraction _).2.2.1 _ 2 rfl (Or.inr (Or.inl (by decide))),
    (retry_count_extraction _).2.2.1 _ 3 rfl (Or.inr (Or.inr (by decide))),
    (retry_count_extraction _).2.1 _ rfl (by decide)⟩

/-! ### The in-flight counter -/

theorem wgOps_requeueEvents (q : RabbitListener σ) (lc : ConsumerConf) (message : Delivery)
    (r : Int) (before : List Event) :
    wgOps (requeueEvents q lc message r before) = [] := by
  cases h : q.channel.publishErr before (requeuePublishing q message r) <;>
  simp [requeueEvents, h, wgOps, wgOps_append, wgOps_ackUnlessAuto]

theorem handleLogic_leaves_counter (unmarshal : Bytes → Except GoError RabbitMsgBody)
    (q : RabbitListener σ) (lc : ConsumerConf) (message : Delivery) (ctx : Context)
    (rawBody : Bytes) : LeavesCounter (handleLogic unmarshal q lc message ctx rawBody) := by
  intro w
  cases hdone : ctx.done with
  | true =>
    exact ⟨[.reject message.DeliveryTag true], by simp [handleLogic, hdone, World.emit], rfl⟩
  | false =>
    cases hdec : unmarshal message.Body with
    | error err =>
      rw [handleLogic_undecodable unmarshal q lc message ctx rawBody err w hdec hdone]
      exact ⟨_, rfl, by simp [wgOps_append, wgOps_ackUnlessAuto, wgOps]⟩
    | ok msgBody =>
      by_cases hcap : extractRetryCount message > lc.MaxRetryCount
      · rw [handleLogic_over_cap unmarshal q lc message ctx rawBody msgBody w hdec hdone hcap]
        exact ⟨_, rfl, wgOps_ackUnlessAuto lc message⟩
      · have hcap2 : extractRetryCount message ≤ lc.MaxRetryCount := not_lt.mp hcap
        cases hh : q.handler.Consume ctx msgBody.Msg w.hstate with
        | mk r s =>
          cases r with
          | panic v =>
            exact ⟨[.consume ctx msgBody.Msg],
              by simp [handleLogic, parseMessage, hdec, hdone, hcap, World.emit, hh], rfl⟩
          | ret e =>
            cases e with
            | none =>
              rw [handleLogic_handler_ok unmarshal q lc message ctx rawBody msgBody w s hdec
                hdone hcap2 hh]
              exact ⟨_, rfl, by simp [wgOps_append, wgOps_ackUnlessAuto, wgOps]⟩
            | some err =>
              rw [handleLogic_handler_err unmarshal q lc message ctx rawBody msgBody w s err
                hdec hdone hcap2 hh]
              exact ⟨_, rfl, by rw [wgOps_append, wgOps_requeueEvents]; rfl⟩

theorem recoveryInterceptor_neutral : CounterNeutral (recoveryInterceptor : Interceptor σ) := by
  intro ctx queueName body next hnext w
  obtain ⟨evs, h, hw⟩ := hnext ctx body w
  unfold recoveryInterceptor
  cases hr : next ctx body w with
  | mk r w1 =>
    rw [hr] at h
    cases r with
    | ret err => exact ⟨evs, h, hw⟩
    | panic v =>
      refine ⟨evs ++ [.log (.mqPanic queueName v)], ?_, ?_⟩
      · simp only [World.emit]
        rw [h, List.append_assoc]
      · simp [wgOps_append, hw, wgOps]

theorem traceInterceptor_neutral (unmarshal : Bytes → Except GoError RabbitMsgBody) :
    CounterNeutral (traceInterceptor unmarshal : Interceptor σ) := by
  intro ctx queueName body next hnext w
  unfold traceInterceptor
  cases hdec : unmarshal body with
  | error err => exact hnext ctx body w
  | ok msgBody =>
    dsimp only
    obtain ⟨evs, h, hw⟩ := hnext
      { done := ctx.done, remote := some msgBody.Carrier,
        span := some ("mq-consume-" ++ queueName) } body
      (w.emit (.spanStart ("mq-consume-" ++ queueName)))
    refine ⟨[.spanStart ("mq-consume-" ++ queueName)] ++ evs ++
      [.spanEnd ("mq-consume-" ++ queueName)], ?_, ?_⟩
    · simp only [World.emit] at h ⊢
      rw [h]
      simp only [List.append_assoc]
    · simp [wgOps_append, hw, wgOps]

theorem prometheusInterceptor_neutral :
    CounterNeutral (prometheusInterceptor : Interceptor σ) := by
  intro ctx queueName body next hnext w
  obtain ⟨evs, h, hw⟩ := hnext ctx body w
  unfold prometheusInterceptor
  cases hr : next ctx body w with
  | mk r w1 =>
    rw [hr] at h
    cases r with
    | panic v => exact ⟨evs, h, hw⟩
    | ret err =>
      refine ⟨evs ++ [.metricDuration queueName,
        .metricTotal queueName (if err.isSome then "fail" else "success")], ?_, ?_⟩
      · simp only [World.emit]
        rw [h]
        simp only [List.append_assoc, List.cons_append, List.nil_append]
      · simp [wgOps_append, hw, wgOps]

theorem loggingInterceptor_neutral : CounterNeutral (loggingInterceptor : Interceptor σ) := by
  intro ctx queueName body next hnext w
  obtain ⟨evs, h, hw⟩ := hnext ctx body w
  unfold loggingInterceptor
  cases hr : next ctx body w with
  | mk r w1 =>
    rw [hr] at h
    cases r with
    | panic v => exact ⟨evs, h, hw⟩
    | ret err =>
      cases err with
      | none => exact ⟨evs, h, hw⟩
      | some e =>
        refine ⟨evs ++ [.log (.mqError queueName e body)], ?_, ?_⟩
        · simp only [World.emit]
          rw [h, List.append_assoc]
        · simp [wgOps_append, hw, wgOps]

theorem Chain_neutral (is : List (Interceptor σ)) (h : ∀ i ∈ is, CounterNeutral i) :
    CounterNeutral (Chain is) := by
  induction is with
  | nil =>
    intro ctx queueName body next hnext
    rw [Chain_nil]
    exact hnext ctx body
  | cons x rest ih =>
    intro ctx queueName body next hnext
    rw [Chain_cons]
    exact h x (List.mem_cons_self _ _) ctx queueName body _
      (fun c b => ih (fun i hi => h i (List.mem_cons_of_mem _ hi)) c queueName b next hnext)

theorem defaultInterceptor_neutral (unmarshal : Bytes → Except GoError RabbitMsgBody) :
    CounterNeutral (defaultInterceptor unmarshal : Interceptor σ) := by
  unfold defaultInterceptor
  apply Chain_neutral
  intro i hi
  simp only [List.mem_cons, List.mem_singleton, List.not_mem_nil, or_false] at hi
  rcases hi with rfl | rfl | rfl | rfl
  · exact recoveryInterceptor_neutral
  · exact traceInterceptor_neutral unmarshal
  · exact prometheusInterceptor_neutral
  · exact loggingInterceptor_neutral

theorem processMessage_live_trace (unmarshal : Bytes → Except GoError RabbitMsgBody)
    (q : RabbitListener σ) (lc : ConsumerConf) (message : Delivery) (runCtx : Context)
    (w : World σ) (hq : CounterNeutral q.interceptor) (hlive : runCtx.done = false) :
    ∃ evs, (processMessage unmarshal q lc message runCtx w).2.trace =
        w.trace ++ [.wgAdd 1] ++ evs ++ [.wgDone] ∧ wgOps evs = [] := by
  obtain ⟨evs, h, hw⟩ := hq runCtx lc.Name message.Body
    (handleLogic unmarshal q lc message)
    (fun c b => handleLogic_leaves_counter unmarshal q lc message c b) (w.emit (.wgAdd 1))
  refine ⟨evs, ?_, hw⟩
  unfold processMessage
  simp only [hlive, Bool.false_eq_true, if_false]
  cases hr : q.interceptor runCtx lc.Name message.Body (handleLogic unmarshal q lc message)
      (w.emit (.wgAdd 1)) with
  | mk r w2 =>
    rw [hr] at h
    cases r <;> simp only [World.emit] at h ⊢ <;> rw [h]

theorem inflight_append (xs ys : List Event) : inflight (xs ++ ys) = inflight xs + inflight ys := by
  simp [inflight, wgOps_append]

/-- C25: `processMessage` balances the in-flight counter, for every delivery, queue
configuration and interceptor chain that does not touch the wait group itself (as
the default chain): the counter after the call equals the counter before; at the
cancellation gate no wait-group operation happens; past the gate the trace is
`Add(1)`, the actions of the chain, `Done()`, and at every point of the chain the
counter is one higher than before the call; and the closure `handleLogic` performs
no wait-group operation on any path (cancelled context, decode failure, retry cap,
handler success, error or panic). -/
theorem in_flight_counter_is_balanced (unmarshal : Bytes → Except GoError RabbitMsgBody)
    (q : RabbitListener σ) (lc : ConsumerConf) (message : Delivery) (runCtx : Context)
    (w : World σ) (hq : CounterNeutral q.interceptor) :
    inflight (processMessage unmarshal q lc message runCtx w).2.trace = inflight w.trace ∧
    (runCtx.done = true →
      wgOps (emitted w (processMessage unmarshal q lc message runCtx w).2) = []) ∧
    (runCtx.done = false → ∃ evs,
      (processMessage unmarshal q lc message runCtx w).2.trace =
        w.trace ++ [.wgAdd 1] ++ evs ++ [.wgDone] ∧
      ∀ pre suf, evs = pre ++ suf →
        inflight (w.trace ++ [.wgAdd 1] ++ pre) = inflight w.trace + 1) ∧
    (∀ (ctx : Context) (rawBody : Bytes),
      LeavesCounter (handleLogic unmarshal q lc message ctx rawBody)) ∧
    (∀ (conf : RabbitListenerConf) (handler : ConsumeHandler σ) (channel : Channel),
      CounterNeutral (MustNewListener unmarshal conf handler channel).interceptor) := by
  have hgate : runCtx.done = true →
      (processMessage unmarshal q lc message runCtx w).2.trace =
        w.trace ++ [.reject message.DeliveryTag true] := by
    intro hdone
    rw [processMessage_cancelled unmarshal q lc message runCtx w hdone]
  refine ⟨?_, ?_, ?_, fun ctx rawBody => handleLogic_leaves_counter unmarshal q lc message ctx
    rawBody, fun _ _ _ => defaultInterceptor_neutral unmarshal⟩
  · cases hdone : runCtx.done with
    | true =>
      rw [hgate hdone, inflight_append]
      simp [inflight, wgOps]
    | false =>
      obtain ⟨evs, h, hw⟩ := processMessage_live_trace unmarshal q lc message runCtx w hq hdone
      have e1 : wgOps [Event.wgAdd 1] = [1] := rfl
      have e2 : wgOps [Event.wgDone] = [-1] := rfl
      rw [h]
      simp only [inflight, wgOps_append, hw, e1, e2, List.sum_append, List.sum_cons,
        List.sum_nil]
      omega
  · intro hdone
    rw [emitted_append _ _ _ (hgate hdone)]
    rfl
  · intro hlive
    obtain ⟨evs, h, hw⟩ := processMessage_live_trace unmarshal q lc message runCtx w hq hlive
    refine ⟨evs, h, ?_⟩
    intro pre suf hsplit
    have hpre : wgOps pre = [] := by
      rw [hsplit, wgOps_append] at hw
      exact (List.append_eq_nil.mp hw).1
    have e1 : wgOps [Event.wgAdd 1] = [1] := rfl
    simp only [inflight, wgOps_append, hpre, e1, List.sum_append, List.sum_cons, List.sum_nil]
    omega

theorem in_flight_counter_is_balanced_witness :
    inflight (processMessage sampleUnmarshal
        (MustNewListener sampleUnmarshal sampleConf okHandler okChannel) ordersQueue
        freshDelivery liveCtx startWorld).2.trace = inflight startWorld.trace ∧
    wgOps (processMessage sampleUnmarshal
        (MustNewListener sampleUnmarshal sampleConf okHandler okChannel) ordersQueue
        freshDelivery liveCtx startWorld).2.trace = [1, -1] :=
  ⟨(in_flight_counter_is_balanced sampleUnmarshal
      (MustNewListener sampleUnmarshal sampleConf okHandler okChannel) ordersQueue
      freshDelivery liveCtx startWorld (defaultInterceptor_neutral sampleUnmarshal)).1,
    by decide⟩

/-! ### Auto-ack queues -/

theorem processMessage_auto_ack_live (unmarshal : Bytes → Except GoError RabbitMsgBody)
    (conf : RabbitListenerConf) (handler : ConsumeHandler σ) (channel : Channel)
    (lc : ConsumerConf) (d : Delivery) (runCtx : Context) (w : World σ)
    (hauto : lc.AutoAck = true) (hlive : runCtx.done = false) :
    acks (emitted w (processMessage unmarshal (MustNewListener unmarshal conf handler channel)
        lc d runCtx w).2) = [] ∧
      rejects (emitted w (processMessage unmarshal
        (MustNewListener unmarshal conf handler channel) lc d runCtx w).2) = [] := by
  cases hdec : unmarshal d.Body with
  | error err =>
    rw [processMessage_undecodable unmarshal conf handler channel lc d runCtx err w hdec hlive,
      emitted_append _ _ _ rfl]
    simp only [acks_append, acks_ackUnlessAuto, rejects_append, rejects_ackUnlessAuto]
    simp [acks, rejects, hauto]
  | ok msgBody =>
    by_cases hcap : extractRetryCount d > lc.MaxRetryCount
    · obtain ⟨evs, h, _, _, hr, ha⟩ := processMessage_over_cap_obs unmarshal conf handler
        channel lc d runCtx msgBody w hdec hlive hcap
      rw [h, emitted_append _ _ _ rfl, ha, hr]
      simp [hauto]
    · have hcap2 : extractRetryCount d ≤ lc.MaxRetryCount := not_lt.mp hcap
      cases hh : handler.Consume (consumerCtx runCtx msgBody lc.Name) msgBody.Msg w.hstate with
      | mk r s =>
        cases r with
        | panic v =>
          rw [processMessage_handler_panic unmarshal conf handler channel lc d runCtx msgBody w
            s v hdec hlive hcap2 hh, emitted_append _ _ _ rfl]
          simp [acks, rejects]
        | ret e =>
          cases e with
          | none =>
            rw [processMessage_handler_ok unmarshal conf handler channel lc d runCtx msgBody w
              s hdec hlive hcap2 hh, emitted_append _ _ _ rfl]
            simp only [acks_append, acks_ackUnlessAuto, rejects_append, rejects_ackUnlessAuto]
            simp [acks, rejects, hauto]
          | some err =>
            obtain ⟨evs, h, _, _, hr, ha⟩ := processMessage_handler_err_obs unmarshal conf
              handler channel lc d runCtx msgBody w s err hdec hlive hcap2 hh
            rw [h, emitted_append _ _ _ rfl, ha, hr]
            simp [hauto]

/-- C26 as stated fails on the code: on the auto-ack queue `audit`, under a cancelled
generation, `processMessage` calls `Reject(true)` on the delivery. -/
theorem auto_ack_delivery_is_rejected_at_the_gate :
    auditQueue.AutoAck = true ∧ cancelledCtx.done = true ∧
    rejects (emitted startWorld (processMessage sampleUnmarshal
      (MustNewListener sampleUnmarshal sampleConf okHandler okChannel) auditQueue
      freshDelivery cancelledCtx startWorld).2) = [(1, true)] := by
  decide

/-- C26, amended: on an auto-ack queue `processMessage` never acknowledges the
delivery, for every delivery, generation state and handler outcome; under a live
generation it does not reject it either, and under a cancelled generation it
rejects it once, with requeue. -/
theorem auto_ack_queue_is_never_acked (unmarshal : Bytes → Except GoError RabbitMsgBody)
    (conf : RabbitListenerConf) (handler : ConsumeHandler σ) (channel : Channel)
    (lc : ConsumerConf) (d : Delivery) (runCtx : Context) (w : World σ)
    (hauto : lc.AutoAck = true) :
    acks (emitted w (processMessage unmarshal (MustNewListener unmarshal conf handler channel)
        lc d runCtx w).2) = [] ∧
    (runCtx.done = false →
      rejects (emitted w (processMessage unmarshal
        (MustNewListener unmarshal conf handler channel) lc d runCtx w).2) = []) ∧
    (runCtx.done = true →
      rejects (emitted w (processMessage unmarshal
        (MustNewListener unmarshal conf handler channel) lc d runCtx w).2) =
          [(d.DeliveryTag, true)]) := by
  have hgate : runCtx.done = true →
      emitted w (processMessage unmarshal (MustNewListener unmarshal conf handler channel)
        lc d runCtx w).2 = [.reject d.DeliveryTag true] := by
    intro hdone
    rw [processMessage_cancelled unmarshal _ lc d runCtx w hdone]
    exact emitted_append _ _ _ rfl
  refine ⟨?_, ?_, ?_⟩
  · cases hdone : runCtx.done with
    | true =>
      rw [hgate hdone]
      rfl
    | false =>
      exact (processMessage_auto_ack_live unmarshal conf handler channel lc d runCtx w hauto
        hdone).1
  · intro hlive
    exact (processMessage_auto_ack_live unmarshal conf handler channel lc d runCtx w hauto
      hlive).2
  · intro hdone
    rw [hgate hdone]
    rfl

theorem auto_ack_queue_is_never_acked_witness :
    acks (emitted startWorld (processMessage sampleUnmarshal
        (MustNewListener sampleUnmarshal sampleConf failingHandler okChannel) auditQueue
        freshDelivery liveCtx startWorld).2) = [] ∧
    (liveCtx.done = false →
      rejects (emitted startWorld (processMessage sampleUnmarshal
        (MustNewListener sampleUnmarshal sampleConf failingHandler okChannel) auditQueue
        freshDelivery liveCtx startWorld).2) = []) ∧
    (liveCtx.done = true →
      rejects (emitted startWorld (processMessage sampleUnmarshal
        (MustNewListener sampleUnmarshal sampleConf failingHandler okChannel) auditQueue
        freshDelivery liveCtx startWorld).2) = [(freshDelivery.DeliveryTag, true)]) :=
  auto_ack_queue_is_never_acked sampleUnmarshal sampleConf failingHandler okChannel auditQueue
    freshDelivery liveCtx startWorld (by decide)

end Processing

end Rabbitmq

/-!
# czt-contrib: the distributed ID generator (`snake`)

A shallow embedding of `snake/config.go` and `snake/snake.go`.  An `int64` is an
`Int`; the bit operators `&`, `|`, `^` are `Int.land`, `Int.lor`, `Int.xor`
(two's complement on integers of any size, which agrees with `int64` on operands
in range), and the shifts are `shl` and `shr` below.  A `uint8` is a `Nat`.
-/

namespace Snake

open Rabbitmq (GoError wrapInt64)

/-! ## `config.go` -/

def defaultWorkerIDBits : Nat := 10

def defaultSequenceBits : Nat := 12

def defaultEpoch : Int := 1704067200000

def defaultTimeDifference : Int := 5

/-- The struct `Conf`. -/
structure Conf where
  WorkerIDBits : Nat
  SequenceBits : Nat
  Epoch : Int
  TimeDifference : Int
  WorkerID : Int
  deriving DecidableEq, Repr

/-- `(*Conf).Validate`: the configuration after the call and the returned error. -/
def Conf.Validate (c : Conf) : Conf × Option GoError :=
  let c1 := if c.Epoch ≤ 0 then { c with Epoch := defaultEpoch } else c
  let c2 := if c1.WorkerIDBits ≤ 0 ∨ c1.WorkerIDBits > 63 then
    { c1 with WorkerIDBits := defaultWorkerIDBits } else c1
  let c3 := if c2.SequenceBits ≤ 0 ∨ c2.SequenceBits > 63 then
    { c2 with SequenceBits := defaultSequenceBits } else c2
  let c4 := if c3.TimeDifference ≤ 0 then
    { c3 with TimeDifference := defaultTimeDifference } else c3
  (c4, none)

/-! ## `snake.go` -/

/-- The `int64` shift `x << k`: the product with `2^k`, wrapped to 64 bits (0 from
`k = 64` on). -/
def shl (x : Int) (k : Nat) : Int :=
  wrapInt64 (x * 2 ^ k)

/-- The `int64` shift `x >> k`: arithmetic, rounding down. -/
def shr (x : Int) (k : Nat) : Int :=
  x / 2 ^ k

/-- The struct `CommonSnake`. -/
structure CommonSnake where
  snakeConf : Conf
  maxWorkerID : Int
  maxSequence : Int
  workerIDShift : Nat
  timestampLeftShift : Nat
  workerID : Int
  timestamp : Int
  sequence : Int
  deriving DecidableEq, Repr

/-- `CalculateMaxWorkerID`. -/
def CommonSnake.CalculateMaxWorkerID (c : CommonSnake) : CommonSnake :=
  if c.snakeConf.WorkerIDBits ≥ 63 then
    { c with maxWorkerID := 2 ^ 63 - 1 }
  else
    { c with maxWorkerID := Int.xor (-1) (shl (-1) c.snakeConf.WorkerIDBits) }

/-- `CalculateMaxSequence`. -/
def CommonSnake.CalculateMaxSequence (c : CommonSnake) : CommonSnake :=
  if c.snakeConf.SequenceBits ≥ 63 then
    { c with maxSequence := 2 ^ 63 - 1 }
  else
    { c with maxSequence := Int.xor (-1) (shl (-1) c.snakeConf.SequenceBits) }

/-- `CalculateWorkerIDShift`. -/
def CommonSnake.CalculateWorkerIDShift (c : CommonSnake) : CommonSnake :=
  { c with workerIDShift := c.snakeConf.SequenceBits }

/-- `CalculateTimestampLeftShift`: a `uint8` sum. -/
def CommonSnake.CalculateTimestampLeftShift (c : CommonSnake) : CommonSnake :=
  { c with timestampLeftShift := (c.snakeConf.SequenceBits + c.snakeConf.WorkerIDBits) % 256 }

/-- What `CalculateWorkerID` reads from the host: the environment variable
`POD_IP` and the result of `netx.InternalIp()`. -/
structure Host where
  podIP : String
  internalIP : String
  deriving DecidableEq, Repr

/-- The hash `fnv.New32a()` of a byte string. -/
def fnv32a (bytes : List Nat) : Nat :=
  bytes.foldl (fun h b => ((h ^^^ b) * 16777619) % 2 ^ 32) 2166136261

/-- The bytes of a string (UTF-8). -/
def stringBytes (s : String) : List Nat :=
  (s.data.flatMap String.utf8EncodeChar).map (fun b => b.toNat)

/-- `CalculateWorkerID`. -/
def CommonSnake.CalculateWorkerID (host : Host) (c : CommonSnake) :
    CommonSnake × Option GoError :=
  if c.snakeConf.WorkerID ≠ 0 then
    if c.snakeConf.WorkerID < 0 ∨ c.snakeConf.WorkerID > c.maxWorkerID then
      (c, some ⟨"WorkerID " ++ toString c.snakeConf.WorkerID ++ " is out of range [0, " ++
        toString c.maxWorkerID ++ "]"⟩)
    else
      ({ c with workerID := c.snakeConf.WorkerID }, none)
  else
    let ip := if host.podIP.length = 0 then host.internalIP else host.podIP
    if ip.length = 0 then
      (c, some ⟨"cannot get IP address, worker id must be not empty"⟩)
    else
      let ipClean := ip.replace "." ""
      let hashValue : Int := (fnv32a (stringBytes ipClean) : Int)
      let workerID := Int.tmod (Int.land hashValue 0x7FFFFFFF) (wrapInt64 (c.maxWorkerID + 1))
      let c1 := { c with workerID := workerID }
      if c1.workerID < 0 ∨ c1.workerID > c1.maxWorkerID then
        (c1, some ⟨"calculated workerID " ++ toString c1.workerID ++ " is out of range [0, " ++
          toString c1.maxWorkerID ++ "], setting to 0"⟩)
      else
        (c1, none)

/-- `NewSnake`. -/
def NewSnake (host : Host) (conf : Conf) : Except GoError CommonSnake :=
  match conf.Validate with
  | (_, some err) => .error err
  | (conf1, none) =>
    let c : CommonSnake := ⟨conf1, 0, 0, 0, 0, 0, 0, 0⟩
    let c1 := c.CalculateMaxWorkerID
    let c2 := c1.CalculateMaxSequence
    let c3 := c2.CalculateWorkerIDShift
    let c4 := c3.CalculateTimestampLeftShift
    match c4.CalculateWorkerID host with
    | (_, some err) => .error err
    | (c5, none) => .ok c5

/-- `ParseID`: `(timestamp, workerID, sequence)`. -/
def CommonSnake.ParseID (c : CommonSnake) (id : Int) : Int × Int × Int :=
  let sequence := Int.land id c.maxSequence
  let workerID := Int.land (shr id c.workerIDShift) c.maxWorkerID
  let timestamp := wrapInt64 (shr id c.timestampLeftShift + c.snakeConf.Epoch)
  (timestamp, workerID, sequence)

/-- One reading of `time.Now()`: the wall clock in milliseconds (`UnixMilli()`) and
the instant in nanoseconds that `Add`, `Before` and `After` work on.  The two are
not assumed to agree, and successive readings are not assumed to increase. -/
structure Instant where
  unixMilli : Int
  nanos : Int
  deriving DecidableEq, Repr

/-- The ID that `Generator` composes from the new timestamp and sequence:
`((newTimestamp - Epoch) << timestampLeftShift) | (workerID << workerIDShift) | newSequence`. -/
def CommonSnake.snowflake (c : CommonSnake) (newTimestamp newSequence : Int) : Int :=
  Int.lor
    (Int.lor (shl (wrapInt64 (newTimestamp - c.snakeConf.Epoch)) c.timestampLeftShift)
      (shl c.workerID c.workerIDShift))
    newSequence

/-- The inner loop of the clock-moved-backwards branch:
`for time.Now().Before(waitUntil) && currentTime < lastTimestamp`, each round
sleeping and re-reading the clock.  Returns the last `currentTime` and the
readings left; `none` when the readings run out. -/
def waitForClock (lastTimestamp waitUntil : Int) : List Instant → Int → Option (Int × List Instant)
  | [], _ => none
  | [now], currentTime =>
    if now.nanos < waitUntil ∧ currentTime < lastTimestamp then none
    else some (currentTime, [])
  | now :: next :: rest, currentTime =>
    if now.nanos < waitUntil ∧ currentTime < lastTimestamp then
      waitForClock lastTimestamp waitUntil rest next.unixMilli
    else some (currentTime, next :: rest)

/-- The inner loop of the sequence-exhausted branch: `for currentTime <= lastTimestamp`,
giving up once `time.Now().After(waitUntil)`, else sleeping and re-reading the
clock. -/
def waitNextMilli (lastTimestamp waitUntil : Int) :
    List Instant → Int → Option (Except GoError Int × List Instant)
  | [], currentTime =>
    if currentTime ≤ lastTimestamp then none else some (.ok currentTime, [])
  | [now], currentTime =>
    if currentTime ≤ lastTimestamp then
      if now.nanos > waitUntil then some (.error ⟨"timeout waiting for next millisecond"⟩, [])
      else none
    else some (.ok currentTime, [now])
  | now :: next :: rest, currentTime =>
    if currentTime ≤ lastTimestamp then
      if now.nanos > waitUntil then
        some (.error ⟨"timeout waiting for next millisecond"⟩, next :: rest)
      else waitNextMilli lastTimestamp waitUntil rest next.unixMilli
    else some (.ok currentTime, now :: next :: rest)

/-- The error of the clock-moved-backwards branch. -/
def clockBackwards (timeDifference : Int) : GoError :=
  ⟨"clock moved backwards, refusing to generate id for " ++ toString timeDifference ++
    " milliseconds"⟩

/-- The first `if` of the loop body of `Generator`: the handling of
`currentTime < lastTimestamp`.  Returns the `currentTime` to go on with, or the
error to return. -/
def clockCheck (c : CommonSnake) (clock : List Instant) (currentTime lastTimestamp : Int) :
    Option (Except GoError Int × List Instant) :=
  if currentTime < lastTimestamp then
    let timeDifference := wrapInt64 (lastTimestamp - currentTime)
    if timeDifference ≤ c.snakeConf.TimeDifference then
      match clock with
      | [] => none
      | now :: rest =>
        let waitUntil := now.nanos + wrapInt64 (c.snakeConf.TimeDifference * 1000000)
        match waitForClock lastTimestamp waitUntil rest currentTime with
        | none => none
        | some (currentTime1, rest1) =>
          if currentTime1 < lastTimestamp then some (.error (clockBackwards timeDifference), rest1)
          else some (.ok currentTime1, rest1)
    else some (.error (clockBackwards timeDifference), clock)
  else some (.ok currentTime, clock)

/-- The wait for the next millisecond, `100 * time.Millisecond`, in nanoseconds. -/
def sequenceWait : Int := 100 * 1000000

/-- `atomic.CompareAndSwapInt64` on a stored value: success flag and value after. -/
def compareAndSwap (stored old new : Int) : Bool × Int :=
  if stored = old then (true, new) else (false, stored)

/-- The `for` loop of `Generator` run by one goroutine on its own: the loads,
compare-and-swaps and stores act on the fields of `c` directly.  `fuel` bounds the
number of rounds.  Returns `(newTimestamp, newSequence)` or the error, the
generator after, and the clock readings left. -/
def generatorLoop : Nat → CommonSnake → List Instant → Int → Int →
    Option (Except GoError (Int × Int) × CommonSnake × List Instant)
  | 0, _, _, _, _ => none
  | fuel + 1, c, clock, currentTime, lastTimestamp =>
    match clockCheck c clock currentTime lastTimestamp with
    | none => none
    | some (.error e, clock1) => some (.error e, c, clock1)
    | some (.ok currentTime1, clock1) =>
      if currentTime1 = lastTimestamp then
        let currentSequence := c.sequence
        if currentSequence ≥ c.maxSequence then
          match clock1 with
          | [] => none
          | now :: clock2 =>
            let waitUntil := now.nanos + sequenceWait
            match waitNextMilli lastTimestamp waitUntil clock2 currentTime1 with
            | none => none
            | some (.error e, clock3) => some (.error e, c, clock3)
            | some (.ok currentTime2, clock3) =>
              generatorLoop fuel c clock3 currentTime2 lastTimestamp
        else
          let newSequence := wrapInt64 (currentSequence + 1)
          match compareAndSwap c.sequence currentSequence newSequence with
          | (true, stored) =>
            some (.ok (currentTime1, newSequence), { c with sequence := stored }, clock1)
          | (false, _) => generatorLoop fuel c clock1 currentTime1 c.timestamp
      else
        match compareAndSwap c.timestamp lastTimestamp currentTime1 with
        | (true, stored) =>
          some (.ok (currentTime1, 0), { c with timestamp := stored, sequence := 0 }, clock1)
        | (false, _) => generatorLoop fuel c clock1 currentTime1 c.timestamp

/-- `Generator` run by one goroutine on its own, reading the clock from `clock`:
the returned ID or error (`(0, err)` in Go), the generator after, and the clock
readings left; `none` when the readings or the fuel run out. -/
def CommonSnake.Generator (c : CommonSnake) (fuel : Nat) (clock : List Instant) :
    Option (Except GoError Int × CommonSnake × List Instant) :=
  match clock with
  | [] => none
  | now :: rest =>
    let currentTime := now.unixMilli
    let lastTimestamp := c.timestamp
    match generatorLoop fuel c rest currentTime lastTimestamp with
    | none => none
    | some (.error e, c1, rest1) => some (.error e, c1, rest1)
    | some (.ok (newTimestamp, newSequence), c1, rest1) =>
      some (.ok (c1.snowflake newTimestamp newSequence), c1, rest1)

/-- Successive calls of `Generator` by one goroutine: the results in call order,
until the clock readings (or the fuel of a call) run out. -/
def generateAll (fuel : Nat) : Nat → CommonSnake → List Instant → List (Except GoError Int)
  | 0, _, _ => []
  | calls + 1, c, clock =>
    match c.Generator fuel clock with
    | none => []
    | some (r, c1, clock1) => r :: generateAll fuel calls c1 clock1

/-- The IDs among the results of successive calls. -/
def returnedIDs : List (Except GoError Int) → List Int
  | [] => []
  | .ok id :: rs => id :: returnedIDs rs
  | .error _ :: rs => returnedIDs rs

/-! ### `Generator` by several goroutines

One step of a goroutine is one atomic operation on the shared fields `timestamp`
and `sequence` together with the goroutine's own computation up to its next
atomic operation.  Each goroutine reads the clock from its own list of readings. -/

/-- Where a goroutine stands inside `Generator`, with its local variables. -/
inductive Pc where
  /-- before `currentTime := time.Now().UnixMilli()` and the first
  `atomic.LoadInt64(&c.timestamp)` -/
  | start
  /-- before `atomic.LoadInt64(&c.sequence)` -/
  | loadSequence (currentTime lastTimestamp : Int)
  /-- before `atomic.CompareAndSwapInt64(&c.sequence, currentSequence, newSequence)` -/
  | casSequence (currentTime currentSequence newSequence : Int)
  /-- before `atomic.CompareAndSwapInt64(&c.timestamp, lastTimestamp, currentTime)` -/
  | casTimestamp (currentTime lastTimestamp : Int)
  /-- before `atomic.StoreInt64(&c.sequence, 0)` -/
  | storeSequence (currentTime : Int)
  /-- before `lastTimestamp = atomic.LoadInt64(&c.timestamp)` at the end of the loop body -/
  | reload (currentTime : Int)
  /-- returned `(id, nil)` -/
  | returned (id : Int)
  /-- returned `(0, err)` -/
  | failed (err : GoError)
  /-- out of clock readings -/
  | starved
  deriving DecidableEq, Repr

/-- A goroutine inside one call of `Generator`. -/
structure Goroutine where
  pc : Pc
  clock : List Instant
  deriving DecidableEq, Repr

/-- From the head of the `for` loop to the next atomic operation. -/
def loopHead (c : CommonSnake) (clock : List Instant) (currentTime lastTimestamp : Int) :
    Goroutine :=
  match clockCheck c clock currentTime lastTimestamp with
  | none => ⟨.starved, []⟩
  | some (.error e, clock1) => ⟨.failed e, clock1⟩
  | some (.ok currentTime1, clock1) =>
    if currentTime1 = lastTimestamp then ⟨.loadSequence currentTime1 lastTimestamp, clock1⟩
    else ⟨.casTimestamp currentTime1 lastTimestamp, clock1⟩

/-- One step of a goroutine on the shared generator. -/
def step (c : CommonSnake) (g : Goroutine) : CommonSnake × Goroutine :=
  match g.pc with
  | .start =>
    match g.clock with
    | [] => (c, ⟨.starved, []⟩)
    | now :: rest => (c, loopHead c rest now.unixMilli c.timestamp)
  | .loadSequence currentTime lastTimestamp =>
    let currentSequence := c.sequence
    if currentSequence ≥ c.maxSequence then
      match g.clock with
      | [] => (c, ⟨.starved, []⟩)
      | now :: clock2 =>
        match waitNextMilli lastTimestamp (now.nanos + sequenceWait) clock2 currentTime with
        | none => (c, ⟨.starved, []⟩)
        | some (.error e, clock3) => (c, ⟨.failed e, clock3⟩)
        | some (.ok currentTime2, clock3) => (c, loopHead c clock3 currentTime2 lastTimestamp)
    else
      (c, ⟨.casSequence currentTime currentSequence (wrapInt64 (currentSequence + 1)), g.clock⟩)
  | .casSequence currentTime currentSequence newSequence =>
    match compareAndSwap c.sequence currentSequence newSequence with
    | (true, stored) =>
      ({ c with sequence := stored },
        ⟨.returned (c.snowflake currentTime newSequence), g.clock⟩)
    | (false, _) => (c, ⟨.reload currentTime, g.clock⟩)
  | .casTimestamp currentTime lastTimestamp =>
    match compareAndSwap c.timestamp lastTimestamp currentTime with
    | (true, stored) => ({ c with timestamp := stored }, ⟨.storeSequence currentTime, g.clock⟩)
    | (false, _) => (c, ⟨.reload currentTime, g.clock⟩)
  | .storeSequence currentTime =>
    ({ c with sequence := 0 }, ⟨.returned (c.snowflake currentTime 0), g.clock⟩)
  | .reload currentTime => (c, loopHead c g.clock currentTime c.timestamp)
  | .returned id => (c, ⟨.returned id, g.clock⟩)
  | .failed e => (c, ⟨.failed e, g.clock⟩)
  | .starved => (c, ⟨.starved, g.clock⟩)

/-- The shared generator and the goroutines calling it. -/
structure System where
  shared : CommonSnake
  goroutines : List Goroutine
  deriving DecidableEq, Repr

/-- The goroutine with index `i` takes one step. -/
def System.stepAt (sys : System) (i : Nat) : System :=
  match sys.goroutines.get? i with
  | none => sys
  | some g =>
    let r := step sys.shared g
    ⟨r.1, sys.goroutines.set i r.2⟩

/-- An interleaving: the indices of the goroutines in the order of their steps. -/
def System.run (sys : System) : List Nat → System
  | [] => sys
  | i :: schedule => (sys.stepAt i).run schedule

/-- The IDs returned so far, by goroutine. -/
def System.results (sys : System) : List (Option Int) :=
  sys.goroutines.map fun g =>
    match g.pc with
    | .returned id => some id
    | _ => none

/-! ## Derived definitions and concrete inputs -/

/-- `WorkerIDBits` after defaulting: values outside `1..63` become 10. -/
def effectiveWorkerIDBits (conf : Conf) : Nat :=
  if conf.WorkerIDBits ≤ 0 ∨ conf.WorkerIDBits > 63 then 10 else conf.WorkerIDBits

/-- `SequenceBits` after defaulting: values outside `1..63` become 12. -/
def effectiveSequenceBits (conf : Conf) : Nat :=
  if conf.SequenceBits ≤ 0 ∨ conf.SequenceBits > 63 then 12 else conf.SequenceBits

/-- A host whose pod address is set. -/
def sampleHost : Host := ⟨"10.42.0.17", "192.168.1.5"⟩

/-- The configuration of `TestSnakeInvalidWorkerID`. -/
def narrowConf : Conf := ⟨5, 12, 1704067200000, 0, 50⟩

/-- The configuration of `TestSnakeParseID`. -/
def parseConf : Conf := ⟨10, 12, 1704067200000, 5, 5⟩

/-- The generator that `NewSnake` builds from `parseConf`. -/
def parseSnake : CommonSnake := ⟨parseConf, 1023, 4095, 12, 22, 5, 0, 0⟩

/-- The generator that `NewSnake` builds from a validated configuration, before
the worker ID is set. -/
def prepared (conf1 : Conf) : CommonSnake :=
  (((⟨conf1, 0, 0, 0, 0, 0, 0, 0⟩ : CommonSnake).CalculateMaxWorkerID).CalculateMaxSequence
    ).CalculateWorkerIDShift.CalculateTimestampLeftShift

/-- The bit layout of a generator: masks and shifts as `NewSnake` computes them
from `w` worker bits and `s` sequence bits, and a worker ID within its mask. -/
structure Layout (c : CommonSnake) (w s : Nat) : Prop where
  maxWorkerID : c.maxWorkerID = 2 ^ w - 1
  maxSequence : c.maxSequence = 2 ^ s - 1
  workerIDShift : c.workerIDShift = s
  timestampLeftShift : c.timestampLeftShift = s + w
  workerID_nonneg : 0 ≤ c.workerID
  workerID_le : c.workerID ≤ 2 ^ w - 1
  fits : w + s ≤ 62

/-- How a successful call moves the generator: the next sequence number within the
stored millisecond, or a later millisecond with sequence 0. -/
def Advance (c c1 : CommonSnake) (ts seq : Int) : Prop :=
  (ts = c.timestamp ∧ seq = wrapInt64 (c.sequence + 1) ∧ c.sequence < c.maxSequence ∧
      c1 = { c with sequence := seq }) ∨
    (c.timestamp < ts ∧ seq = 0 ∧ c1 = { c with timestamp := ts, sequence := 0 })

/-- The stored timestamp and sequence of a generator read as one number, with the
layout of `w` worker bits and `s` sequence bits. -/
def key (c : CommonSnake) (w s : Nat) : Int :=
  (c.timestamp - c.snakeConf.Epoch) * 2 ^ (s + w) + c.workerID * 2 ^ s + c.sequence

/-- A clock reading later than the epoch and within the timestamp range of the
layout. -/
def InRange (epoch : Int) (w s : Nat) (t : Int) : Prop :=
  epoch < t ∧ t - epoch < 2 ^ (63 - w - s)

/-- The address that `CalculateWorkerID` hashes: `POD_IP`, or the internal address
when `POD_IP` is empty. -/
def hostIP (host : Host) : String :=
  if host.podIP.length = 0 then host.internalIP else host.podIP

/-- The worker ID that `CalculateWorkerID` derives from the hash of the address:
`int64(hashValue & 0x7FFFFFFF) % (c.maxWorkerID + 1)`. -/
def hashedWorkerID (c : CommonSnake) (host : Host) : Int :=
  Int.tmod (Int.land (fnv32a (stringBytes ((hostIP host).replace "." "")) : Int) 0x7FFFFFFF)
    (wrapInt64 (c.maxWorkerID + 1))

/-- The error of `CalculateWorkerID` when the host has no address. -/
def noAddress : GoError := ⟨"cannot get IP address, worker id must be not empty"⟩

/-- A configuration that leaves the worker ID to the hash, with 63 worker bits. -/
def hashConf : Conf := ⟨63, 12, 1704067200000, 5, 0⟩

/-- The generator that `NewSnake` starts from for `hashConf`, before the masks
are computed. -/
def hashSnake : CommonSnake := ⟨hashConf, 0, 0, 0, 0, 0, 0, 0⟩

/-- Successive calls of `Generator` by one goroutine, as `generateAll`, keeping the
generator after each call next to the result of the call. -/
def generateTrace (fuel : Nat) :
    Nat → CommonSnake → List Instant → List (Except GoError Int × CommonSnake)
  | 0, _, _ => []
  | calls + 1, c, clock =>
    match c.Generator fuel clock with
    | none => []
    | some (r, c1, clock1) => (r, c1) :: generateTrace fuel calls c1 clock1

/-- The default configuration with worker ID 1, as in `TestSnakeGenerator`. -/
def defaultConf : Conf := ⟨10, 12, 1704067200000, 5, 1⟩

/-- The generator that `NewSnake` builds from `defaultConf`. -/
def defaultSnake : CommonSnake := ⟨defaultConf, 1023, 4095, 12, 22, 1, 0, 0⟩

/-- Clock readings of four calls: two in one millisecond, one a millisecond
later, one after the wall clock stepped back by two milliseconds. -/
def sampleClock : List Instant :=
  [⟨1704067200100, 1000000⟩, ⟨1704067200100, 1200000⟩, ⟨1704067200101, 2000000⟩,
    ⟨1704067200099, 3000000⟩, ⟨1704067200099, 3100000⟩, ⟨1704067200099, 3200000⟩,
    ⟨1704067200101, 5000000⟩, ⟨1704067200101, 5100000⟩]

/-- A configuration whose two bit widths are both in range and add up to 126. -/
def wideConf : Conf := ⟨63, 63, 1704067200000, 5, 1⟩

/-- The generator that `NewSnake` builds from `wideConf`. -/
def wideSnake : CommonSnake :=
  ⟨wideConf, 9223372036854775807, 9223372036854775807, 63, 126, 1, 0, 0⟩

/-- One clock reading 100 ms after the default epoch. -/
def earlyClock : List Instant := [⟨1704067200100, 1000000⟩]

/-- One clock reading `2^41` ms after the default epoch. -/
def lateClock : List Instant := [⟨1704067200000 + 2199023255552, 1000000⟩]

/-- The default generator after it has issued IDs in millisecond 1704067200100. -/
def usedSnake : CommonSnake := { defaultSnake with timestamp := 1704067200100, sequence := 3 }

/-- A clock reading 10 ms before the timestamp of `usedSnake`. -/
def staleInstant : Instant := ⟨1704067200090, 7000000⟩

/-- The default generator with the sequence of millisecond 1704067200100 used up. -/
def fullSnake : CommonSnake := { defaultSnake with timestamp := 1704067200100, sequence := 4095 }

/-- Clock readings of one call that starts in millisecond 1704067200100 and waits
for the next one. -/
def rolloverClock : List Instant :=
  [⟨1704067200100, 1000000⟩, ⟨1704067200100, 1000100⟩, ⟨1704067200100, 1000200⟩,
    ⟨1704067200101, 1100300⟩]

/-- Three goroutines about to call `Generator` on the fresh default generator, all
reading the clock within the same millisecond. -/
def raceSystem : System :=
  ⟨defaultSnake, [⟨.start, [⟨1704067200100, 1000000⟩]⟩, ⟨.start, [⟨1704067200100, 1000100⟩]⟩,
    ⟨.start, [⟨1704067200100, 1000200⟩]⟩]⟩

/-- An interleaving in which goroutine 1 runs between the compare-and-swap of the
timestamp and the store of the sequence by goroutine 0. -/
def raceSchedule : List Nat := [0, 0, 1, 1, 1, 0, 2, 2, 2]

/-- The interleaving in which the three calls run one after the other. -/
def serialSchedule : List Nat := [0, 0, 0, 1, 1, 1, 2, 2, 2]

/-! ## Masks and shifts -/

theorem wrapInt64_of_range (x : Int) (hlo : -2 ^ 63 ≤ x) (hhi : x < 2 ^ 63) :
    wrapInt64 x = x := by
  unfold Rabbitmq.wrapInt64
  omega

theorem xor_neg_one (x : Int) : Int.xor (-1) x = -x - 1 := by
  cases x with
  | ofNat n =>
    show Int.xor (Int.negSucc 0) (Int.ofNat n) = _
    simp only [Int.xor, Nat.zero_xor]
    rw [Int.negSucc_eq]
    simp
    ring
  | negSucc n =>
    show Int.xor (Int.negSucc 0) (Int.negSucc n) = _
    simp only [Int.xor, Nat.zero_xor]
    rw [Int.negSucc_eq]
    simp

theorem two_pow_le_of_le (b : Nat) (h : b ≤ 62) : (2 : Int) ^ b ≤ 2 ^ 62 :=
  pow_le_pow_right₀ (by norm_num) h

theorem mask_eq (b : Nat) (h : b ≤ 62) : Int.xor (-1) (shl (-1) b) = 2 ^ b - 1 := by
  have h1 := two_pow_le_of_le b h
  have h0 : (0 : Int) < 2 ^ b := by positivity
  rw [xor_neg_one, shl, wrapInt64_of_range _ (by omega) (by omega)]
  ring

theorem maxWorkerID_eq (c : CommonSnake) (h : c.snakeConf.WorkerIDBits ≤ 63) :
    c.CalculateMaxWorkerID.maxWorkerID = 2 ^ c.snakeConf.WorkerIDBits - 1 := by
  unfold CommonSnake.CalculateMaxWorkerID
  by_cases h63 : c.snakeConf.WorkerIDBits ≥ 63
  · have heq : c.snakeConf.WorkerIDBits = 63 := by omega
    simp [h63, heq]
  · simp only [h63, if_false]
    exact mask_eq _ (by omega)

theorem maxSequence_eq (c : CommonSnake) (h : c.snakeConf.SequenceBits ≤ 63) :
    c.CalculateMaxSequence.maxSequence = 2 ^ c.snakeConf.SequenceBits - 1 := by
  unfold CommonSnake.CalculateMaxSequence
  by_cases h63 : c.snakeConf.SequenceBits ≥ 63
  · have heq : c.snakeConf.SequenceBits = 63 := by omega
    simp [h63, heq]
  · simp only [h63, if_false]
    exact mask_eq _ (by omega)

/-! ## `Validate` and `NewSnake` -/

theorem effectiveWorkerIDBits_range (conf : Conf) :
    1 ≤ effectiveWorkerIDBits conf ∧ effectiveWorkerIDBits conf ≤ 63 := by
  unfold effectiveWorkerIDBits
  split <;> omega

theorem effectiveSequenceBits_range (conf : Conf) :
    1 ≤ effectiveSequenceBits conf ∧ effectiveSequenceBits conf ≤ 63 := by
  unfold effectiveSequenceBits
  split <;> omega

theorem Validate_fields (conf : Conf) :
    conf.Validate.2 = none ∧
      conf.Validate.1.WorkerIDBits = effectiveWorkerIDBits conf ∧
      conf.Validate.1.SequenceBits = effectiveSequenceBits conf ∧
      conf.Validate.1.WorkerID = conf.WorkerID ∧
      conf.Validate.1.Epoch = (if conf.Epoch ≤ 0 then defaultEpoch else conf.Epoch) ∧
      conf.Validate.1.TimeDifference =
        (if conf.TimeDifference ≤ 0 then defaultTimeDifference else conf.TimeDifference) := by
  unfold Conf.Validate effectiveWorkerIDBits effectiveSequenceBits
  refine ⟨rfl, ?_, ?_, ?_, ?_, ?_⟩ <;>
    simp only [defaultWorkerIDBits, defaultSequenceBits] <;>
    split_ifs <;> simp_all

theorem NewSnake_eq (host : Host) (conf : Conf) :
    NewSnake host conf =
      match (prepared conf.Validate.1).CalculateWorkerID host with
      | (_, some err) => .error err
      | (c5, none) => .ok c5 := by
  have h := (Validate_fields conf).1
  unfold NewSnake
  generalize conf.Validate = v at h ⊢
  obtain ⟨c1, e⟩ := v
  simp only at h
  subst h
  rfl

theorem CalculateMaxWorkerID_frame (c : CommonSnake) :
    c.CalculateMaxWorkerID.snakeConf = c.snakeConf ∧
      c.CalculateMaxWorkerID.maxSequence = c.maxSequence ∧
      c.CalculateMaxWorkerID.workerID = c.workerID ∧
      c.CalculateMaxWorkerID.timestamp = c.timestamp ∧
      c.CalculateMaxWorkerID.sequence = c.sequence := by
  unfold CommonSnake.CalculateMaxWorkerID
  split <;> exact ⟨rfl, rfl, rfl, rfl, rfl⟩

theorem CalculateMaxSequence_frame (c : CommonSnake) :
    c.CalculateMaxSequence.snakeConf = c.snakeConf ∧
      c.CalculateMaxSequence.maxWorkerID = c.maxWorkerID ∧
      c.CalculateMaxSequence.workerID = c.workerID ∧
      c.CalculateMaxSequence.timestamp = c.timestamp ∧
      c.CalculateMaxSequence.sequence = c.sequence := by
  unfold CommonSnake.CalculateMaxSequence
  split <;> exact ⟨rfl, rfl, rfl, rfl, rfl⟩

theorem prepared_fields (conf1 : Conf) (hw : conf1.WorkerIDBits ≤ 63)
    (hs : conf1.SequenceBits ≤ 63) :
    (prepared conf1).snakeConf = conf1 ∧
      (prepared conf1).maxWorkerID = 2 ^ conf1.WorkerIDBits - 1 ∧
      (prepared conf1).maxSequence = 2 ^ conf1.SequenceBits - 1 ∧
      (prepared conf1).workerIDShift = conf1.SequenceBits ∧
      (prepared conf1).timestampLeftShift = conf1.SequenceBits + conf1.WorkerIDBits ∧
      (prepared conf1).workerID = 0 ∧ (prepared conf1).timestamp = 0 ∧
      (prepared conf1).sequence = 0 := by
  have f1 := CalculateMaxWorkerID_frame ⟨conf1, 0, 0, 0, 0, 0, 0, 0⟩
  have h1 := maxWorkerID_eq ⟨conf1, 0, 0, 0, 0, 0, 0, 0⟩ hw
  have f2 := CalculateMaxSequence_frame
    (⟨conf1, 0, 0, 0, 0, 0, 0, 0⟩ : CommonSnake).CalculateMaxWorkerID
  have h2 := maxSequence_eq (⟨conf1, 0, 0, 0, 0, 0, 0, 0⟩ : CommonSnake).CalculateMaxWorkerID
    (by rw [f1.1]; exact hs)
  simp only [] at f1 h1
  have hconf : (prepared conf1).snakeConf = conf1 := by
    simp only [prepared, CommonSnake.CalculateTimestampLeftShift,
      CommonSnake.CalculateWorkerIDShift, f2.1, f1.1]
  refine ⟨hconf, ?_, ?_, ?_, ?_, ?_, ?_, ?_⟩
  · simp only [prepared, CommonSnake.CalculateTimestampLeftShift,
      CommonSnake.CalculateWorkerIDShift, f2.2.1, h1]
  · simp only [prepared, CommonSnake.CalculateTimestampLeftShift,
      CommonSnake.CalculateWorkerIDShift, h2, f1.1]
  · simp only [prepared, CommonSnake.CalculateTimestampLeftShift,
      CommonSnake.CalculateWorkerIDShift, f2.1, f1.1]
  · simp only [prepared, CommonSnake.CalculateTimestampLeftShift,
      CommonSnake.CalculateWorkerIDShift, f2.1, f1.1]
    omega
  · simp only [prepared, CommonSnake.CalculateTimestampLeftShift,
      CommonSnake.CalculateWorkerIDShift, f2.2.2.1, f1.2.2.1]
  · simp only [prepared, CommonSnake.CalculateTimestampLeftShift,
      CommonSnake.CalculateWorkerIDShift, f2.2.2.2.1, f1.2.2.2.1]
  · simp only [prepared, CommonSnake.CalculateTimestampLeftShift,
      CommonSnake.CalculateWorkerIDShift, f2.2.2.2.2, f1.2.2.2.2]

theorem CalculateWorkerID_configured (host : Host) (c : CommonSnake)
    (hne : c.snakeConf.WorkerID ≠ 0) :
    (c.snakeConf.WorkerID < 0 ∨ c.snakeConf.WorkerID > c.maxWorkerID →
      ∃ err, c.CalculateWorkerID host = (c, some err)) ∧
    (¬ (c.snakeConf.WorkerID < 0 ∨ c.snakeConf.WorkerID > c.maxWorkerID) →
      c.CalculateWorkerID host = ({ c with workerID := c.snakeConf.WorkerID }, none)) := by
  constructor
  · intro h
    refine ⟨⟨"WorkerID " ++ toString c.snakeConf.WorkerID ++ " is out of range [0, " ++
      toString c.maxWorkerID ++ "]"⟩, ?_⟩
    simp only [CommonSnake.CalculateWorkerID, hne, h, if_true, ne_eq, not_false_eq_true]
  · intro h
    simp only [CommonSnake.CalculateWorkerID, hne, h, if_true, if_false, ne_eq,
      not_false_eq_true]

/-- C20: for every configuration with a non-zero `WorkerID`, `NewSnake` returns an
error exactly when `WorkerID` is negative or greater than `2^b - 1`, where `b` is
`WorkerIDBits` after defaulting; otherwise it returns a generator whose worker ID
is the configured `WorkerID`. -/
theorem new_snake_checks_configured_worker_id (host : Host) (conf : Conf)
    (hne : conf.WorkerID ≠ 0) :
    ((∃ err, NewSnake host conf = .error err) ↔
      (conf.WorkerID < 0 ∨ conf.WorkerID > 2 ^ effectiveWorkerIDBits conf - 1)) ∧
    (¬ (conf.WorkerID < 0 ∨ conf.WorkerID > 2 ^ effectiveWorkerIDBits conf - 1) →
      ∃ c, NewSnake host conf = .ok c ∧ c.workerID = conf.WorkerID) := by
  obtain ⟨_, hw, hs, hid, _, _⟩ := Validate_fields conf
  have hwr := effectiveWorkerIDBits_range conf
  have hsr := effectiveSequenceBits_range conf
  obtain ⟨hconf, hmax, _⟩ := prepared_fields conf.Validate.1 (by rw [hw]; exact hwr.2)
    (by rw [hs]; exact hsr.2)
  have hid2 : (prepared conf.Validate.1).snakeConf.WorkerID = conf.WorkerID := by
    rw [hconf, hid]
  have hcalc := CalculateWorkerID_configured host (prepared conf.Validate.1)
    (by rw [hid2]; exact hne)
  rw [hid2, hmax, hw] at hcalc
  rw [NewSnake_eq]
  by_cases hr : conf.WorkerID < 0 ∨ conf.WorkerID > 2 ^ effectiveWorkerIDBits conf - 1
  · obtain ⟨err, he⟩ := hcalc.1 hr
    rw [he]
    exact ⟨⟨fun _ => hr, fun _ => ⟨err, rfl⟩⟩, fun h => absurd hr h⟩
  · have he := hcalc.2 hr
    rw [he]
    refine ⟨⟨fun h => ?_, fun h => absurd h hr⟩, fun _ => ⟨_, rfl, rfl⟩⟩
    obtain ⟨err, herr⟩ := h
    cases herr

theorem new_snake_checks_configured_worker_id_witness :
    ((∃ err, NewSnake sampleHost narrowConf = .error err) ↔
      (narrowConf.WorkerID < 0 ∨ narrowConf.WorkerID > 2 ^ effectiveWorkerIDBits narrowConf - 1)) ∧
    (¬ (narrowConf.WorkerID < 0 ∨
        narrowConf.WorkerID > 2 ^ effectiveWorkerIDBits narrowConf - 1) →
      ∃ c, NewSnake sampleHost narrowConf = .ok c ∧ c.workerID = narrowConf.WorkerID) :=
  new_snake_checks_configured_worker_id sampleHost narrowConf (by decide)

/-- C21: `Validate` returns no error for any configuration; it replaces
`WorkerIDBits` outside `1..63` by 10, `SequenceBits` outside `1..63` by 12,
`Epoch <= 0` by 1704067200000 and `TimeDifference <= 0` by 5, and leaves every
field that is already in range, and `WorkerID`, unchanged. -/
theorem validate_defaults_out_of_range_fields (conf : Conf) :
    conf.Validate.2 = none ∧
      conf.Validate.1.WorkerIDBits =
        (if 1 ≤ conf.WorkerIDBits ∧ conf.WorkerIDBits ≤ 63 then conf.WorkerIDBits else 10) ∧
      conf.Validate.1.SequenceBits =
        (if 1 ≤ conf.SequenceBits ∧ conf.SequenceBits ≤ 63 then conf.SequenceBits else 12) ∧
      conf.Validate.1.Epoch = (if conf.Epoch ≤ 0 then 1704067200000 else conf.Epoch) ∧
      conf.Validate.1.TimeDifference =
        (if conf.TimeDifference ≤ 0 then 5 else conf.TimeDifference) ∧
      conf.Validate.1.WorkerID = conf.WorkerID := by
  obtain ⟨h1, h2, h3, h4, h5, h6⟩ := Validate_fields conf
  refine ⟨h1, ?_, ?_, h5, h6, h4⟩
  · rw [h2]
    unfold effectiveWorkerIDBits
    split_ifs <;> omega
  · rw [h3]
    unfold effectiveSequenceBits
    split_ifs <;> omega

/-! ## Composing and parsing an ID -/

theorem lor_coe (m n : Nat) : Int.lor (m : Int) (n : Int) = ((m ||| n : Nat) : Int) := rfl

theorem land_coe (m n : Nat) : Int.land (m : Int) (n : Int) = ((m &&& n : Nat) : Int) := rfl

theorem land_mask (n b : Nat) : Int.land (n : Int) (2 ^ b - 1) = ((n % 2 ^ b : Nat) : Int) := by
  have h : ((2 : Int) ^ b - 1) = ((2 ^ b - 1 : Nat) : Int) := by
    have := Nat.one_le_two_pow (n := b)
    push_cast [Nat.cast_sub this]
    rfl
  rw [h, land_coe, Nat.and_pow_two_sub_one_eq_mod]

theorem pack_nat (a wid seq w s : Nat) (hwid : wid < 2 ^ w) (hseq : seq < 2 ^ s) :
    (a * 2 ^ (s + w) ||| wid * 2 ^ s) ||| seq = 2 ^ s * (2 ^ w * a + wid) + seq := by
  have h1 : wid * 2 ^ s < 2 ^ (s + w) := by
    rw [pow_add, mul_comm]
    exact Nat.mul_lt_mul_of_pos_left hwid (by positivity)
  have e1 : a * 2 ^ (s + w) = 2 ^ (s + w) * a := by ring
  rw [e1, ← Nat.mul_add_lt_is_or h1]
  have e2 : 2 ^ (s + w) * a + wid * 2 ^ s = 2 ^ s * (2 ^ w * a + wid) := by ring
  rw [e2, ← Nat.mul_add_lt_is_or hseq]

theorem coe_div_pow (n k : Nat) : ((n : Int) / 2 ^ k) = ((n / 2 ^ k : Nat) : Int) := by
  push_cast
  rfl

theorem unpack_mod (x r s : Nat) (hr : r < 2 ^ s) : (2 ^ s * x + r) % 2 ^ s = r := by
  rw [Nat.mul_add_mod, Nat.mod_eq_of_lt hr]

theorem unpack_div (x r s : Nat) (hr : r < 2 ^ s) : (2 ^ s * x + r) / 2 ^ s = x := by
  rw [Nat.mul_add_div (by positivity), Nat.div_eq_of_lt hr, Nat.add_zero]

/-- The ID as a sum: within the ranges nothing overflows and the three fields do
not overlap. -/
theorem snowflake_eq_sum (c : CommonSnake) (w s : Nat) (hl : Layout c w s) (t seq : Int)
    (ht0 : 0 ≤ t - c.snakeConf.Epoch) (ht1 : t - c.snakeConf.Epoch < 2 ^ (63 - w - s))
    (hs0 : 0 ≤ seq) (hs1 : seq ≤ 2 ^ s - 1) :
    c.snowflake t seq =
      (t - c.snakeConf.Epoch) * 2 ^ (s + w) + c.workerID * 2 ^ s + seq := by
  obtain ⟨a, ha⟩ := Int.eq_ofNat_of_zero_le ht0
  obtain ⟨wid, hwid⟩ := Int.eq_ofNat_of_zero_le hl.workerID_nonneg
  obtain ⟨q, hq⟩ := Int.eq_ofNat_of_zero_le hs0
  have hfit := hl.fits
  have hwl := hl.workerID_le
  rw [hwid] at hwl
  rw [hq] at hs1
  rw [ha] at ht1
  have hwid2 : wid < 2 ^ w := by
    have : (wid : Int) < 2 ^ w := by omega
    exact_mod_cast this
  have hq2 : q < 2 ^ s := by
    have : (q : Int) < 2 ^ s := by omega
    exact_mod_cast this
  have ha2 : a < 2 ^ (63 - w - s) := by exact_mod_cast ht1
  have hpow : (2 : Nat) ^ (63 - w - s) * 2 ^ (s + w) = 2 ^ 63 := by
    rw [← pow_add]
    congr 1
    omega
  have hA : a * 2 ^ (s + w) < 2 ^ 63 := by
    rw [← hpow]
    exact Nat.mul_lt_mul_of_pos_right ha2 (by positivity)
  have hW : wid * 2 ^ s < 2 ^ 63 := by
    have h1 : wid * 2 ^ s < 2 ^ w * 2 ^ s := Nat.mul_lt_mul_of_pos_right hwid2 (by positivity)
    have h2 : (2 : Nat) ^ w * 2 ^ s ≤ 2 ^ 63 := by
      rw [← pow_add]
      exact Nat.pow_le_pow_right (by norm_num) (by omega)
    omega
  have hAi : ((a : Int) * 2 ^ (s + w)) < 2 ^ 63 := by exact_mod_cast hA
  have hWi : ((wid : Int) * 2 ^ s) < 2 ^ 63 := by exact_mod_cast hW
  have hA0 : 0 ≤ ((a : Int) * 2 ^ (s + w)) := by positivity
  have hW0 : 0 ≤ ((wid : Int) * 2 ^ s) := by positivity
  have ha63 : (a : Int) < 2 ^ 63 := by
    have : a < 2 ^ 63 := by
      have h1 : (2 : Nat) ^ (63 - w - s) ≤ 2 ^ 63 := Nat.pow_le_pow_right (by norm_num) (by omega)
      omega
    exact_mod_cast this
  unfold CommonSnake.snowflake shl
  rw [hl.timestampLeftShift, hl.workerIDShift, ha, hwid, hq,
    wrapInt64_of_range (a : Int) (by omega) ha63,
    wrapInt64_of_range _ (by omega) hAi, wrapInt64_of_range _ (by omega) hWi]
  have e1 : ((a : Int) * 2 ^ (s + w)) = ((a * 2 ^ (s + w) : Nat) : Int) := by push_cast; rfl
  have e2 : ((wid : Int) * 2 ^ s) = ((wid * 2 ^ s : Nat) : Int) := by push_cast; rfl
  rw [e1, e2, lor_coe, lor_coe, pack_nat a wid q w s hwid2 hq2]
  push_cast
  ring

/-- Parsing a sum of three non-overlapping fields gives the fields back. -/
theorem ParseID_sum (c : CommonSnake) (w s : Nat) (hl : Layout c w s) (a wid seq : Int)
    (ha0 : 0 ≤ a) (hw0 : 0 ≤ wid) (hw1 : wid ≤ 2 ^ w - 1) (hs0 : 0 ≤ seq)
    (hs1 : seq ≤ 2 ^ s - 1) (hsum0 : -2 ^ 63 ≤ a + c.snakeConf.Epoch)
    (hsum1 : a + c.snakeConf.Epoch < 2 ^ 63) :
    c.ParseID (a * 2 ^ (s + w) + wid * 2 ^ s + seq) = (a + c.snakeConf.Epoch, wid, seq) := by
  obtain ⟨a1, rfl⟩ := Int.eq_ofNat_of_zero_le ha0
  obtain ⟨wid1, rfl⟩ := Int.eq_ofNat_of_zero_le hw0
  obtain ⟨q, rfl⟩ := Int.eq_ofNat_of_zero_le hs0
  have hwid2 : wid1 < 2 ^ w := by
    have : (wid1 : Int) < 2 ^ w := by omega
    exact_mod_cast this
  have hq2 : q < 2 ^ s := by
    have : (q : Int) < 2 ^ s := by omega
    exact_mod_cast this
  have hid : ((a1 : Int) * 2 ^ (s + w) + (wid1 : Int) * 2 ^ s + (q : Int)) =
      ((2 ^ s * (2 ^ w * a1 + wid1) + q : Nat) : Int) := by
    push_cast
    ring
  unfold CommonSnake.ParseID shr
  rw [hl.maxSequence, hl.maxWorkerID, hl.workerIDShift, hl.timestampLeftShift, hid]
  have hdiv1 : (((2 ^ s * (2 ^ w * a1 + wid1) + q : Nat) : Int) / 2 ^ s) =
      ((2 ^ w * a1 + wid1 : Nat) : Int) := by
    rw [coe_div_pow, unpack_div (2 ^ w * a1 + wid1) q s hq2]
  have hdiv2 : (((2 ^ s * (2 ^ w * a1 + wid1) + q : Nat) : Int) / 2 ^ (s + w)) = (a1 : Int) := by
    have hn : (2 ^ s * (2 ^ w * a1 + wid1) + q) / 2 ^ (s + w) = a1 := by
      rw [pow_add, ← Nat.div_div_eq_div_mul, unpack_div _ q s hq2, unpack_div a1 wid1 w hwid2]
    rw [coe_div_pow, hn]
  rw [land_mask, hdiv1, land_mask, hdiv2, unpack_mod _ q s hq2, unpack_mod a1 wid1 w hwid2,
    wrapInt64_of_range _ hsum0 hsum1]

theorem CalculateWorkerID_ok (host : Host) (c c1 : CommonSnake)
    (h : c.CalculateWorkerID host = (c1, none)) :
    c1.snakeConf = c.snakeConf ∧ c1.maxWorkerID = c.maxWorkerID ∧
      c1.maxSequence = c.maxSequence ∧ c1.workerIDShift = c.workerIDShift ∧
      c1.timestampLeftShift = c.timestampLeftShift ∧ c1.timestamp = c.timestamp ∧
      c1.sequence = c.sequence ∧ 0 ≤ c1.workerID ∧ c1.workerID ≤ c1.maxWorkerID := by
  unfold CommonSnake.CalculateWorkerID at h
  by_cases h1 : c.snakeConf.WorkerID ≠ 0
  · rw [if_pos h1] at h
    by_cases h2 : c.snakeConf.WorkerID < 0 ∨ c.snakeConf.WorkerID > c.maxWorkerID
    · rw [if_pos h2] at h
      simp at h
    · rw [if_neg h2] at h
      simp only [Prod.mk.injEq, and_true] at h
      subst h
      simp only [not_or, not_lt] at h2
      exact ⟨rfl, rfl, rfl, rfl, rfl, rfl, rfl, h2.1, h2.2⟩
  · rw [if_neg h1] at h
    dsimp only at h
    split_ifs at h <;> first
      | (simp at h; done)
      | (simp only [Prod.mk.injEq, and_true] at h
         subst h
         rename_i hr
         simp only [not_or, not_lt] at hr
         exact ⟨rfl, rfl, rfl, rfl, rfl, rfl, rfl, hr.1, hr.2⟩)

theorem NewSnake_ok (host : Host) (conf : Conf) (c : CommonSnake)
    (h : NewSnake host conf = .ok c) :
    c.snakeConf = conf.Validate.1 ∧
      c.maxWorkerID = 2 ^ effectiveWorkerIDBits conf - 1 ∧
      c.maxSequence = 2 ^ effectiveSequenceBits conf - 1 ∧
      c.workerIDShift = effectiveSequenceBits conf ∧
      c.timestampLeftShift = effectiveSequenceBits conf + effectiveWorkerIDBits conf ∧
      c.timestamp = 0 ∧ c.sequence = 0 ∧ 0 ≤ c.workerID ∧
      c.workerID ≤ 2 ^ effectiveWorkerIDBits conf - 1 := by
  obtain ⟨_, hw, hs, _, _, _⟩ := Validate_fields conf
  have hwr := effectiveWorkerIDBits_range conf
  have hsr := effectiveSequenceBits_range conf
  obtain ⟨p1, p2, p3, p4, p5, _, p7, p8⟩ := prepared_fields conf.Validate.1
    (by rw [hw]; exact hwr.2) (by rw [hs]; exact hsr.2)
  rw [hw] at p2 p5
  rw [hs] at p3 p4 p5
  rw [NewSnake_eq] at h
  cases hc : (prepared conf.Validate.1).CalculateWorkerID host with
  | mk c1 e =>
    rw [hc] at h
    cases e with
    | some err => cases h
    | none =>
      simp only [Except.ok.injEq] at h
      subst h
      obtain ⟨q1, q2, q3, q4, q5, q6, q7, q8, q9⟩ := CalculateWorkerID_ok host _ _ hc
      rw [q2, p2] at q9
      exact ⟨by rw [q1, p1], by rw [q2, p2], by rw [q3, p3], by rw [q4, p4], by rw [q5, p5],
        by rw [q6, p7], by rw [q7, p8], q8, q9⟩

theorem NewSnake_layout (host : Host) (conf : Conf) (c : CommonSnake)
    (h : NewSnake host conf = .ok c)
    (hfit : effectiveWorkerIDBits conf + effectiveSequenceBits conf ≤ 62) :
    Layout c (effectiveWorkerIDBits conf) (effectiveSequenceBits conf) := by
  obtain ⟨_, h2, h3, h4, h5, _, _, h8, h9⟩ := NewSnake_ok host conf c h
  exact ⟨h2, h3, h4, h5, h8, h9, hfit⟩

/-- C17: for a generator built by `NewSnake` whose worker and sequence bits `w`
and `s` (after defaulting) satisfy `w + s <= 62`, every worker ID in
`[0, 2^w - 1]`, every sequence in `[0, 2^s - 1]` and every `int64` timestamp `t`
with `0 <= t - Epoch < 2^(63 - w - s)`: `ParseID` of the ID composed from them as
in `Generator` is `(t, workerID, sequence)`; in particular, with the generator's own
worker ID the parsed worker ID is that worker ID, and the parsed timestamp is at
least `Epoch`. -/
theorem parse_id_inverts_snowflake (host : Host) (conf : Conf) (c : CommonSnake)
    (workerID t sequence : Int) (hnew : NewSnake host conf = .ok c)
    (hfit : effectiveWorkerIDBits conf + effectiveSequenceBits conf ≤ 62)
    (hw0 : 0 ≤ workerID) (hw1 : workerID ≤ 2 ^ effectiveWorkerIDBits conf - 1)
    (hs0 : 0 ≤ sequence) (hs1 : sequence ≤ 2 ^ effectiveSequenceBits conf - 1)
    (ht0 : 0 ≤ t - c.snakeConf.Epoch)
    (ht1 : t - c.snakeConf.Epoch <
      2 ^ (63 - effectiveWorkerIDBits conf - effectiveSequenceBits conf))
    (htlo : -2 ^ 63 ≤ t) (hthi : t < 2 ^ 63) :
    ({ c with workerID := workerID } : CommonSnake).ParseID
        (({ c with workerID := workerID } : CommonSnake).snowflake t sequence) =
      (t, workerID, sequence) ∧
    c.ParseID (c.snowflake t sequence) = (t, c.workerID, sequence) ∧
    c.snakeConf.Epoch ≤ (c.ParseID (c.snowflake t sequence)).1 := by
  have hl := NewSnake_layout host conf c hnew hfit
  have hl2 : Layout ({ c with workerID := workerID } : CommonSnake)
      (effectiveWorkerIDBits conf) (effectiveSequenceBits conf) :=
    ⟨hl.maxWorkerID, hl.maxSequence, hl.workerIDShift, hl.timestampLeftShift, hw0, hw1, hfit⟩
  have e1 := snowflake_eq_sum _ _ _ hl2 t sequence ht0 ht1 hs0 hs1
  have e2 := snowflake_eq_sum _ _ _ hl t sequence ht0 ht1 hs0 hs1
  have p1 := ParseID_sum _ _ _ hl2 (t - c.snakeConf.Epoch) workerID sequence ht0 hw0 hw1 hs0 hs1
    (by simp only [sub_add_cancel]; exact htlo) (by simp only [sub_add_cancel]; exact hthi)
  have p2 := ParseID_sum _ _ _ hl (t - c.snakeConf.Epoch) c.workerID sequence ht0
    hl.workerID_nonneg hl.workerID_le hs0 hs1
    (by simp only [sub_add_cancel]; exact htlo) (by simp only [sub_add_cancel]; exact hthi)
  simp only [sub_add_cancel] at p1 p2
  refine ⟨?_, ?_, ?_⟩
  · rw [e1]
    exact p1
  · rw [e2]
    exact p2
  · rw [e2, p2]
    omega

theorem parse_id_inverts_snowflake_witness :
    ({ parseSnake with workerID := 5 } : CommonSnake).ParseID
        (({ parseSnake with workerID := 5 } : CommonSnake).snowflake 1704067200123 7) =
      (1704067200123, 5, 7) ∧
    parseSnake.ParseID (parseSnake.snowflake 1704067200123 7) =
      (1704067200123, parseSnake.workerID, 7) ∧
    parseSnake.snakeConf.Epoch ≤
      (parseSnake.ParseID (parseSnake.snowflake 1704067200123 7)).1 :=
  parse_id_inverts_snowflake sampleHost parseConf parseSnake 5 1704067200123 7
    rfl (by decide) (by decide) (by decide) (by decide) (by decide) (by decide)
    (by decide) (by decide) (by decide)

/-! ## The worker ID derived from the host address -/

theorem hashed_range (h b : Nat) (hb : b ≤ 63) :
    wrapInt64 ((2 ^ b - 1 : Int) + 1) ≠ 0 ∧
      0 ≤ Int.tmod (Int.land (h : Int) 0x7FFFFFFF) (wrapInt64 ((2 ^ b - 1 : Int) + 1)) ∧
      Int.tmod (Int.land (h : Int) 0x7FFFFFFF) (wrapInt64 ((2 ^ b - 1 : Int) + 1)) ≤
        2 ^ b - 1 := by
  have hmask : Int.land (h : Int) 0x7FFFFFFF = ((h % 2 ^ 31 : Nat) : Int) := by
    have e : (0x7FFFFFFF : Int) = 2 ^ 31 - 1 := by norm_num
    rw [e, land_mask]
  have hx0 : (0 : Int) ≤ ((h % 2 ^ 31 : Nat) : Int) := Int.ofNat_nonneg _
  have hx1 : ((h % 2 ^ 31 : Nat) : Int) < 2 ^ 31 := by
    have := Nat.mod_lt h (show 0 < 2 ^ 31 by norm_num)
    exact_mod_cast this
  rw [hmask]
  simp only [sub_add_cancel]
  by_cases h63 : b = 63
  · subst h63
    have hw : wrapInt64 (2 ^ 63) = -(2 ^ 63) := by
      unfold Rabbitmq.wrapInt64
      norm_num
    rw [hw, Int.tmod_neg, Int.tmod_eq_of_lt hx0 (by omega)]
    exact ⟨by norm_num, hx0, by omega⟩
  · have hp := two_pow_le_of_le b (by omega)
    have h0 : (0 : Int) < 2 ^ b := by positivity
    rw [wrapInt64_of_range _ (by omega) (by omega)]
    have hlt := Int.tmod_lt_of_pos ((h % 2 ^ 31 : Nat) : Int) h0
    exact ⟨ne_of_gt h0, Int.tmod_nonneg _ hx0, by omega⟩

theorem CalculateWorkerID_hashed (host : Host) (c : CommonSnake) (b : Nat) (hb : b ≤ 63)
    (hmax : c.maxWorkerID = 2 ^ b - 1) (hz : c.snakeConf.WorkerID = 0) :
    c.CalculateWorkerID host =
      if (hostIP host).length = 0 then (c, some noAddress)
      else ({ c with workerID := hashedWorkerID c host }, none) := by
  obtain ⟨_, h0, h1⟩ := hashed_range (fnv32a (stringBytes ((hostIP host).replace "." ""))) b hb
  rw [← hmax] at h0 h1
  have hr : ¬ (hashedWorkerID c host < 0 ∨ hashedWorkerID c host > c.maxWorkerID) := by
    unfold hashedWorkerID
    simp only [not_or, not_lt]
    exact ⟨h0, h1⟩
  unfold CommonSnake.CalculateWorkerID
  rw [if_neg (by simp [hz])]
  by_cases hip : (hostIP host).length = 0
  · rw [if_pos hip]
    unfold hostIP at hip
    simp only [hip, if_true]
    rfl
  · rw [if_neg hip]
    unfold hostIP at hip
    unfold hashedWorkerID hostIP at hr
    simp only [hip, if_false]
    rw [if_neg hr]
    rfl

/-- C23: with `WorkerID` 0 and `WorkerIDBits` at most 63 (so for all of `1..63`), the
worker ID is
`(h & 0x7FFFFFFF) % (maxWorkerID + 1)` in `int64` arithmetic: for every hash `h`
the modulus is not zero and the result lies in `[0, maxWorkerID]`, so
`CalculateWorkerID` returns no out-of-range error: it sets the hashed worker ID,
or fails only because the host has no address. -/
theorem hashed_worker_id_is_in_range (host : Host) (c : CommonSnake)
    (hb : c.snakeConf.WorkerIDBits ≤ 63) (hz : c.snakeConf.WorkerID = 0) :
    (∀ h : Nat,
      wrapInt64 (c.CalculateMaxWorkerID.maxWorkerID + 1) ≠ 0 ∧
      0 ≤ Int.tmod (Int.land (h : Int) 0x7FFFFFFF)
        (wrapInt64 (c.CalculateMaxWorkerID.maxWorkerID + 1)) ∧
      Int.tmod (Int.land (h : Int) 0x7FFFFFFF)
        (wrapInt64 (c.CalculateMaxWorkerID.maxWorkerID + 1)) ≤
          c.CalculateMaxWorkerID.maxWorkerID) ∧
    (∀ err, (c.CalculateMaxWorkerID.CalculateWorkerID host).2 = some err → err = noAddress) ∧
    ((hostIP host).length ≠ 0 →
      c.CalculateMaxWorkerID.CalculateWorkerID host =
        ({ c.CalculateMaxWorkerID with
            workerID := hashedWorkerID c.CalculateMaxWorkerID host }, none) ∧
      0 ≤ hashedWorkerID c.CalculateMaxWorkerID host ∧
      hashedWorkerID c.CalculateMaxWorkerID host ≤ c.CalculateMaxWorkerID.maxWorkerID) := by
  have hmax := maxWorkerID_eq c hb
  have hz1 : c.CalculateMaxWorkerID.snakeConf.WorkerID = 0 := by
    rw [(CalculateMaxWorkerID_frame c).1]
    exact hz
  have hcalc := CalculateWorkerID_hashed host c.CalculateMaxWorkerID _ hb hmax hz1
  refine ⟨?_, ?_, ?_⟩
  · intro h
    rw [hmax]
    exact hashed_range h _ hb
  · intro err herr
    rw [hcalc] at herr
    by_cases hip : (hostIP host).length = 0
    · rw [if_pos hip] at herr
      simp only [Option.some.injEq] at herr
      exact herr.symm
    · rw [if_neg hip] at herr
      simp at herr
  · intro hip
    rw [hcalc, if_neg hip]
    obtain ⟨_, h0, h1⟩ := hashed_range
      (fnv32a (stringBytes ((hostIP host).replace "." ""))) _ hb
    rw [← hmax] at h0 h1
    exact ⟨rfl, h0, h1⟩

theorem hashed_worker_id_is_in_range_witness :
    (∀ h : Nat,
      wrapInt64 (hashSnake.CalculateMaxWorkerID.maxWorkerID + 1) ≠ 0 ∧
      0 ≤ Int.tmod (Int.land (h : Int) 0x7FFFFFFF)
        (wrapInt64 (hashSnake.CalculateMaxWorkerID.maxWorkerID + 1)) ∧
      Int.tmod (Int.land (h : Int) 0x7FFFFFFF)
        (wrapInt64 (hashSnake.CalculateMaxWorkerID.maxWorkerID + 1)) ≤
          hashSnake.CalculateMaxWorkerID.maxWorkerID) ∧
    (∀ err, (hashSnake.CalculateMaxWorkerID.CalculateWorkerID sampleHost).2 = some err →
      err = noAddress) ∧
    ((hostIP sampleHost).length ≠ 0 →
      hashSnake.CalculateMaxWorkerID.CalculateWorkerID sampleHost =
        ({ hashSnake.CalculateMaxWorkerID with
            workerID := hashedWorkerID hashSnake.CalculateMaxWorkerID sampleHost }, none) ∧
      0 ≤ hashedWorkerID hashSnake.CalculateMaxWorkerID sampleHost ∧
      hashedWorkerID hashSnake.CalculateMaxWorkerID sampleHost ≤
        hashSnake.CalculateMaxWorkerID.maxWorkerID) :=
  hashed_worker_id_is_in_range sampleHost hashSnake (by decide) (by decide)

/-! ## `Generator` by one goroutine -/

theorem waitForClock_spec (P : Int → Prop) (lastTimestamp waitUntil : Int) :
    ∀ (n : Nat) (clock : List Instant) (currentTime currentTime1 : Int) (rest : List Instant),
      clock.length ≤ n → P currentTime → (∀ r ∈ clock, P r.unixMilli) →
      waitForClock lastTimestamp waitUntil clock currentTime = some (currentTime1, rest) →
      P currentTime1 ∧ ∀ r ∈ rest, P r.unixMilli := by
  intro n
  induction n with
  | zero =>
    intro clock cur cur1 rest hlen _ _ h
    have : clock = [] := List.length_eq_zero.mp (Nat.le_zero.mp hlen)
    subst this
    simp [waitForClock] at h
  | succ n ih =>
    intro clock cur cur1 rest hlen hcur hclock h
    match clock, hlen, hclock, h with
    | [], _, _, h => simp [waitForClock] at h
    | [now], _, _, h =>
      simp only [waitForClock] at h
      split_ifs at h
      simp only [Option.some.injEq, Prod.mk.injEq] at h
      obtain ⟨rfl, rfl⟩ := h
      exact ⟨hcur, by simp⟩
    | now :: next :: tail, hlen, hclock, h =>
      simp only [waitForClock] at h
      split_ifs at h
      · exact ih tail next.unixMilli cur1 rest
          (by simp only [List.length_cons] at hlen; omega)
          (hclock next (by simp)) (fun r hr => hclock r (by simp [hr])) h
      · simp only [Option.some.injEq, Prod.mk.injEq] at h
        obtain ⟨rfl, rfl⟩ := h
        exact ⟨hcur, fun r hr => hclock r (List.mem_cons_of_mem _ hr)⟩

theorem waitNextMilli_spec (P : Int → Prop) (lastTimestamp waitUntil : Int) :
    ∀ (n : Nat) (clock : List Instant) (currentTime : Int) (res : Except GoError Int)
      (rest : List Instant),
      clock.length ≤ n → P currentTime → (∀ r ∈ clock, P r.unixMilli) →
      waitNextMilli lastTimestamp waitUntil clock currentTime = some (res, rest) →
      (∀ r ∈ rest, P r.unixMilli) ∧
        ∀ currentTime2, res = .ok currentTime2 → P currentTime2 ∧ lastTimestamp < currentTime2 := by
  intro n
  induction n with
  | zero =>
    intro clock cur res rest hlen hcur _ h
    have : clock = [] := List.length_eq_zero.mp (Nat.le_zero.mp hlen)
    subst this
    simp only [waitNextMilli] at h
    split_ifs at h with hle
    simp only [Option.some.injEq, Prod.mk.injEq] at h
    obtain ⟨rfl, rfl⟩ := h
    refine ⟨by simp, ?_⟩
    intro t ht
    cases ht
    exact ⟨hcur, not_le.mp hle⟩
  | succ n ih =>
    intro clock cur res rest hlen hcur hclock h
    match clock, hlen, hclock, h with
    | [], _, _, h =>
      simp only [waitNextMilli] at h
      split_ifs at h with hle
      simp only [Option.some.injEq, Prod.mk.injEq] at h
      obtain ⟨rfl, rfl⟩ := h
      refine ⟨by simp, ?_⟩
      intro t ht
      cases ht
      exact ⟨hcur, not_le.mp hle⟩
    | [now], _, hclock, h =>
      simp only [waitNextMilli] at h
      split_ifs at h with hle hafter
      · simp only [Option.some.injEq, Prod.mk.injEq] at h
        obtain ⟨rfl, rfl⟩ := h
        exact ⟨by simp, fun t ht => by cases ht⟩
      · simp only [Option.some.injEq, Prod.mk.injEq] at h
        obtain ⟨rfl, rfl⟩ := h
        refine ⟨hclock, ?_⟩
        intro t ht
        cases ht
        exact ⟨hcur, not_le.mp hle⟩
    | now :: next :: tail, hlen, hclock, h =>
      simp only [waitNextMilli] at h
      split_ifs at h with hle hafter
      · simp only [Option.some.injEq, Prod.mk.injEq] at h
        obtain ⟨rfl, rfl⟩ := h
        exact ⟨fun r hr => hclock r (List.mem_cons_of_mem _ hr), fun t ht => by cases ht⟩
      · exact ih tail next.unixMilli res rest
          (by simp only [List.length_cons] at hlen; omega)
          (hclock next (by simp)) (fun r hr => hclock r (by simp [hr])) h
      · simp only [Option.some.injEq, Prod.mk.injEq] at h
        obtain ⟨rfl, rfl⟩ := h
        refine ⟨hclock, ?_⟩
        intro t ht
        cases ht
        exact ⟨hcur, not_le.mp hle⟩

theorem clockCheck_spec (P : Int → Prop) (c : CommonSnake) (clock : List Instant)
    (currentTime lastTimestamp : Int) (res : Except GoError Int) (rest : List Instant)
    (hcur : P currentTime) (hclock : ∀ r ∈ clock, P r.unixMilli)
    (h : clockCheck c clock currentTime lastTimestamp = some (res, rest)) :
    (∀ r ∈ rest, P r.unixMilli) ∧
      ∀ currentTime1, res = .ok currentTime1 → P currentTime1 ∧ lastTimestamp ≤ currentTime1 := by
  unfold clockCheck at h
  by_cases hlt : currentTime < lastTimestamp
  · rw [if_pos hlt] at h
    dsimp only at h
    by_cases htol : wrapInt64 (lastTimestamp - currentTime) ≤ c.snakeConf.TimeDifference
    · rw [if_pos htol] at h
      match clock, hclock, h with
      | [], _, h => simp at h
      | now :: tail, hclock, h =>
        dsimp only at h
        cases hw : waitForClock lastTimestamp
            (now.nanos + wrapInt64 (c.snakeConf.TimeDifference * 1000000)) tail currentTime with
        | none => simp [hw] at h
        | some pr =>
          obtain ⟨cur1, rest1⟩ := pr
          rw [hw] at h
          dsimp only at h
          obtain ⟨hp1, hrest1⟩ := waitForClock_spec P _ _ tail.length tail currentTime cur1 rest1
            (Nat.le_refl _) hcur (fun r hr => hclock r (List.mem_cons_of_mem _ hr)) hw
          split_ifs at h with hstill
          · simp only [Option.some.injEq, Prod.mk.injEq] at h
            obtain ⟨rfl, rfl⟩ := h
            exact ⟨hrest1, fun t ht => by cases ht⟩
          · simp only [Option.some.injEq, Prod.mk.injEq] at h
            obtain ⟨rfl, rfl⟩ := h
            refine ⟨hrest1, ?_⟩
            intro t ht
            cases ht
            exact ⟨hp1, not_lt.mp hstill⟩
    · rw [if_neg htol] at h
      simp only [Option.some.injEq, Prod.mk.injEq] at h
      obtain ⟨rfl, rfl⟩ := h
      exact ⟨hclock, fun t ht => by cases ht⟩
  · rw [if_neg hlt] at h
    simp only [Option.some.injEq, Prod.mk.injEq] at h
    obtain ⟨rfl, rfl⟩ := h
    refine ⟨hclock, ?_⟩
    intro t ht
    cases ht
    exact ⟨hcur, not_lt.mp hlt⟩

theorem generatorLoop_spec (P : Int → Prop) :
    ∀ (fuel : Nat) (c : CommonSnake) (clock : List Instant) (currentTime : Int)
      (res : Except GoError (Int × Int)) (c1 : CommonSnake) (rest : List Instant),
      P currentTime → (∀ r ∈ clock, P r.unixMilli) →
      generatorLoop fuel c clock currentTime c.timestamp = some (res, c1, rest) →
      (∀ r ∈ rest, P r.unixMilli) ∧ (∀ e, res = .error e → c1 = c) ∧
        ∀ ts seq, res = .ok (ts, seq) → P ts ∧ Advance c c1 ts seq := by
  intro fuel
  induction fuel with
  | zero =>
    intro c clock cur res c1 rest _ _ h
    simp [generatorLoop] at h
  | succ fuel ih =>
    intro c clock cur res c1 rest hcur hclock h
    unfold generatorLoop at h
    cases hcc : clockCheck c clock cur c.timestamp with
    | none => simp [hcc] at h
    | some pr =>
      obtain ⟨r1, clock1⟩ := pr
      obtain ⟨hclock1, hok1⟩ := clockCheck_spec P c clock cur c.timestamp r1 clock1 hcur hclock hcc
      rw [hcc] at h
      cases r1 with
      | error e =>
        simp only [Option.some.injEq, Prod.mk.injEq] at h
        obtain ⟨rfl, rfl, rfl⟩ := h
        exact ⟨hclock1, fun _ _ => rfl, fun ts seq hts => by cases hts⟩
      | ok cur1 =>
        obtain ⟨hp1, hge1⟩ := hok1 cur1 rfl
        dsimp only at h
        by_cases heq : cur1 = c.timestamp
        · rw [if_pos heq] at h
          by_cases hfull : c.sequence ≥ c.maxSequence
          · rw [if_pos hfull] at h
            match clock1, hclock1, h with
            | [], _, h => simp at h
            | now :: clock2, hclock1, h =>
              dsimp only at h
              cases hw : waitNextMilli c.timestamp (now.nanos + sequenceWait) clock2 cur1 with
              | none => simp [hw] at h
              | some pr2 =>
                obtain ⟨r2, clock3⟩ := pr2
                obtain ⟨hclock3, hok2⟩ := waitNextMilli_spec P _ _ clock2.length clock2 cur1 r2
                  clock3 (Nat.le_refl _) hp1
                  (fun r hr => hclock1 r (List.mem_cons_of_mem _ hr)) hw
                rw [hw] at h
                cases r2 with
                | error e =>
                  simp only [Option.some.injEq, Prod.mk.injEq] at h
                  obtain ⟨rfl, rfl, rfl⟩ := h
                  exact ⟨hclock3, fun _ _ => rfl, fun ts seq hts => by cases hts⟩
                | ok cur2 =>
                  dsimp only at h
                  exact ih c clock3 cur2 res c1 rest (hok2 cur2 rfl).1 hclock3 h
          · rw [if_neg hfull] at h
            simp only [compareAndSwap, if_true, Option.some.injEq, Prod.mk.injEq] at h
            obtain ⟨rfl, rfl, rfl⟩ := h
            refine ⟨hclock1, (fun e he => by cases he), ?_⟩
            intro ts seq hts
            simp only [Except.ok.injEq, Prod.mk.injEq] at hts
            obtain ⟨rfl, rfl⟩ := hts
            exact ⟨hp1, Or.inl ⟨heq, rfl, not_le.mp hfull, rfl⟩⟩
        · rw [if_neg heq] at h
          simp only [compareAndSwap, if_true, Option.some.injEq, Prod.mk.injEq] at h
          obtain ⟨rfl, rfl, rfl⟩ := h
          refine ⟨hclock1, (fun e he => by cases he), ?_⟩
          intro ts seq hts
          simp only [Except.ok.injEq, Prod.mk.injEq] at hts
          obtain ⟨rfl, rfl⟩ := hts
          exact ⟨hp1, Or.inr ⟨lt_of_le_of_ne hge1 (Ne.symm heq), rfl, rfl⟩⟩

theorem Generator_spec (P : Int → Prop) (fuel : Nat) (c : CommonSnake) (clock : List Instant)
    (res : Except GoError Int) (c1 : CommonSnake) (rest : List Instant)
    (hclock : ∀ r ∈ clock, P r.unixMilli)
    (h : c.Generator fuel clock = some (res, c1, rest)) :
    (∀ r ∈ rest, P r.unixMilli) ∧ (∀ e, res = .error e → c1 = c) ∧
      ∀ id, res = .ok id →
        ∃ ts seq, id = c1.snowflake ts seq ∧ P ts ∧ Advance c c1 ts seq := by
  unfold CommonSnake.Generator at h
  match clock, hclock, h with
  | [], _, h => simp at h
  | now :: tail, hclock, h =>
    dsimp only at h
    cases hl : generatorLoop fuel c tail now.unixMilli c.timestamp with
    | none => simp [hl] at h
    | some pr =>
      obtain ⟨r, c2, rest2⟩ := pr
      obtain ⟨hrest, herr, hok⟩ := generatorLoop_spec P fuel c tail now.unixMilli r c2 rest2
        (hclock now (by simp)) (fun r hr => hclock r (List.mem_cons_of_mem _ hr)) hl
      rw [hl] at h
      cases r with
      | error e =>
        simp only [Option.some.injEq, Prod.mk.injEq] at h
        obtain ⟨rfl, rfl, rfl⟩ := h
        exact ⟨hrest, fun e1 _ => herr e rfl, fun id hid => by cases hid⟩
      | ok pr2 =>
        obtain ⟨ts, seq⟩ := pr2
        simp only [Option.some.injEq, Prod.mk.injEq] at h
        obtain ⟨rfl, rfl, rfl⟩ := h
        refine ⟨hrest, (fun e he => by cases he), ?_⟩
        intro id hid
        simp only [Except.ok.injEq] at hid
        exact ⟨ts, seq, hid.symm, hok ts seq rfl⟩

theorem advance_step (c c1 : CommonSnake) (w s : Nat) (ts seq : Int) (hl : Layout c w s)
    (hs0 : 0 ≤ c.sequence) (hs1 : c.sequence ≤ 2 ^ s - 1)
    (hts : InRange c.snakeConf.Epoch w s ts) (hadv : Advance c c1 ts seq) :
    Layout c1 w s ∧ 0 ≤ c1.sequence ∧ c1.sequence ≤ 2 ^ s - 1 ∧
      c1.snakeConf = c.snakeConf ∧ c1.snowflake ts seq = key c1 w s ∧
      key c w s < key c1 w s := by
  have hfit := hl.fits
  have hpow : (2 : Int) ^ s ≤ 2 ^ 62 := pow_le_pow_right₀ (by norm_num) (by omega)
  have hpos : (0 : Int) < 2 ^ s := by positivity
  rcases hadv with ⟨h1, h2, h3, h4⟩ | ⟨h1, h2, h4⟩
  · rw [hl.maxSequence] at h3
    have hseq : seq = c.sequence + 1 := by
      rw [h2, wrapInt64_of_range _ (by omega) (by omega)]
    have hl1 : Layout c1 w s := by
      subst h4
      exact ⟨hl.maxWorkerID, hl.maxSequence, hl.workerIDShift, hl.timestampLeftShift,
        hl.workerID_nonneg, hl.workerID_le, hl.fits⟩
    have hconf : c1.snakeConf = c.snakeConf := by subst h4; rfl
    have hseq1 : c1.sequence = seq := by subst h4; rfl
    have hts1 : c1.timestamp = ts := by subst h4; exact h1.symm
    have hwid : c1.workerID = c.workerID := by subst h4; rfl
    refine ⟨hl1, by omega, by omega, hconf, ?_, ?_⟩
    · rw [snowflake_eq_sum c1 w s hl1 ts seq (by rw [hconf]; exact le_of_lt (sub_pos.mpr hts.1))
        (by rw [hconf]; exact hts.2) (by omega) (by omega)]
      simp only [key, hts1, hseq1]
    · simp only [key, hts1, hseq1, hconf, hwid, h1, hseq]
      omega
  · have hl1 : Layout c1 w s := by
      subst h4
      exact ⟨hl.maxWorkerID, hl.maxSequence, hl.workerIDShift, hl.timestampLeftShift,
        hl.workerID_nonneg, hl.workerID_le, hl.fits⟩
    have hconf : c1.snakeConf = c.snakeConf := by subst h4; rfl
    have hseq1 : c1.sequence = seq := by subst h4; exact h2.symm
    have hts1 : c1.timestamp = ts := by subst h4; rfl
    have hwid : c1.workerID = c.workerID := by subst h4; rfl
    refine ⟨hl1, by omega, by omega, hconf, ?_, ?_⟩
    · rw [snowflake_eq_sum c1 w s hl1 ts seq (by rw [hconf]; exact le_of_lt (sub_pos.mpr hts.1))
        (by rw [hconf]; exact hts.2) (by omega) (by omega)]
      simp only [key, hts1, hseq1]
    · simp only [key, hts1, hseq1, hconf, hwid, h2]
      have hbig : (2 : Int) ^ s ≤ 2 ^ (s + w) := pow_le_pow_right₀ (by norm_num) (by omega)
      have hstep : (1 : Int) ≤ ts - c.timestamp := by omega
      have hmul : (2 : Int) ^ (s + w) ≤ (ts - c.timestamp) * 2 ^ (s + w) :=
        le_mul_of_one_le_left (by positivity) hstep
      have hexp : (ts - c.snakeConf.Epoch) * 2 ^ (s + w) =
          (c.timestamp - c.snakeConf.Epoch) * 2 ^ (s + w) +
            (ts - c.timestamp) * 2 ^ (s + w) := by ring
      rw [hexp]
      omega

theorem generateAll_increasing (fuel : Nat) (epoch : Int) (w s : Nat) :
    ∀ (calls : Nat) (c : CommonSnake) (clock : List Instant),
      Layout c w s → c.snakeConf.Epoch = epoch → 0 ≤ c.sequence → c.sequence ≤ 2 ^ s - 1 →
      (∀ r ∈ clock, InRange epoch w s r.unixMilli) →
      (∀ id ∈ returnedIDs (generateAll fuel calls c clock), key c w s < id) ∧
        (returnedIDs (generateAll fuel calls c clock)).Pairwise (· < ·) := by
  intro calls
  induction calls with
  | zero =>
    intro c clock _ _ _ _ _
    simp [generateAll, returnedIDs]
  | succ calls ih =>
    intro c clock hl he hs0 hs1 hclock
    unfold generateAll
    cases hg : c.Generator fuel clock with
    | none => simp [returnedIDs]
    | some pr =>
      obtain ⟨r, c1, clock1⟩ := pr
      obtain ⟨hclock1, herr, hok⟩ := Generator_spec (InRange epoch w s) fuel c clock r c1 clock1
        hclock hg
      dsimp only
      cases r with
      | error e =>
        have hc : c1 = c := herr e rfl
        subst hc
        simp only [returnedIDs]
        exact ih c1 clock1 hl he hs0 hs1 hclock1
      | ok id =>
        obtain ⟨ts, seq, hid, hts, hadv⟩ := hok id rfl
        obtain ⟨hl1, h0, h1, hconf, hsnow, hlt⟩ := advance_step c c1 w s ts seq hl hs0 hs1
          (by rw [he]; exact hts) hadv
        obtain ⟨hall, hpair⟩ := ih c1 clock1 hl1 (by rw [hconf, he]) h0 h1 hclock1
        have hidk : id = key c1 w s := by rw [hid, hsnow]
        simp only [returnedIDs]
        refine ⟨?_, ?_⟩
        · intro x hx
          rcases List.mem_cons.mp hx with rfl | hx
          · rw [hidk]
            exact hlt
          · exact lt_trans hlt (hall x hx)
        · rw [List.pairwise_cons]
          exact ⟨fun x hx => by rw [hidk]; exact hall x hx, hpair⟩

/-- C18: a generator built by `NewSnake` with the default bit layout (10 worker
bits, 12 sequence bits), called by one goroutine any number of times on any
sequence of clock readings that are later than `Epoch` and within the timestamp
range: every ID returned is strictly greater than every ID returned before it,
so the returned IDs are pairwise distinct. -/
theorem sequential_ids_strictly_increase (host : Host) (conf : Conf) (c : CommonSnake)
    (fuel calls : Nat) (clock : List Instant) (hnew : NewSnake host conf = .ok c)
    (hw : effectiveWorkerIDBits conf = 10) (hs : effectiveSequenceBits conf = 12)
    (hclock : ∀ r ∈ clock,
      c.snakeConf.Epoch < r.unixMilli ∧ r.unixMilli - c.snakeConf.Epoch < 2 ^ 41) :
    (returnedIDs (generateAll fuel calls c clock)).Pairwise (· < ·) ∧
      (returnedIDs (generateAll fuel calls c clock)).Nodup := by
  have hl := NewSnake_layout host conf c hnew (by rw [hw, hs]; norm_num)
  rw [hw, hs] at hl
  obtain ⟨_, _, _, _, _, _, hseq, _, _⟩ := NewSnake_ok host conf c hnew
  have hp := (generateAll_increasing fuel c.snakeConf.Epoch 10 12 calls c clock hl rfl
    (by rw [hseq]) (by rw [hseq]; norm_num) (fun r hr => hclock r hr)).2
  exact ⟨hp, hp.imp (fun h => ne_of_lt h)⟩

theorem sequential_ids_strictly_increase_witness :
    ((returnedIDs (generateAll 3 4 defaultSnake sampleClock)).Pairwise (· < ·) ∧
      (returnedIDs (generateAll 3 4 defaultSnake sampleClock)).Nodup) ∧
    returnedIDs (generateAll 3 4 defaultSnake sampleClock) =
      [419434496, 419434497, 423628800, 423628801] :=
  ⟨sequential_ids_strictly_increase sampleHost defaultConf defaultSnake 3 4 sampleClock rfl
    (by decide) (by decide) (by decide), by decide⟩

/-! ### The clock moved backwards -/

/-- C28: when the clock reads earlier than the generator's stored timestamp by more
than `TimeDifference` milliseconds (both within `2^62` ms of 1970, so that their
difference is an `int64`), `Generator` returns the "clock moved backwards" error,
which stands for `(0, err)`, after that one reading, and the generator, with its
stored timestamp and sequence, is unchanged. -/
theorem clock_moved_backwards_is_refused (c : CommonSnake) (fuel : Nat) (now : Instant)
    (rest : List Instant)
    (hts : -2 ^ 62 ≤ c.timestamp ∧ c.timestamp < 2 ^ 62)
    (hnow : -2 ^ 62 ≤ now.unixMilli ∧ now.unixMilli < 2 ^ 62)
    (hlt : now.unixMilli < c.timestamp)
    (hback : c.timestamp - now.unixMilli > c.snakeConf.TimeDifference) :
    c.Generator (fuel + 1) (now :: rest) =
      some (.error (clockBackwards (c.timestamp - now.unixMilli)), c, rest) := by
  have hw : wrapInt64 (c.timestamp - now.unixMilli) = c.timestamp - now.unixMilli :=
    wrapInt64_of_range _ (by omega) (by omega)
  have hcheck : clockCheck c rest now.unixMilli c.timestamp =
      some (.error (clockBackwards (c.timestamp - now.unixMilli)), rest) := by
    unfold clockCheck
    rw [if_pos hlt]
    dsimp only
    rw [hw, if_neg (not_le.mpr hback)]
  unfold CommonSnake.Generator
  dsimp only
  unfold generatorLoop
  rw [hcheck]

theorem clock_moved_backwards_is_refused_witness :
    usedSnake.Generator 1 [staleInstant] =
      some (.error (clockBackwards (usedSnake.timestamp - staleInstant.unixMilli)),
        usedSnake, []) :=
  clock_moved_backwards_is_refused usedSnake 0 staleInstant [] (by decide) (by decide)
    (by decide) (by decide)

/-! ### The sequence number -/

theorem advance_sequence (c c1 : CommonSnake) (ts seq : Int) (h0 : 0 ≤ c.sequence)
    (h1 : c.sequence ≤ c.maxSequence) (hmax : c.maxSequence < 2 ^ 63)
    (hadv : Advance c c1 ts seq) :
    c1.maxSequence = c.maxSequence ∧ c1.workerIDShift = c.workerIDShift ∧
      c1.snakeConf = c.snakeConf ∧ c1.timestamp = ts ∧ c1.sequence = seq ∧ 0 ≤ seq ∧
      seq ≤ c.maxSequence ∧ (c.maxSequence ≤ c.sequence → c.timestamp < ts ∧ seq = 0) := by
  rcases hadv with ⟨e1, e2, e3, e4⟩ | ⟨e1, e2, e4⟩
  · have hseq : seq = c.sequence + 1 := by
      rw [e2, wrapInt64_of_range _ (by omega) (by omega)]
    subst e4
    exact ⟨rfl, rfl, rfl, e1.symm, rfl, by omega, by omega, fun h => by omega⟩
  · subst e4
    exact ⟨rfl, rfl, rfl, rfl, e2.symm, by omega, by omega, fun _ => ⟨e1, e2⟩⟩

theorem generateTrace_sequence (fuel : Nat) (m : Int) (hm : m < 2 ^ 63) :
    ∀ (calls : Nat) (c : CommonSnake) (clock : List Instant),
      c.maxSequence = m → 0 ≤ c.sequence → c.sequence ≤ m →
      ∀ p ∈ generateTrace fuel calls c clock,
        p.2.maxSequence = m ∧ p.2.workerIDShift = c.workerIDShift ∧ 0 ≤ p.2.sequence ∧
          p.2.sequence ≤ m ∧
          ∀ id, p.1 = .ok id → id = p.2.snowflake p.2.timestamp p.2.sequence := by
  intro calls
  induction calls with
  | zero =>
    intro c clock _ _ _ p hp
    simp [generateTrace] at hp
  | succ calls ih =>
    intro c clock hmax h0 h1 p hp
    unfold generateTrace at hp
    cases hg : c.Generator fuel clock with
    | none => simp [hg] at hp
    | some pr =>
      obtain ⟨r, c1, clock1⟩ := pr
      rw [hg] at hp
      dsimp only at hp
      obtain ⟨_, herr, hok⟩ := Generator_spec (fun _ => True) fuel c clock r c1 clock1
        (fun _ _ => trivial) hg
      have hstep : c1.maxSequence = m ∧ c1.workerIDShift = c.workerIDShift ∧
          0 ≤ c1.sequence ∧ c1.sequence ≤ m ∧
          ∀ id, r = .ok id → id = c1.snowflake c1.timestamp c1.sequence := by
        cases r with
        | error e =>
          have hc : c1 = c := herr e rfl
          subst hc
          exact ⟨hmax, rfl, h0, h1, fun id hid => by cases hid⟩
        | ok id =>
          obtain ⟨ts, seq, hid, _, hadv⟩ := hok id rfl
          obtain ⟨a1, a2, _, a4, a5, a6, a7, _⟩ := advance_sequence c c1 ts seq h0
            (by rw [hmax]; exact h1) (by rw [hmax]; exact hm) hadv
          rw [hmax] at a1 a7
          refine ⟨a1, a2, by rw [a5]; exact a6, by rw [a5]; exact a7, ?_⟩
          intro id1 hid1
          simp only [Except.ok.injEq] at hid1
          rw [← hid1, hid, a4, a5]
      rcases List.mem_cons.mp hp with rfl | hp
      · exact hstep
      · obtain ⟨b1, b2, b3, b4, b5⟩ := ih c1 clock1 hstep.1 hstep.2.2.1 hstep.2.2.2.1 p hp
        exact ⟨b1, by rw [b2, hstep.2.1], b3, b4, b5⟩

/-- C27: for a generator built by `NewSnake` and called by one goroutine any number
of times, after every call the stored sequence is within `[0, maxSequence]`, with
`maxSequence = 2^SequenceBits - 1` (bits after defaulting), and every returned ID is
composed from the stored timestamp and the stored sequence, which is below
`2^workerIDShift`, the first worker-ID bit; and a call on a generator whose sequence
is exhausted (`sequence >= maxSequence`) that returns an ID stores a strictly later
timestamp and sequence 0 and composes the ID from them. -/
theorem sequence_stays_within_its_bits (host : Host) (conf : Conf) (c : CommonSnake)
    (fuel calls : Nat) (clock : List Instant) (hnew : NewSnake host conf = .ok c) :
    c.maxSequence = 2 ^ effectiveSequenceBits conf - 1 ∧
    (∀ p ∈ generateTrace fuel calls c clock,
      p.2.maxSequence = c.maxSequence ∧ 0 ≤ p.2.sequence ∧ p.2.sequence ≤ c.maxSequence ∧
        p.2.sequence < 2 ^ p.2.workerIDShift ∧
        ∀ id, p.1 = .ok id → id = p.2.snowflake p.2.timestamp p.2.sequence) ∧
    (∀ (g g1 : CommonSnake) (fuel1 : Nat) (clock1 rest : List Instant) (id : Int),
      g.maxSequence ≤ g.sequence → g.Generator fuel1 clock1 = some (.ok id, g1, rest) →
        g.timestamp < g1.timestamp ∧ g1.sequence = 0 ∧ id = g1.snowflake g1.timestamp 0) := by
  obtain ⟨_, _, hmax, hshift, _, _, hseq, _, _⟩ := NewSnake_ok host conf c hnew
  have hsr := effectiveSequenceBits_range conf
  have hpow : (2 : Int) ^ effectiveSequenceBits conf ≤ 2 ^ 63 :=
    pow_le_pow_right₀ (by norm_num) hsr.2
  have hpos : (0 : Int) < 2 ^ effectiveSequenceBits conf := by positivity
  refine ⟨hmax, ?_, ?_⟩
  · intro p hp
    obtain ⟨b1, b2, b3, b4, b5⟩ := generateTrace_sequence fuel c.maxSequence
      (by rw [hmax]; omega) calls c clock rfl (by rw [hseq]) (by rw [hseq, hmax]; omega) p hp
    refine ⟨b1, b3, b4, ?_, b5⟩
    rw [b2, hshift]
    rw [hmax] at b4
    omega
  · intro g g1 fuel1 clock1 rest id hfull hg
    obtain ⟨_, _, hok⟩ := Generator_spec (fun _ => True) fuel1 g clock1 (.ok id) g1 rest
      (fun _ _ => trivial) hg
    obtain ⟨ts, seq, hid, _, hadv⟩ := hok id rfl
    rcases hadv with ⟨_, _, e3, _⟩ | ⟨e1, e2, e4⟩
    · omega
    · subst e4
      subst e2
      exact ⟨e1, rfl, hid⟩

theorem sequence_stays_within_its_bits_witness :
    (defaultSnake.maxSequence = 2 ^ effectiveSequenceBits defaultConf - 1 ∧
    (∀ p ∈ generateTrace 3 4 defaultSnake sampleClock,
      p.2.maxSequence = defaultSnake.maxSequence ∧ 0 ≤ p.2.sequence ∧
        p.2.sequence ≤ defaultSnake.maxSequence ∧ p.2.sequence < 2 ^ p.2.workerIDShift ∧
        ∀ id, p.1 = .ok id → id = p.2.snowflake p.2.timestamp p.2.sequence) ∧
    (∀ (g g1 : CommonSnake) (fuel1 : Nat) (clock1 rest : List Instant) (id : Int),
      g.maxSequence ≤ g.sequence → g.Generator fuel1 clock1 = some (.ok id, g1, rest) →
        g.timestamp < g1.timestamp ∧ g1.sequence = 0 ∧ id = g1.snowflake g1.timestamp 0)) ∧
    (generateTrace 3 4 defaultSnake sampleClock).map (fun p => p.2.sequence) = [0, 1, 0, 1] ∧
    fullSnake.Generator 2 rolloverClock =
      some (.ok 423628800, { fullSnake with timestamp := 1704067200101, sequence := 0 }, []) :=
  ⟨sequence_stays_within_its_bits sampleHost defaultConf defaultSnake 3 4 sampleClock rfl,
    by decide, rfl⟩

/-! ### The sign of an ID -/

theorem lor_neg_left (x y : Int) (hx : x < 0) : Int.lor x y < 0 := by
  cases x with
  | ofNat n => exact absurd hx (not_lt.mpr (Int.ofNat_nonneg n))
  | negSucc m =>
    cases y with
    | ofNat n => exact Int.negSucc_lt_zero _
    | negSucc n => exact Int.negSucc_lt_zero _

theorem lor_neg_right (x y : Int) (hy : y < 0) : Int.lor x y < 0 := by
  cases y with
  | ofNat n => exact absurd hy (not_lt.mpr (Int.ofNat_nonneg n))
  | negSucc n =>
    cases x with
    | ofNat m => exact Int.negSucc_lt_zero _
    | negSucc m => exact Int.negSucc_lt_zero _

/-- C22 as stated fails on the code: `NewSnake` accepts 63 worker bits with 63
sequence bits, and the first ID of that generator, 100 ms after the epoch, is
negative; and the default generator, `2^41` ms after the epoch, returns a negative
ID. -/
theorem accepted_configuration_returns_negative_id :
    NewSnake sampleHost wideConf = .ok wideSnake ∧
    (∀ r ∈ earlyClock, wideSnake.snakeConf.Epoch < r.unixMilli) ∧
    (∃ id, returnedIDs (generateAll 1 1 wideSnake earlyClock) = [id] ∧ id < 0) ∧
    NewSnake sampleHost defaultConf = .ok defaultSnake ∧
    (∀ r ∈ lateClock, defaultSnake.snakeConf.Epoch < r.unixMilli) ∧
    (∃ id, returnedIDs (generateAll 1 1 defaultSnake lateClock) = [id] ∧ id < 0) :=
  ⟨rfl, by decide,
    ⟨({ wideSnake with timestamp := 1704067200100 } : CommonSnake).snowflake 1704067200100 0,
      rfl, lor_neg_left _ _ (lor_neg_right _ _ (by decide))⟩,
    rfl, by decide,
    ⟨({ defaultSnake with timestamp := 1704067200000 + 2199023255552 } :
        CommonSnake).snowflake (1704067200000 + 2199023255552) 0,
      rfl, lor_neg_left _ _ (lor_neg_left _ _ (by decide))⟩⟩

/-- C22, amended: for a generator built by `NewSnake`, with `w` worker bits and `s`
sequence bits after defaulting, in any state with a stored sequence in
`[0, maxSequence]`, every ID that a call of `Generator` returns while the clock
reads `t` with `Epoch < t` and `t - Epoch < 2^(63 - w - s)` is strictly positive
(no reading qualifies when `w + s >= 63`). -/
theorem ids_within_timestamp_range_are_positive (host : Host) (conf : Conf)
    (c0 c1 : CommonSnake) (t0 sq0 id : Int) (fuel : Nat) (clock rest : List Instant)
    (hnew : NewSnake host conf = .ok c0) (hsq0 : 0 ≤ sq0) (hsq1 : sq0 ≤ c0.maxSequence)
    (hclock : ∀ r ∈ clock, c0.snakeConf.Epoch < r.unixMilli ∧
      r.unixMilli - c0.snakeConf.Epoch <
        2 ^ (63 - effectiveWorkerIDBits conf - effectiveSequenceBits conf))
    (hgen : ({ c0 with timestamp := t0, sequence := sq0 } : CommonSnake).Generator fuel clock =
      some (.ok id, c1, rest)) :
    0 < id := by
  obtain ⟨_, _, hok⟩ := Generator_spec
    (InRange c0.snakeConf.Epoch (effectiveWorkerIDBits conf) (effectiveSequenceBits conf))
    fuel _ clock (.ok id) c1 rest hclock hgen
  obtain ⟨ts, seq, hid, hts, hadv⟩ := hok id rfl
  have hfit : effectiveWorkerIDBits conf + effectiveSequenceBits conf ≤ 62 := by
    by_contra hbig
    have hexp : 63 - effectiveWorkerIDBits conf - effectiveSequenceBits conf = 0 := by omega
    have h1 := hts.1
    have h2 := hts.2
    rw [hexp] at h2
    simp only [pow_zero] at h2
    omega
  have hl0 := NewSnake_layout host conf c0 hnew hfit
  have hl : Layout ({ c0 with timestamp := t0, sequence := sq0 } : CommonSnake)
      (effectiveWorkerIDBits conf) (effectiveSequenceBits conf) :=
    ⟨hl0.maxWorkerID, hl0.maxSequence, hl0.workerIDShift, hl0.timestampLeftShift,
      hl0.workerID_nonneg, hl0.workerID_le, hfit⟩
  have hpow : (2 : Int) ^ effectiveSequenceBits conf ≤ 2 ^ 63 :=
    pow_le_pow_right₀ (by norm_num) (by omega)
  obtain ⟨_, _, _, a4, _⟩ := advance_sequence _ c1 ts seq hsq0 hsq1
    (by show c0.maxSequence < 2 ^ 63; rw [hl0.maxSequence]; omega) hadv
  rw [hl0.maxSequence] at hsq1
  obtain ⟨hl1, h0, _, hconf, hsnow, _⟩ := advance_step _ c1 _ _ ts seq hl hsq0 hsq1 hts hadv
  have hconf1 : c1.snakeConf.Epoch = c0.snakeConf.Epoch := by rw [hconf]
  have hstep : (1 : Int) ≤ c1.timestamp - c1.snakeConf.Epoch := by
    have := hts.1
    rw [a4, hconf1]
    omega
  have hbig : (0 : Int) <
      2 ^ (effectiveSequenceBits conf + effectiveWorkerIDBits conf) := by positivity
  have hmul := le_mul_of_one_le_left (le_of_lt hbig) hstep
  have hwid : 0 ≤ c1.workerID * 2 ^ effectiveSequenceBits conf :=
    mul_nonneg hl1.workerID_nonneg (by positivity)
  rw [hid, hsnow]
  unfold key
  omega

theorem ids_within_timestamp_range_are_positive_witness :
    defaultSnake.Generator 3 sampleClock =
      some (.ok 419434496, { defaultSnake with timestamp := 1704067200100 },
        sampleClock.tail) ∧
    (0 : Int) < 419434496 :=
  ⟨rfl, ids_within_timestamp_range_are_positive sampleHost defaultConf defaultSnake
    { defaultSnake with timestamp := 1704067200100 } 0 0 419434496 3 sampleClock
    sampleClock.tail rfl (by decide) (by decide) (by decide) rfl⟩

/-! ## `Generator` by several goroutines -/

/-- C19 on the code: three goroutines call `Generator` on one fresh default
generator within the same millisecond.  When goroutine 1 runs between goroutine
0's successful compare-and-swap of `timestamp` and its store of 0 to `sequence`,
goroutines 1 and 2 both return the ID with sequence 1; run one after the other,
the three calls return three different IDs. -/
theorem concurrent_calls_return_duplicate :
    (raceSystem.run raceSchedule).results =
      [some 419434496, some 419434497, some 419434497] ∧
    (raceSystem.run raceSchedule).goroutines.map (fun g => g.pc) =
      [.returned 419434496, .returned 419434497, .returned 419434497] ∧
    (raceSystem.run serialSchedule).results =
      [some 419434496, some 419434497, some 419434498] := by
  decide

end Snake

/-!
# czt-contrib: connection supervision and listener lifecycle (`mq/rabbitmq/listener.go`)

`connect`, `reconnect`, `Stop` and the queue worker of `internalStart`.  The
listener's connection, channel and generation fields are the state; the broker's
answers to `DialConfig`, `Channel()` and `Qos` are given per call by a `Broker`.
Two goroutines that call `reconnect` are run step by step under a schedule, with
`reconnectMutex` as part of the state.
-/

namespace Rabbitmq

/-! ## Data model -/

/-- Result of `amqp.DialConfig`: a connection, or an error (with which the
returned connection may or may not be nil). -/
inductive DialOutcome where
  | connected (conn : Nat)
  | failed (conn : Option Nat) (err : GoError)
  deriving DecidableEq, Repr

/-- Result of `Connection.Channel()`: a channel, or nil and an error. -/
inductive ChannelOutcome where
  | opened (channel : Nat)
  | failed (err : GoError)
  deriving DecidableEq, Repr

/-- The broker as `connect` meets it: the outcome of the n-th call (from 0) of
`amqp.DialConfig`, of `Connection.Channel()` and of `Channel.Qos`. -/
structure Broker where
  dial : Nat → DialOutcome
  openChannel : Nat → ChannelOutcome
  qos : Nat → Option GoError

/-- The fields of `RabbitListener` that the lifecycle methods use, and counters of
what they did.  `conn` and `channel` are `none` for nil; `generation` identifies
`currentCtx`. -/
structure Lifecycle where
  conn : Option Nat
  channel : Option Nat
  maxRetry : Nat
  generation : Nat
  nextGeneration : Nat
  /-- generations whose `cancel()` was called -/
  cancelled : List Nat
  /-- generations for which `internalStart` started the queue workers, newest first -/
  started : List Nat
  /-- whether `q.forever` is closed -/
  foreverClosed : Bool
  /-- calls of `connect` -/
  connects : Nat
  dials : Nat
  opens : Nat
  qosCalls : Nat
  closedConns : List Nat
  closedChannels : List Nat
  /-- connections on which `handleConnectionClose` registered a close listener -/
  watched : List Nat
  /-- calls of `time.AfterFunc(5*time.Second, q.reconnect)` -/
  scheduledReconnects : Nat
  deriving DecidableEq, Repr

/-! ## `connect` -/

/-- The dial loop of `connect`, `for maxRetry < q.maxRetry`, by the number of
rounds left; `err` is the variable `err`. -/
def dialLoop (b : Broker) : Nat → Lifecycle → Option GoError → Lifecycle × Option GoError
  | 0, s, err => (s, err)
  | n + 1, s, _ =>
    match b.dial s.dials with
    | .connected c => ({ s with conn := some c, dials := s.dials + 1 }, none)
    | .failed c e => dialLoop b n { s with conn := c, dials := s.dials + 1 } (some e)

/-- The channel loop of `connect`, by the number of rounds left: open a channel,
then set QoS on it; a QoS error counts as a failed round. -/
def channelLoop (b : Broker) : Nat → Lifecycle → Option GoError → Lifecycle × Option GoError
  | 0, s, err => (s, err)
  | n + 1, s, _ =>
    match b.openChannel s.opens with
    | .opened ch =>
      match b.qos s.qosCalls with
      | none => ({ s with channel := some ch, opens := s.opens + 1,
                          qosCalls := s.qosCalls + 1 }, none)
      | some e =>
        channelLoop b n { s with channel := some ch, opens := s.opens + 1,
                                 qosCalls := s.qosCalls + 1 } (some e)
    | .failed e => channelLoop b n { s with channel := none, opens := s.opens + 1 } (some e)

/-- The clean-up of both error paths of `connect`:
`if q.conn != nil { q.conn.Close(); q.conn = nil }`. -/
def dropConn (s : Lifecycle) : Lifecycle :=
  match s.conn with
  | some c => { s with conn := none, closedConns := c :: s.closedConns }
  | none => s

/-- `connect`: the returned error (or the panic of `handleConnectionClose` on a nil
connection) and the listener after. -/
def connect (b : Broker) (s : Lifecycle) : Result (Option GoError) × Lifecycle :=
  let s0 := { s with connects := s.connects + 1 }
  match dialLoop b s0.maxRetry s0 none with
  | (s1, some err) => (.ret (some err), dropConn s1)
  | (s1, none) =>
    match s1.conn with
    | none => (.panic ⟨"invalid memory address or nil pointer dereference"⟩, s1)
    | some c =>
      let s2 := { s1 with watched := c :: s1.watched }
      match channelLoop b s2.maxRetry s2 none with
      | (s3, some err) => (.ret (some err), dropConn s3)
      | (s3, none) => (.ret none, s3)

/-! ## `reconnect`, `Start` and `Stop` -/

/-- `q.cancel()`: cancels the current generation; a second call changes nothing. -/
def cancelGeneration (s : Lifecycle) : Lifecycle :=
  if s.generation ∈ s.cancelled then s else { s with cancelled := s.generation :: s.cancelled }

/-- `internalStart(q.currentCtx)`: starts the queue workers of the current generation. -/
def internalStart (s : Lifecycle) : Lifecycle :=
  { s with started := s.generation :: s.started }

/-- `if q.channel != nil { q.channel.Close(); q.channel = nil }` of `reconnect`. -/
def dropChannel (s : Lifecycle) : Lifecycle :=
  match s.channel with
  | some ch => { s with channel := none, closedChannels := ch :: s.closedChannels }
  | none => s

/-- `q.currentCtx, q.cancel = context.WithCancel(q.rootCtx)`: a fresh generation. -/
def newGeneration (s : Lifecycle) : Lifecycle :=
  { s with generation := s.nextGeneration, nextGeneration := s.nextGeneration + 1 }

/-- `reconnect`, run under `reconnectMutex`: cancel the generation, wait for the
old goroutines (at most 10 s), derive a new generation, close and nil channel and
connection, `connect`, and on success start the workers, on failure schedule
another `reconnect`. -/
def reconnect (b : Broker) (s : Lifecycle) : Result Unit × Lifecycle :=
  match connect b (dropConn (dropChannel (newGeneration (cancelGeneration s)))) with
  | (.panic v, s4) => (.panic v, s4)
  | (.ret (some _), s4) => (.ret (), { s4 with scheduledReconnects := s4.scheduledReconnects + 1 })
  | (.ret none, s4) => (.ret (), internalStart s4)

/-- `if q.channel != nil { _ = q.channel.Close() }` of `Stop`: the field is kept. -/
def shutChannel (s : Lifecycle) : Lifecycle :=
  match s.channel with
  | some ch => { s with closedChannels := ch :: s.closedChannels }
  | none => s

/-- `if q.conn != nil { _ = q.conn.Close() }` of `Stop`: the field is kept. -/
def shutConn (s : Lifecycle) : Lifecycle :=
  match s.conn with
  | some c => { s with closedConns := c :: s.closedConns }
  | none => s

/-- `Stop`, for a listener whose goroutines leave once cancelled: cancel, wait for
the workers and the tasks, close channel and connection, and `close(q.forever)`,
which panics on a channel that is already closed. -/
def Stop (s : Lifecycle) : Result Unit × Lifecycle :=
  let s1 := shutConn (shutChannel (cancelGeneration s))
  if s1.foreverClosed then (.panic ⟨"close of closed channel"⟩, s1)
  else (.ret (), { s1 with foreverClosed := true })

/-! ### Two goroutines in `reconnect` -/

/-- Where a goroutine that calls `reconnect` stands: the statement it runs next. -/
inductive ReconnectPc where
  /-- `q.reconnectMutex.Lock()` -/
  | lock
  /-- `q.cancel()` and the wait for the old goroutines -/
  | cancel
  /-- `q.currentCtx, q.cancel = context.WithCancel(q.rootCtx)` -/
  | renew
  /-- closing and clearing the channel and the connection -/
  | close
  /-- `q.connect()` -/
  | connect
  /-- the `if err != nil` after `connect`: `time.AfterFunc`, or `internalStart` -/
  | finish (err : Option GoError)
  /-- the deferred `q.reconnectMutex.Unlock()` -/
  | unlock
  | returned
  | panicked (v : PanicValue)
  deriving DecidableEq, Repr

/-- One step of a goroutine in `reconnect`, given whether `reconnectMutex` is held
and the listener: the goroutine's next position, the mutex and the listener after.
At `Lock()` the goroutine goes on only when the mutex is free, and then holds it;
a panic of `connect` runs the deferred `Unlock()`. -/
def reconnectStep (b : Broker) (pc : ReconnectPc) (held : Bool) (s : Lifecycle) :
    ReconnectPc × Bool × Lifecycle :=
  match pc with
  | .lock => if held then (.lock, held, s) else (.cancel, true, s)
  | .cancel => (.renew, held, cancelGeneration s)
  | .renew => (.close, held, newGeneration s)
  | .close => (.connect, held, dropConn (dropChannel s))
  | .connect =>
    match connect b s with
    | (.panic v, s1) => (.panicked v, false, s1)
    | (.ret err, s1) => (.finish err, held, s1)
  | .finish (some _) =>
    (.unlock, held, { s with scheduledReconnects := s.scheduledReconnects + 1 })
  | .finish none => (.unlock, held, internalStart s)
  | .unlock => (.returned, false, s)
  | .returned => (.returned, held, s)
  | .panicked v => (.panicked v, held, s)

/-- Two goroutines that call `reconnect` on one listener, with `reconnectMutex`. -/
structure Reconnecting where
  listener : Lifecycle
  mutexHeld : Bool
  first : ReconnectPc
  second : ReconnectPc
  deriving DecidableEq, Repr

/-- The goroutine that the scheduler runs next. -/
inductive Caller where
  | first
  | second
  deriving DecidableEq, Repr

/-- One step of the goroutine that the scheduler picked. -/
def Reconnecting.step (b : Broker) (st : Reconnecting) : Caller → Reconnecting
  | .first =>
    let r := reconnectStep b st.first st.mutexHeld st.listener
    { listener := r.2.2, mutexHeld := r.2.1, first := r.1, second := st.second }
  | .second =>
    let r := reconnectStep b st.second st.mutexHeld st.listener
    { listener := r.2.2, mutexHeld := r.2.1, first := st.first, second := r.1 }

/-- The same state with the two goroutines exchanged. -/
def Reconnecting.swap (st : Reconnecting) : Reconnecting :=
  { listener := st.listener, mutexHeld := st.mutexHeld, first := st.second, second := st.first }

/-- The two goroutines under a schedule. -/
def Reconnecting.run (b : Broker) (st : Reconnecting) (schedule : List Caller) : Reconnecting :=
  schedule.foldl (fun t c => t.step b c) st

/-- Both goroutines about to call `reconnect` on the listener `s`. -/
def twoCallers (s : Lifecycle) : Reconnecting :=
  ⟨s, false, .lock, .lock⟩

/-- Whether a goroutine is inside the body of `reconnect`, between `Lock()` and
`Unlock()`. -/
def ReconnectPc.inBody : ReconnectPc → Bool
  | .lock => false
  | .returned => false
  | .panicked _ => false
  | _ => true

/-- The schedule that runs the first goroutine to its end, then the second. -/
def oneAfterTheOther : List Caller :=
  List.replicate 7 .first ++ List.replicate 7 .second

/-- A schedule in which the second goroutine arrives at `Lock()` while the first
is inside `reconnect`, and is scheduled again and again before the first is
finished. -/
def contended : List Caller :=
  [.first, .second, .first, .second, .first, .first, .second, .first, .first, .first,
    .second, .second, .second, .second, .second, .second, .second]

/-- The listener as `reconnect` hands it to `connect`: generation cancelled and
renewed, channel and connection closed and nil. -/
def beforeConnect (s : Lifecycle) : Lifecycle :=
  dropConn (dropChannel (newGeneration (cancelGeneration s)))

/-- The fields of the listener that `connect` only counts in (`connects`) or leaves
alone. -/
def Lifecycle.books (s : Lifecycle) : Nat × Nat × Nat × List Nat × List Nat × Nat × Bool :=
  (s.maxRetry, s.generation, s.nextGeneration, s.cancelled, s.started, s.scheduledReconnects,
    s.foreverClosed)

/-- What a goroutine inside `reconnect` has done to the listener `s0` it found at
`Lock()`, by its position. -/
def Holds (b : Broker) (s0 : Lifecycle) : ReconnectPc → Lifecycle → Prop
  | .cancel, l => l = s0
  | .renew, l => l = cancelGeneration s0
  | .close, l => l = newGeneration (cancelGeneration s0)
  | .connect, l => l = beforeConnect s0
  | .finish err, l => connect b (beforeConnect s0) = (.ret err, l)
  | .unlock, l => l = (reconnect b s0).2
  | _, _ => False

/-- The states that two calls of `reconnect` on the listener `s` go through: nobody
inside and nothing done; one goroutine inside, working on `s`, the other at
`Lock()`; one returned, the other still at `Lock()`; one returned, the other
inside, working on what the first left; both returned. -/
def Serialised (b : Broker) (s : Lifecycle) (st : Reconnecting) : Prop :=
  (st.first = .lock ∧ st.second = .lock ∧ st.mutexHeld = false ∧ st.listener = s) ∨
  (Holds b s st.first st.listener ∧ st.second = .lock ∧ st.mutexHeld = true) ∨
  (st.first = .lock ∧ Holds b s st.second st.listener ∧ st.mutexHeld = true) ∨
  (st.first = .returned ∧ st.second = .lock ∧ st.mutexHeld = false ∧
    st.listener = (reconnect b s).2) ∨
  (st.first = .lock ∧ st.second = .returned ∧ st.mutexHeld = false ∧
    st.listener = (reconnect b s).2) ∨
  (st.first = .returned ∧ Holds b (reconnect b s).2 st.second st.listener ∧
    st.mutexHeld = true) ∨
  (Holds b (reconnect b s).2 st.first st.listener ∧ st.second = .returned ∧
    st.mutexHeld = true) ∨
  (st.first = .returned ∧ st.second = .returned ∧ st.mutexHeld = false ∧
    st.listener = (reconnect b (reconnect b s).2).2)

/-! ### The queue worker -/

/-- The goroutine that `internalStart` starts for one queue, on the deliveries that
the channel of `q.channel.Consume` yields, in order.  A failed `Consume` ends it at
once.  Each round of the loop is one `select`: with a delivery waiting and the
context live the delivery is taken and `processMessage` is called, synchronously;
with the context done either case of the `select` may be taken, which `pick`
decides (by the number of deliveries still waiting).  When the deliveries are
used up the worker ends or blocks.  Returns the deliveries processed with their
actions, in order, the outcome and the world after. -/
def queueWorker {σ : Type} (unmarshal : Bytes → Except GoError RabbitMsgBody)
    (q : RabbitListener σ) (lConsumer : ConsumerConf) (ctx : Context) (pick : Nat → Bool) :
    List Delivery → World σ → List Attempt × Result Unit × World σ
  | [], w => ([], .ret (), w)
  | message :: rest, w =>
    if ctx.done ∧ pick rest.length then ([], .ret (), w)
    else
      match processMessage unmarshal q lConsumer message ctx w with
      | (.panic v, w1) => ([⟨message, emitted w w1⟩], .panic v, w1)
      | (.ret _, w1) =>
        let r := queueWorker unmarshal q lConsumer ctx pick rest w1
        (⟨message, emitted w w1⟩ :: r.1, r.2.1, r.2.2)

/-- The body of the goroutine of `internalStart`: `Consume`, then the loop. -/
def startWorker {σ : Type} (unmarshal : Bytes → Except GoError RabbitMsgBody)
    (q : RabbitListener σ) (lConsumer : ConsumerConf) (ctx : Context) (pick : Nat → Bool)
    (consumeErr : Option GoError) (deliveries : List Delivery) (w : World σ) :
    List Attempt × Result Unit × World σ :=
  match consumeErr with
  | some _ => ([], .ret (), w)
  | none => queueWorker unmarshal q lConsumer ctx pick deliveries w

/-- Whether every acknowledgement, rejection and publish in a list of actions is
for the given delivery: its tag, and its body for a publish. -/
def ActionsOf (d : Delivery) (evs : List Event) : Prop :=
  (∀ x ∈ acks evs, x = (d.DeliveryTag, false)) ∧ (∀ x ∈ rejects evs, x = (d.DeliveryTag, true)) ∧
    ∀ p ∈ publishes evs, p.msg.Body = d.Body

/-- Whether the handler calls in a list of actions are for the given delivery: at
most one call, on the payload that the delivery's body decodes to. -/
def HandlerCallsOf (unmarshal : Bytes → Except GoError RabbitMsgBody) (d : Delivery)
    (evs : List Event) : Prop :=
  (consumes evs).length ≤ 1 ∧
    ∀ p ∈ consumes evs, ∃ msgBody, unmarshal d.Body = .ok msgBody ∧ p = msgBody.Msg

/-- Processing one at a time, in order: the actions of each attempt are exactly the
actions that `processMessage` adds for its delivery when run on the world that the
attempt before it left (the trace and the handler's state), and the world after
the last attempt is the final one. -/
def ProcessedInTurn {σ : Type} (unmarshal : Bytes → Except GoError RabbitMsgBody)
    (q : RabbitListener σ) (lConsumer : ConsumerConf) (ctx : Context) :
    World σ → List Attempt → World σ → Prop
  | w, [], wf => wf = w
  | w, a :: rest, wf =>
    a.events = emitted w (processMessage unmarshal q lConsumer a.delivery ctx w).2 ∧
      a.events ≠ [] ∧
      ProcessedInTurn unmarshal q lConsumer ctx
        (processMessage unmarshal q lConsumer a.delivery ctx w).2 rest wf

/-! ### Blocking times of `Stop` -/

/-- The time after which `sync.WaitGroup.Wait()` returns, given the time each
goroutine it waits for still runs. -/
def waitTime (remaining : List Nat) : Nat :=
  remaining.foldr max 0

/-- The drain timeout of `Stop` and `reconnect`, `10 * time.Second`, in milliseconds. -/
def drainTimeout : Nat := 10000

/-- The time in milliseconds after which `Stop` returns.  `busy` gives, for each
queue worker, how long the `processMessage` call it is in still runs (0 for a
worker waiting in its `select`).  A worker calls `processMessage` inside its
loop, so it sees the cancellation and returns only when that call has returned:
`q.listenerWg.Wait()` blocks for `waitTime busy`.  Only then the tasks are
waited for, under the timeout. -/
def stopReturnsAfter (busy : List Nat) : Nat :=
  let listenersGone := waitTime busy
  let tasksLeft := busy.map (fun t => t - listenersGone)
  listenersGone + min (waitTime tasksLeft) drainTimeout

/-- The time in milliseconds for which `reconnect` waits for the old goroutines:
both waits run in a goroutine of their own, under the timeout. -/
def reconnectWaitsFor (busy : List Nat) : Nat :=
  min (waitTime busy + waitTime (busy.map (fun t => t - waitTime busy))) drainTimeout

/-! ## Concrete inputs -/

/-- The listener as `MustNewListener` creates it, before `connect`. -/
def newLifecycle : Lifecycle :=
  { conn := none, channel := none, maxRetry := 10, generation := 0, nextGeneration := 1,
    cancelled := [], started := [], foreverClosed := false, connects := 0, dials := 0,
    opens := 0, qosCalls := 0, closedConns := [], closedChannels := [], watched := [],
    scheduledReconnects := 0 }

/-- A broker on which every call succeeds. -/
def steadyBroker : Broker :=
  ⟨fun n => .connected (100 + n), fun n => .opened (200 + n), fun _ => none⟩

/-- A broker that accepts connections and opens channels but refuses every `Qos`. -/
def qosRefusingBroker : Broker :=
  ⟨fun n => .connected (100 + n), fun n => .opened (200 + n),
    fun _ => some ⟨"basic.qos refused"⟩⟩

/-- A broker that cannot be reached. -/
def unreachableBroker : Broker :=
  ⟨fun _ => .failed none ⟨"dial tcp: connection refused"⟩, fun n => .opened (200 + n),
    fun _ => none⟩

/-- The listener after `MustNewListener` and `Start` on the steady broker. -/
def runningLifecycle : Lifecycle :=
  internalStart (connect steadyBroker newLifecycle).2

/-! ## `connect`: what an error leaves behind -/

theorem dropConn_conn (s : Lifecycle) : (dropConn s).conn = none := by
  unfold dropConn
  cases h : s.conn <;> simp [h]

theorem connect_error_conn_nil (b : Broker) (s s1 : Lifecycle) (e : GoError)
    (h : connect b s = (.ret (some e), s1)) : s1.conn = none := by
  unfold connect at h
  dsimp only at h
  split at h
  · simp only [Prod.mk.injEq] at h
    rw [← h.2]
    exact dropConn_conn _
  · split at h
    · simp at h
    · split at h
      · simp only [Prod.mk.injEq] at h
        rw [← h.2]
        exact dropConn_conn _
      · simp at h

/-- C12 on the code: when the broker accepts the connection and opens channels but
refuses every `Qos` call, `connect` uses up its ten rounds and returns the error
with the connection closed and nil, but with the channel field still holding the
channel opened in the last round; when the broker cannot be reached, both fields
are nil. -/
theorem connect_error_keeps_channel :
    (connect qosRefusingBroker newLifecycle).1 =
      .ret (some ⟨"basic.qos refused"⟩) ∧
    (connect qosRefusingBroker newLifecycle).2.conn = none ∧
    (connect qosRefusingBroker newLifecycle).2.channel = some 209 ∧
    (connect qosRefusingBroker newLifecycle).2.closedConns = [100] ∧
    (connect qosRefusingBroker newLifecycle).2.closedChannels = [] ∧
    (connect unreachableBroker newLifecycle).1 =
      .ret (some ⟨"dial tcp: connection refused"⟩) ∧
    (connect unreachableBroker newLifecycle).2.conn = none ∧
    (connect unreachableBroker newLifecycle).2.channel = none := by
  decide

/-! ## `Stop` -/

theorem Stop_prepare_foreverClosed (s : Lifecycle) :
    (shutConn (shutChannel (cancelGeneration s))).foreverClosed = s.foreverClosed := by
  have h1 : ∀ t : Lifecycle, (cancelGeneration t).foreverClosed = t.foreverClosed := by
    intro t
    unfold cancelGeneration
    split <;> rfl
  have h2 : ∀ t : Lifecycle, (shutChannel t).foreverClosed = t.foreverClosed := by
    intro t
    unfold shutChannel
    split <;> rfl
  have h3 : ∀ t : Lifecycle, (shutConn t).foreverClosed = t.foreverClosed := by
    intro t
    unfold shutConn
    split <;> rfl
  rw [h3, h2, h1]

theorem Stop_twice_panics (s s1 : Lifecycle) (h : Stop s = (.ret (), s1)) :
    (Stop s1).1 = .panic ⟨"close of closed channel"⟩ := by
  have hclosed : s1.foreverClosed = true := by
    unfold Stop at h
    dsimp only at h
    split_ifs at h
    · simp at h
    · simp only [Prod.mk.injEq, true_and] at h
      rw [← h]
  unfold Stop
  dsimp only
  rw [if_pos (by rw [Stop_prepare_foreverClosed]; exact hclosed)]

/-- C13 on the code: on the running listener the first `Stop` returns, and a second
`Stop` on the listener it leaves panics with `close of closed channel`. -/
theorem second_stop_panics :
    (Stop runningLifecycle).1 = .ret () ∧
    (Stop runningLifecycle).2.foreverClosed = true ∧
    (Stop (Stop runningLifecycle).2).1 = .panic ⟨"close of closed channel"⟩ := by
  decide

/-- C15 on the code: `Stop` returns no sooner than the longest `processMessage` call
a queue worker is in.  With one worker whose handler runs for another 60 s,
`Stop` returns after 60 s, not within the drain timeout of 10 s; the wait of
`reconnect` in the same situation ends after 10 s. -/
theorem stop_waits_for_running_handler :
    stopReturnsAfter [60000] = 60000 ∧ drainTimeout = 10000 ∧
    reconnectWaitsFor [60000] = 10000 ∧
    stopReturnsAfter [2000, 2000, 2000] = 2000 ∧ stopReturnsAfter [0, 0] = 0 := by
  decide

/-! ## `reconnect` -/

theorem connect_steady (b : Broker) (s : Lifecycle)
    (hd : ∀ n, ∃ c, b.dial n = .connected c) (hc : ∀ n, ∃ ch, b.openChannel n = .opened ch)
    (hq : ∀ n, b.qos n = none) (hretry : 0 < s.maxRetry) :
    ∃ c ch, connect b s = (.ret none,
      { s with connects := s.connects + 1, conn := some c, dials := s.dials + 1,
               watched := c :: s.watched, channel := some ch, opens := s.opens + 1,
               qosCalls := s.qosCalls + 1 }) := by
  obtain ⟨n, hn⟩ : ∃ n, s.maxRetry = n + 1 := ⟨s.maxRetry - 1, by omega⟩
  obtain ⟨c, hc1⟩ := hd s.dials
  obtain ⟨ch, hch⟩ := hc s.opens
  refine ⟨c, ch, ?_⟩
  simp [connect, hn, dialLoop, hc1, channelLoop, hch, hq]

theorem reconnect_prepare (s : Lifecycle) :
    (dropConn (dropChannel (newGeneration (cancelGeneration s)))).maxRetry = s.maxRetry ∧
      (dropConn (dropChannel (newGeneration (cancelGeneration s)))).connects = s.connects ∧
      (dropConn (dropChannel (newGeneration (cancelGeneration s)))).started = s.started ∧
      (dropConn (dropChannel (newGeneration (cancelGeneration s)))).generation =
        s.nextGeneration ∧
      (dropConn (dropChannel (newGeneration (cancelGeneration s)))).nextGeneration =
        s.nextGeneration + 1 ∧
      s.generation ∈ (dropConn (dropChannel (newGeneration (cancelGeneration s)))).cancelled ∧
      ∀ g ∈ s.cancelled,
        g ∈ (dropConn (dropChannel (newGeneration (cancelGeneration s)))).cancelled := by
  have hframe : ∀ t : Lifecycle, (dropConn (dropChannel t)).maxRetry = t.maxRetry ∧
      (dropConn (dropChannel t)).connects = t.connects ∧
      (dropConn (dropChannel t)).started = t.started ∧
      (dropConn (dropChannel t)).generation = t.generation ∧
      (dropConn (dropChannel t)).nextGeneration = t.nextGeneration ∧
      (dropConn (dropChannel t)).cancelled = t.cancelled := by
    intro t
    unfold dropConn dropChannel
    cases t.channel <;> cases t.conn <;> exact ⟨rfl, rfl, rfl, rfl, rfl, rfl⟩
  have hcancel : (cancelGeneration s).maxRetry = s.maxRetry ∧
      (cancelGeneration s).connects = s.connects ∧ (cancelGeneration s).started = s.started ∧
      (cancelGeneration s).nextGeneration = s.nextGeneration ∧
      s.generation ∈ (cancelGeneration s).cancelled ∧
      ∀ g ∈ s.cancelled, g ∈ (cancelGeneration s).cancelled := by
    unfold cancelGeneration
    split
    · rename_i hmem
      exact ⟨rfl, rfl, rfl, rfl, hmem, fun g hg => hg⟩
    · exact ⟨rfl, rfl, rfl, rfl, List.mem_cons_self _ _, fun g hg => List.mem_cons_of_mem _ hg⟩
  obtain ⟨f1, f2, f3, f4, f5, f6⟩ := hframe (newGeneration (cancelGeneration s))
  obtain ⟨h1, h2, h3, h4, h5, h6⟩ := hcancel
  rw [f1, f2, f3, f4, f5, f6]
  simp only [newGeneration]
  exact ⟨h1, h2, h3, h4, by rw [h4], h5, h6⟩

theorem reconnect_steady (b : Broker) (s : Lifecycle)
    (hd : ∀ n, ∃ c, b.dial n = .connected c) (hc : ∀ n, ∃ ch, b.openChannel n = .opened ch)
    (hq : ∀ n, b.qos n = none) (hretry : 0 < s.maxRetry) :
    ∃ s1, reconnect b s = (.ret (), s1) ∧ s1.connects = s.connects + 1 ∧
      s1.started = s.nextGeneration :: s.started ∧ s1.generation = s.nextGeneration ∧
      s1.nextGeneration = s.nextGeneration + 1 ∧ s1.maxRetry = s.maxRetry ∧
      s.generation ∈ s1.cancelled ∧ ∀ g ∈ s.cancelled, g ∈ s1.cancelled := by
  obtain ⟨p1, p2, p3, p4, p5, p6, p7⟩ := reconnect_prepare s
  obtain ⟨c, ch, hconn⟩ := connect_steady b
    (dropConn (dropChannel (newGeneration (cancelGeneration s)))) hd hc hq
    (by rw [p1]; exact hretry)
  have hrec : reconnect b s = (.ret (), internalStart
      { dropConn (dropChannel (newGeneration (cancelGeneration s))) with
        connects := (dropConn (dropChannel (newGeneration (cancelGeneration s)))).connects + 1,
        conn := some c,
        dials := (dropConn (dropChannel (newGeneration (cancelGeneration s)))).dials + 1,
        watched := c :: (dropConn (dropChannel (newGeneration (cancelGeneration s)))).watched,
        channel := some ch,
        opens := (dropConn (dropChannel (newGeneration (cancelGeneration s)))).opens + 1,
        qosCalls :=
          (dropConn (dropChannel (newGeneration (cancelGeneration s)))).qosCalls + 1 }) := by
    unfold reconnect
    rw [hconn]
  refine ⟨_, hrec, ?_⟩
  simp only [internalStart]
  exact ⟨by rw [p2], by rw [p4, p3], p4, p5, p1, p6, p7⟩

/-! ### What `connect` leaves alone -/

theorem dialLoop_books (b : Broker) :
    ∀ (n : Nat) (s : Lifecycle) (e : Option GoError),
      (dialLoop b n s e).1.books = s.books ∧ (dialLoop b n s e).1.connects = s.connects := by
  intro n
  induction n with
  | zero =>
    intro s e
    exact ⟨rfl, rfl⟩
  | succ n ih =>
    intro s e
    unfold dialLoop
    cases b.dial s.dials with
    | connected c => exact ⟨rfl, rfl⟩
    | failed c e1 => exact ih _ _

theorem channelLoop_books (b : Broker) :
    ∀ (n : Nat) (s : Lifecycle) (e : Option GoError),
      (channelLoop b n s e).1.books = s.books ∧
        (channelLoop b n s e).1.connects = s.connects := by
  intro n
  induction n with
  | zero =>
    intro s e
    exact ⟨rfl, rfl⟩
  | succ n ih =>
    intro s e
    unfold channelLoop
    cases b.openChannel s.opens with
    | opened ch =>
      cases b.qos s.qosCalls with
      | none => exact ⟨rfl, rfl⟩
      | some e1 => exact ih _ _
    | failed e1 => exact ih _ _

theorem dropConn_books (s : Lifecycle) :
    (dropConn s).books = s.books ∧ (dropConn s).connects = s.connects := by
  unfold dropConn
  cases s.conn <;> exact ⟨rfl, rfl⟩

theorem dropChannel_books (s : Lifecycle) :
    (dropChannel s).books = s.books ∧ (dropChannel s).connects = s.connects := by
  unfold dropChannel
  cases s.channel <;> exact ⟨rfl, rfl⟩

theorem connect_books (b : Broker) (s : Lifecycle) :
    (connect b s).2.books = s.books ∧ (connect b s).2.connects = s.connects + 1 := by
  have hd := dialLoop_books b s.maxRetry { s with connects := s.connects + 1 } none
  unfold connect
  dsimp only
  cases h1 : dialLoop b s.maxRetry { s with connects := s.connects + 1 } none with
  | mk s1 e1 =>
    rw [h1] at hd
    have hd1 : s1.books = s.books := hd.1
    have hd2 : s1.connects = s.connects + 1 := hd.2
    cases e1 with
    | some err =>
      obtain ⟨k1, k2⟩ := dropConn_books s1
      exact ⟨k1.trans hd1, k2.trans hd2⟩
    | none =>
      dsimp only
      cases hconn : s1.conn with
      | none => exact ⟨hd1, hd2⟩
      | some c =>
        dsimp only
        have hc := channelLoop_books b s1.maxRetry
          { s1 with conn := some c, watched := c :: s1.watched } none
        cases h3 : channelLoop b s1.maxRetry
            { s1 with conn := some c, watched := c :: s1.watched } none with
        | mk s3 e3 =>
          rw [h3] at hc
          have hc1 : s3.books = s1.books := hc.1
          have hc2 : s3.connects = s1.connects := hc.2
          cases e3 with
          | some err =>
            obtain ⟨k1, k2⟩ := dropConn_books s3
            exact ⟨k1.trans (hc1.trans hd1), k2.trans (hc2.trans hd2)⟩
          | none => exact ⟨hc1.trans hd1, hc2.trans hd2⟩

theorem dialLoop_after_error (b : Broker) :
    ∀ (n : Nat) (s s1 : Lifecycle) (e : GoError),
      dialLoop b n s (some e) = (s1, none) → ∃ c, s1.conn = some c := by
  intro n
  induction n with
  | zero =>
    intro s s1 e h
    simp [dialLoop] at h
  | succ n ih =>
    intro s s1 e h
    unfold dialLoop at h
    cases hdial : b.dial s.dials with
    | connected c =>
      rw [hdial] at h
      simp only [Prod.mk.injEq, and_true] at h
      exact ⟨c, by rw [← h]⟩
    | failed c e1 =>
      rw [hdial] at h
      exact ih _ _ _ h

theorem connect_returns (b : Broker) (s : Lifecycle) (hretry : 0 < s.maxRetry) :
    ∃ err, (connect b s).1 = .ret err := by
  obtain ⟨n, hn⟩ : ∃ n, s.maxRetry = n + 1 := ⟨s.maxRetry - 1, by omega⟩
  unfold connect
  dsimp only
  cases h1 : dialLoop b s.maxRetry { s with connects := s.connects + 1 } none with
  | mk s1 e1 =>
    cases e1 with
    | some err => exact ⟨some err, rfl⟩
    | none =>
      have hconn : ∃ c, s1.conn = some c := by
        rw [hn] at h1
        unfold dialLoop at h1
        cases hdial : b.dial ({ s with connects := s.connects + 1 } : Lifecycle).dials with
        | connected c =>
          rw [hdial] at h1
          simp only [Prod.mk.injEq, and_true] at h1
          exact ⟨c, by rw [← h1]⟩
        | failed c e1 =>
          rw [hdial] at h1
          exact dialLoop_after_error b _ _ _ _ h1
      dsimp only
      cases hcn : s1.conn with
      | none =>
        obtain ⟨c, hc⟩ := hconn
        rw [hcn] at hc
        cases hc
      | some c =>
        dsimp only
        cases h3 : channelLoop b s1.maxRetry
            { s1 with conn := some c, watched := c :: s1.watched } none with
        | mk s3 e3 =>
          cases e3 with
          | some err => exact ⟨some err, rfl⟩
          | none => exact ⟨none, rfl⟩

theorem reconnect_any_broker (b : Broker) (s : Lifecycle) :
    (reconnect b s).2.connects = s.connects + 1 ∧
      (reconnect b s).2.maxRetry = s.maxRetry ∧
      (reconnect b s).2.generation = s.nextGeneration ∧
      (reconnect b s).2.nextGeneration = s.nextGeneration + 1 ∧
      s.generation ∈ (reconnect b s).2.cancelled ∧
      (∀ g ∈ s.cancelled, g ∈ (reconnect b s).2.cancelled) ∧
      ((connect b (beforeConnect s)).1 = .ret none →
        (reconnect b s).2.started = s.nextGeneration :: s.started) ∧
      (∀ e, (connect b (beforeConnect s)).1 = .ret (some e) →
        (reconnect b s).2.started = s.started) ∧
      (reconnect b s).2.cancelled = (cancelGeneration s).cancelled := by
  obtain ⟨p1, p2, p3, p4, p5, p6, p7⟩ := reconnect_prepare s
  have p8 : (dropConn (dropChannel (newGeneration (cancelGeneration s)))).cancelled =
      (cancelGeneration s).cancelled := by
    have e1 := (dropConn_books (dropChannel (newGeneration (cancelGeneration s)))).1
    have e2 := (dropChannel_books (newGeneration (cancelGeneration s))).1
    simp only [Lifecycle.books, Prod.mk.injEq] at e1 e2
    rw [e1.2.2.2.1, e2.2.2.2.1]
    rfl
  obtain ⟨hbooks, hconnects⟩ := connect_books b (beforeConnect s)
  unfold beforeConnect at hbooks hconnects ⊢
  unfold reconnect
  cases hcp : connect b (dropConn (dropChannel (newGeneration (cancelGeneration s)))) with
  | mk r s4 =>
    rw [hcp] at hbooks hconnects
    simp only [Lifecycle.books, Prod.mk.injEq] at hbooks
    obtain ⟨k1, k2, k3, k4, k5, _, _⟩ := hbooks
    simp only at hconnects
    rw [p1] at k1
    rw [p4] at k2
    rw [p5] at k3
    rw [p3] at k5
    rw [p2] at hconnects
    have hc1 : s.generation ∈ s4.cancelled := by rw [k4]; exact p6
    have hc2 : ∀ g ∈ s.cancelled, g ∈ s4.cancelled := by
      intro g hg
      rw [k4]
      exact p7 g hg
    cases r with
    | panic v =>
      exact ⟨hconnects, k1, k2, k3, hc1, hc2, (fun h => by cases h), (fun e h => by cases h),
        k4.trans p8⟩
    | ret err =>
      cases err with
      | none =>
        refine ⟨hconnects, k1, k2, k3, hc1, hc2, (fun _ => ?_), (fun e h => by cases h),
          k4.trans p8⟩
        show s4.generation :: s4.started = s.nextGeneration :: s.started
        rw [k2, k5]
      | some e =>
        exact ⟨hconnects, k1, k2, k3, hc1, hc2, (fun h => by cases h), (fun _ _ => k5),
          k4.trans p8⟩

theorem reconnect_returns (b : Broker) (s : Lifecycle) (hretry : 0 < s.maxRetry) :
    (reconnect b s).1 = .ret () := by
  obtain ⟨p1, _⟩ := reconnect_prepare s
  obtain ⟨err, herr⟩ := connect_returns b (beforeConnect s) (by unfold beforeConnect; omega)
  unfold beforeConnect at herr
  unfold reconnect
  cases hcp : connect b (dropConn (dropChannel (newGeneration (cancelGeneration s)))) with
  | mk r s4 =>
    rw [hcp] at herr
    simp only at herr
    subst herr
    cases err <;> rfl

/-! ### Two goroutines in `reconnect` -/

theorem holds_step (b : Broker) (s0 : Lifecycle) (pc : ReconnectPc) (l : Lifecycle)
    (hretry : 0 < s0.maxRetry) (h : Holds b s0 pc l) :
    (Holds b s0 (reconnectStep b pc true l).1 (reconnectStep b pc true l).2.2 ∧
        (reconnectStep b pc true l).2.1 = true) ∨
      ((reconnectStep b pc true l).1 = .returned ∧ (reconnectStep b pc true l).2.1 = false ∧
        (reconnectStep b pc true l).2.2 = (reconnect b s0).2) := by
  cases pc with
  | lock => exact absurd h (by simp [Holds])
  | returned => exact absurd h (by simp [Holds])
  | panicked v => exact absurd h (by simp [Holds])
  | cancel =>
    simp only [Holds] at h
    subst h
    exact Or.inl ⟨rfl, rfl⟩
  | renew =>
    simp only [Holds] at h
    subst h
    exact Or.inl ⟨rfl, rfl⟩
  | close =>
    simp only [Holds] at h
    subst h
    exact Or.inl ⟨rfl, rfl⟩
  | connect =>
    simp only [Holds] at h
    subst h
    obtain ⟨p1, _⟩ := reconnect_prepare s0
    obtain ⟨err, herr⟩ := connect_returns b (beforeConnect s0) (by unfold beforeConnect; omega)
    left
    simp only [reconnectStep]
    cases hcp : connect b (beforeConnect s0) with
    | mk r s4 =>
      rw [hcp] at herr
      simp only at herr
      subst herr
      exact ⟨hcp, rfl⟩
  | finish err =>
    simp only [Holds] at h
    left
    unfold beforeConnect at h
    cases err with
    | none =>
      refine ⟨?_, rfl⟩
      show internalStart l = (reconnect b s0).2
      unfold reconnect
      rw [h]
    | some e =>
      refine ⟨?_, rfl⟩
      show ({ l with scheduledReconnects := l.scheduledReconnects + 1 } : Lifecycle) =
        (reconnect b s0).2
      unfold reconnect
      rw [h]
  | unlock =>
    simp only [Holds] at h
    subst h
    exact Or.inr ⟨rfl, rfl, rfl⟩

theorem holds_inBody (b : Broker) (s0 : Lifecycle) (pc : ReconnectPc) (l : Lifecycle)
    (h : Holds b s0 pc l) : pc.inBody = true ∧ pc ≠ .returned ∧ pc ≠ .lock := by
  cases pc <;> first
    | (simp [Holds] at h; done)
    | exact ⟨rfl, by simp, by simp⟩

theorem serialised_swap (b : Broker) (s : Lifecycle) (st : Reconnecting)
    (h : Serialised b s st) : Serialised b s st.swap := by
  obtain ⟨l, held, f, g⟩ := st
  unfold Serialised at h ⊢
  simp only [Reconnecting.swap] at h ⊢
  rcases h with h | h | h | h | h | h | h | h
  · exact Or.inl ⟨h.2.1, h.1, h.2.2⟩
  · exact Or.inr (Or.inr (Or.inl ⟨h.2.1, h.1, h.2.2⟩))
  · exact Or.inr (Or.inl ⟨h.2.1, h.1, h.2.2⟩)
  · exact Or.inr (Or.inr (Or.inr (Or.inr (Or.inl ⟨h.2.1, h.1, h.2.2⟩))))
  · exact Or.inr (Or.inr (Or.inr (Or.inl ⟨h.2.1, h.1, h.2.2⟩)))
  · exact Or.inr (Or.inr (Or.inr (Or.inr (Or.inr (Or.inr (Or.inl ⟨h.2.1, h.1, h.2.2⟩))))))
  · exact Or.inr (Or.inr (Or.inr (Or.inr (Or.inr (Or.inl ⟨h.2.1, h.1, h.2.2⟩)))))
  · exact Or.inr (Or.inr (Or.inr (Or.inr (Or.inr (Or.inr (Or.inr ⟨h.2.1, h.1, h.2.2⟩))))))

theorem serialised_step_first (b : Broker) (s : Lifecycle) (st : Reconnecting)
    (hretry : 0 < s.maxRetry) (h : Serialised b s st) : Serialised b s (st.step b .first) := by
  obtain ⟨l, held, f, g⟩ := st
  unfold Serialised at h
  simp only at h
  rcases h with ⟨rfl, rfl, rfl, rfl⟩ | ⟨hf, rfl, rfl⟩ | ⟨rfl, hg, rfl⟩ | ⟨rfl, rfl, rfl, rfl⟩ |
    ⟨rfl, rfl, rfl, rfl⟩ | ⟨rfl, hg, rfl⟩ | ⟨hf, rfl, rfl⟩ | ⟨rfl, rfl, rfl, rfl⟩
  · exact Or.inr (Or.inl ⟨rfl, rfl, rfl⟩)
  · rcases holds_step b s f l hretry hf with ⟨k1, k2⟩ | ⟨k1, k2, k3⟩
    · exact Or.inr (Or.inl ⟨k1, rfl, k2⟩)
    · exact Or.inr (Or.inr (Or.inr (Or.inl ⟨k1, rfl, k2, k3⟩)))
  · exact Or.inr (Or.inr (Or.inl ⟨rfl, hg, rfl⟩))
  · exact Or.inr (Or.inr (Or.inr (Or.inl ⟨rfl, rfl, rfl, rfl⟩)))
  · exact Or.inr (Or.inr (Or.inr (Or.inr (Or.inr (Or.inr (Or.inl ⟨rfl, rfl, rfl⟩))))))
  · exact Or.inr (Or.inr (Or.inr (Or.inr (Or.inr (Or.inl ⟨rfl, hg, rfl⟩)))))
  · have hretry1 : 0 < (reconnect b s).2.maxRetry := by
      rw [(reconnect_any_broker b s).2.1]
      exact hretry
    rcases holds_step b (reconnect b s).2 f l hretry1 hf with ⟨k1, k2⟩ | ⟨k1, k2, k3⟩
    · exact Or.inr (Or.inr (Or.inr (Or.inr (Or.inr (Or.inr (Or.inl ⟨k1, rfl, k2⟩))))))
    · exact Or.inr (Or.inr (Or.inr (Or.inr (Or.inr (Or.inr (Or.inr ⟨k1, rfl, k2, k3⟩))))))
  · exact Or.inr (Or.inr (Or.inr (Or.inr (Or.inr (Or.inr (Or.inr ⟨rfl, rfl, rfl, rfl⟩))))))

theorem serialised_step (b : Broker) (s : Lifecycle) (st : Reconnecting) (c : Caller)
    (hretry : 0 < s.maxRetry) (h : Serialised b s st) : Serialised b s (st.step b c) := by
  cases c with
  | first => exact serialised_step_first b s st hretry h
  | second =>
    have hswap : st.step b .second = (st.swap.step b .first).swap := rfl
    rw [hswap]
    exact serialised_swap b s _
      (serialised_step_first b s st.swap hretry (serialised_swap b s st h))

theorem serialised_run (b : Broker) (s : Lifecycle) (hretry : 0 < s.maxRetry) :
    ∀ (schedule : List Caller) (st : Reconnecting),
      Serialised b s st → Serialised b s (st.run b schedule) := by
  intro schedule
  induction schedule with
  | nil =>
    intro st h
    exact h
  | cons c rest ih =>
    intro st h
    exact ih (st.step b c) (serialised_step b s st c hretry h)

theorem serialised_facts (b : Broker) (s : Lifecycle) (st : Reconnecting)
    (h : Serialised b s st) :
    ¬ (st.first.inBody = true ∧ st.second.inBody = true) ∧
      (st.mutexHeld = true ↔ (st.first.inBody = true ∨ st.second.inBody = true)) ∧
      (st.first = .returned → st.second = .returned →
        st.listener = (reconnect b (reconnect b s).2).2) := by
  obtain ⟨l, held, f, g⟩ := st
  unfold Serialised at h
  simp only at h ⊢
  have hl : ReconnectPc.lock.inBody = false := rfl
  have hr : ReconnectPc.returned.inBody = false := rfl
  rcases h with ⟨rfl, rfl, rfl, rfl⟩ | ⟨hf, rfl, rfl⟩ | ⟨rfl, hg, rfl⟩ | ⟨rfl, rfl, rfl, rfl⟩ |
    ⟨rfl, rfl, rfl, rfl⟩ | ⟨rfl, hg, rfl⟩ | ⟨hf, rfl, rfl⟩ | ⟨rfl, rfl, rfl, rfl⟩
  · simp [hl, hr]
  · obtain ⟨k1, k2, _⟩ := holds_inBody b _ f l hf
    simp [hl, hr, k1, k2]
  · obtain ⟨k1, k2, _⟩ := holds_inBody b _ g l hg
    simp [hl, hr, k1, k2]
  · simp [hl, hr]
  · simp [hl, hr]
  · obtain ⟨k1, k2, _⟩ := holds_inBody b _ g l hg
    simp [hl, hr, k1, k2]
  · obtain ⟨k1, k2, _⟩ := holds_inBody b _ f l hf
    simp [hl, hr, k1, k2]
  · simp [hl, hr]

theorem run_append (b : Broker) (st : Reconnecting) (xs ys : List Caller) :
    st.run b (xs ++ ys) = (st.run b xs).run b ys := by
  simp [Reconnecting.run, List.foldl_append]

theorem solo_first (b : Broker) (l : Lifecycle) (g : ReconnectPc) (hretry : 0 < l.maxRetry) :
    (⟨l, false, .lock, g⟩ : Reconnecting).run b (List.replicate 7 .first) =
      ⟨(reconnect b l).2, false, .returned, g⟩ := by
  obtain ⟨p1, _⟩ := reconnect_prepare l
  obtain ⟨err, herr⟩ := connect_returns b (beforeConnect l) (by unfold beforeConnect; omega)
  unfold beforeConnect at herr
  cases hcp : connect b (dropConn (dropChannel (newGeneration (cancelGeneration l)))) with
  | mk r s4 =>
    rw [hcp] at herr
    simp only at herr
    subst herr
    cases err <;>
      simp [Reconnecting.run, List.replicate, Reconnecting.step, reconnectStep, reconnect, hcp]

theorem solo_second (b : Broker) (l : Lifecycle) (f : ReconnectPc) (hretry : 0 < l.maxRetry) :
    (⟨l, false, f, .lock⟩ : Reconnecting).run b (List.replicate 7 .second) =
      ⟨(reconnect b l).2, false, f, .returned⟩ := by
  obtain ⟨p1, _⟩ := reconnect_prepare l
  obtain ⟨err, herr⟩ := connect_returns b (beforeConnect l) (by unfold beforeConnect; omega)
  unfold beforeConnect at herr
  cases hcp : connect b (dropConn (dropChannel (newGeneration (cancelGeneration l)))) with
  | mk r s4 =>
    rw [hcp] at herr
    simp only at herr
    subst herr
    cases err <;>
      simp [Reconnecting.run, List.replicate, Reconnecting.step, reconnectStep, reconnect, hcp]

theorem oneAfterTheOther_run (b : Broker) (s : Lifecycle) (hretry : 0 < s.maxRetry) :
    (twoCallers s).run b oneAfterTheOther =
      ⟨(reconnect b (reconnect b s).2).2, false, .returned, .returned⟩ := by
  unfold oneAfterTheOther twoCallers
  rw [run_append, solo_first b s .lock hretry,
    solo_second b _ .returned (by rw [(reconnect_any_broker b s).2.1]; exact hretry)]

/-- C16, amended: two goroutines call `reconnect` on a listener with a positive
retry limit, under any schedule of their steps and with any broker.  The mutex
keeps them apart: never are both between `Lock()` and `Unlock()`, and once both
have returned the listener is as after one call of `reconnect` followed by the
other; run one after the other, both return.  Each call is a full reconnect
sequence: `connect` is invoked once per call, twice in all; the generation is
renewed twice, and the first new generation is cancelled again; when `connect`
succeeds in both calls (as on a broker that accepts every connection, channel and
QoS request), the queue workers of two new generations are started. -/
theorem two_reconnects_run_in_sequence (b : Broker) (s : Lifecycle) (schedule : List Caller)
    (hretry : 0 < s.maxRetry) :
    ¬ (((twoCallers s).run b schedule).first.inBody = true ∧
      ((twoCallers s).run b schedule).second.inBody = true) ∧
    (((twoCallers s).run b schedule).first = .returned →
      ((twoCallers s).run b schedule).second = .returned →
      ((twoCallers s).run b schedule).listener = (reconnect b (reconnect b s).2).2) ∧
    ((twoCallers s).run b oneAfterTheOther).first = .returned ∧
    ((twoCallers s).run b oneAfterTheOther).second = .returned ∧
    (reconnect b s).1 = .ret () ∧ (reconnect b (reconnect b s).2).1 = .ret () ∧
    (reconnect b s).2.connects = s.connects + 1 ∧
    (reconnect b (reconnect b s).2).2.connects = s.connects + 2 ∧
    (reconnect b (reconnect b s).2).2.generation = s.nextGeneration + 1 ∧
    (s.generation ≠ s.nextGeneration → s.nextGeneration ∉ s.cancelled →
      s.nextGeneration ∉ (reconnect b s).2.cancelled) ∧
    s.nextGeneration ∈ (reconnect b (reconnect b s).2).2.cancelled ∧
    ((connect b (beforeConnect s)).1 = .ret none →
      (connect b (beforeConnect (reconnect b s).2)).1 = .ret none →
      (reconnect b (reconnect b s).2).2.started =
        (s.nextGeneration + 1) :: s.nextGeneration :: s.started) ∧
    ((∀ n, ∃ c, b.dial n = .connected c) → (∀ n, ∃ ch, b.openChannel n = .opened ch) →
      (∀ n, b.qos n = none) →
      (reconnect b (reconnect b s).2).2.started =
        (s.nextGeneration + 1) :: s.nextGeneration :: s.started) := by
  have hinv := serialised_run b s hretry schedule (twoCallers s) (Or.inl ⟨rfl, rfl, rfl, rfl⟩)
  obtain ⟨f1, _, f3⟩ := serialised_facts b s _ hinv
  obtain ⟨a1, a2, a3, a4, a5, a6, a7, _, a9⟩ := reconnect_any_broker b s
  obtain ⟨b1, _, b3, _, b5, _, b7, _, _⟩ := reconnect_any_broker b (reconnect b s).2
  have hretry1 : 0 < (reconnect b s).2.maxRetry := by rw [a2]; exact hretry
  have hserial := oneAfterTheOther_run b s hretry
  refine ⟨f1, f3, by rw [hserial], by rw [hserial], reconnect_returns b s hretry,
    reconnect_returns b _ hretry1, a1, by rw [b1, a1], by rw [b3, a4], ?_, ?_, ?_, ?_⟩
  · intro hne hfresh
    rw [a9]
    unfold cancelGeneration
    split
    · exact hfresh
    · simp only [List.mem_cons, not_or]
      exact ⟨fun h => hne h.symm, hfresh⟩
  · rw [← a3]
    exact b5
  · intro h1 h2
    rw [b7 h2, a4, a7 h1]
  · intro hd hc hq
    obtain ⟨s1, h1, _, c2, c3, c4, c5, _, _⟩ := reconnect_steady b s hd hc hq hretry
    obtain ⟨s2, h2, _, d2, _⟩ := reconnect_steady b s1 hd hc hq (by rw [c5]; exact hretry)
    rw [h1]
    simp only
    rw [h2]
    simp only
    rw [d2, c4, c2]

theorem two_reconnects_run_in_sequence_witness :
    (¬ (((twoCallers runningLifecycle).run steadyBroker contended).first.inBody = true ∧
      ((twoCallers runningLifecycle).run steadyBroker contended).second.inBody = true) ∧
    (((twoCallers runningLifecycle).run steadyBroker contended).first = .returned →
      ((twoCallers runningLifecycle).run steadyBroker contended).second = .returned →
      ((twoCallers runningLifecycle).run steadyBroker contended).listener = (reconnect steadyBroker (reconnect steadyBroker runningLifecycle).2).2) ∧
    ((twoCallers runningLifecycle).run steadyBroker oneAfterTheOther).first = .returned ∧
    ((twoCallers runningLifecycle).run steadyBroker oneAfterTheOther).second = .returned ∧
    (reconnect steadyBroker runningLifecycle).1 = .ret () ∧ (reconnect steadyBroker (reconnect steadyBroker runningLifecycle).2).1 = .ret () ∧
    (reconnect steadyBroker runningLifecycle).2.connects = runningLifecycle.connects + 1 ∧
    (reconnect steadyBroker (reconnect steadyBroker runningLifecycle).2).2.connects = runningLifecycle.connects + 2 ∧
    (reconnect steadyBroker (reconnect steadyBroker runningLifecycle).2).2.generation = runningLifecycle.nextGeneration + 1 ∧
    (runningLifecycle.generation ≠ runningLifecycle.nextGeneration → runningLifecycle.nextGeneration ∉ runningLifecycle.cancelled →
      runningLifecycle.nextGeneration ∉ (reconnect steadyBroker runningLifecycle).2.cancelled) ∧
    runningLifecycle.nextGeneration ∈ (reconnect steadyBroker (reconnect steadyBroker runningLifecycle).2).2.cancelled ∧
    ((connect steadyBroker (beforeConnect runningLifecycle)).1 = .ret none →
      (connect steadyBroker (beforeConnect (reconnect steadyBroker runningLifecycle).2)).1 = .ret none →
      (reconnect steadyBroker (reconnect steadyBroker runningLifecycle).2).2.started =
        (runningLifecycle.nextGeneration + 1) :: runningLifecycle.nextGeneration :: runningLifecycle.started) ∧
    ((∀ n, ∃ c, steadyBroker.dial n = .connected c) → (∀ n, ∃ ch, steadyBroker.openChannel n = .opened ch) →
      (∀ n, steadyBroker.qos n = none) →
      (reconnect steadyBroker (reconnect steadyBroker runningLifecycle).2).2.started =
        (runningLifecycle.nextGeneration + 1) :: runningLifecycle.nextGeneration :: runningLifecycle.started)) ∧
    ((twoCallers runningLifecycle).run steadyBroker contended).first = .returned ∧
    ((twoCallers runningLifecycle).run steadyBroker contended).second = .returned ∧
    ((twoCallers runningLifecycle).run steadyBroker contended).listener.started = [2, 1, 0] ∧
    ((twoCallers runningLifecycle).run steadyBroker contended).listener.connects = 3 ∧
    ((twoCallers runningLifecycle).run unreachableBroker contended).listener.connects = 3 ∧
    ((twoCallers runningLifecycle).run unreachableBroker contended).listener.started = [0] :=
  ⟨two_reconnects_run_in_sequence steadyBroker runningLifecycle contended (by decide),
    by decide, by decide, by decide, by decide, by decide, by decide⟩

/-- C16 fails as stated: on the running listener and a steady broker, two calls of
`reconnect` invoke `connect` twice and start two new generations (1 and 2) next
to the original one, the first of which is cancelled again. -/
theorem two_reconnects_connect_twice :
    (reconnect steadyBroker (reconnect steadyBroker runningLifecycle).2).2.connects =
      runningLifecycle.connects + 2 ∧
    (reconnect steadyBroker (reconnect steadyBroker runningLifecycle).2).2.started = [2, 1, 0] ∧
    (reconnect steadyBroker (reconnect steadyBroker runningLifecycle).2).2.cancelled = [1, 0] ∧
    (reconnect steadyBroker (reconnect steadyBroker runningLifecycle).2).2.closedConns =
      [101, 100] := by
  decide

/-! ## The queue worker -/

section Worker

variable {σ : Type}

theorem processMessage_default_appends (unmarshal : Bytes → Except GoError RabbitMsgBody)
    (conf : RabbitListenerConf) (handler : ConsumeHandler σ) (channel : Channel)
    (lc : ConsumerConf) (d : Delivery) (ctx : Context) (w : World σ) :
    ∃ (evs : List Event) (s : σ),
      processMessage unmarshal (MustNewListener unmarshal conf handler channel) lc d ctx w =
        (.ret (), ⟨w.trace ++ evs, s⟩) ∧ ActionsOf d evs ∧ HandlerCallsOf unmarshal d evs ∧
        evs ≠ [] := by
  have hack : ∀ x ∈ (if lc.AutoAck then [] else [(d.DeliveryTag, false)] : List (Nat × Bool)),
      x = (d.DeliveryTag, false) := by
    intro x hx
    split at hx
    · cases hx
    · exact List.mem_singleton.mp hx
  cases hdone : ctx.done with
  | true =>
    refine ⟨_, _, processMessage_cancelled unmarshal _ lc d ctx w hdone, ⟨?_, ?_, ?_⟩,
      ⟨?_, ?_⟩, by simp⟩ <;> simp [acks, rejects, publishes, consumes]
  | false =>
    cases hdec : unmarshal d.Body with
    | error err =>
      refine ⟨_, _, processMessage_undecodable unmarshal conf handler channel lc d ctx err w
        hdec hdone, ⟨?_, ?_, ?_⟩, ⟨?_, ?_⟩, by simp⟩
      · simp only [acks_append, acks_ackUnlessAuto]
        simp [acks]
      · simp only [rejects_append, rejects_ackUnlessAuto]
        simp [rejects]
      · simp only [publishes_append, publishes_ackUnlessAuto]
        simp [publishes]
      · simp only [consumes_append, consumes_ackUnlessAuto]
        simp [consumes]
      · simp only [consumes_append, consumes_ackUnlessAuto]
        simp [consumes]
    | ok msgBody =>
      by_cases hcap : extractRetryCount d > lc.MaxRetryCount
      · obtain ⟨evs, h, hcs, hp, hr, ha⟩ := processMessage_over_cap_obs unmarshal conf handler
          channel lc d ctx msgBody w hdec hdone hcap
        have hne : evs ≠ [] := by
          intro hnil
          have h2 := processMessage_over_cap unmarshal conf handler channel lc d ctx msgBody w
            hdec hdone hcap
          rw [h, hnil] at h2
          simp at h2
        refine ⟨evs, _, h, ⟨?_, ?_, ?_⟩, ⟨?_, ?_⟩, hne⟩
        · rw [ha]
          exact hack
        · rw [hr]
          simp
        · rw [hp]
          simp
        · rw [hcs]
          simp
        · rw [hcs]
          simp
      · have hcap2 : extractRetryCount d ≤ lc.MaxRetryCount := not_lt.mp hcap
        cases hh : handler.Consume (consumerCtx ctx msgBody lc.Name) msgBody.Msg w.hstate with
        | mk r s =>
          cases r with
          | panic v =>
            refine ⟨_, _, processMessage_handler_panic unmarshal conf handler channel lc d ctx
              msgBody w s v hdec hdone hcap2 hh, ⟨?_, ?_, ?_⟩, ⟨?_, ?_⟩, by simp⟩ <;>
              simp [acks, rejects, publishes, consumes, hdec]
          | ret e =>
            cases e with
            | none =>
              refine ⟨_, _, processMessage_handler_ok unmarshal conf handler channel lc d ctx
                msgBody w s hdec hdone hcap2 hh, ⟨?_, ?_, ?_⟩, ⟨?_, ?_⟩, by simp⟩
              · simp only [acks_append, acks_ackUnlessAuto]
                simp [acks]
              · simp only [rejects_append, rejects_ackUnlessAuto]
                simp [rejects]
              · simp only [publishes_append, publishes_ackUnlessAuto]
                simp [publishes]
              · simp only [consumes_append, consumes_ackUnlessAuto]
                simp [consumes]
              · simp only [consumes_append, consumes_ackUnlessAuto]
                simp [consumes, hdec]
            | some err =>
              obtain ⟨evs, h, hcs, hp, hr, ha⟩ := processMessage_handler_err_obs unmarshal conf
                handler channel lc d ctx msgBody w s err hdec hdone hcap2 hh
              have hne : evs ≠ [] := by
                intro hnil
                rw [hnil] at hcs
                simp [consumes] at hcs
              refine ⟨evs, _, h, ⟨?_, ?_, ?_⟩, ⟨?_, ?_⟩, hne⟩
              · rw [ha]
                exact hack
              · rw [hr]
                simp
              · rw [hp]
                intro p hp1
                rw [List.mem_singleton.mp hp1]
                rfl
              · rw [hcs]
                simp
              · rw [hcs]
                simp [hdec]

theorem queueWorker_default (unmarshal : Bytes → Except GoError RabbitMsgBody)
    (conf : RabbitListenerConf) (handler : ConsumeHandler σ) (channel : Channel)
    (lc : ConsumerConf) (ctx : Context) (pick : Nat → Bool) :
    ∀ (deliveries : List Delivery) (w : World σ),
      ∃ (attempts : List Attempt) (wf : World σ),
        queueWorker unmarshal (MustNewListener unmarshal conf handler channel) lc ctx pick
          deliveries w = (attempts, .ret (), wf) ∧
        attempts.map (fun a => a.delivery) <+: deliveries ∧
        (ctx.done = false → attempts.map (fun a => a.delivery) = deliveries) ∧
        ProcessedInTurn unmarshal (MustNewListener unmarshal conf handler channel) lc ctx w
          attempts wf ∧
        wf.trace = w.trace ++ (attempts.map (fun a => a.events)).flatten ∧
        ∀ a ∈ attempts, ActionsOf a.delivery a.events ∧
          HandlerCallsOf unmarshal a.delivery a.events := by
  intro deliveries
  induction deliveries with
  | nil =>
    intro w
    exact ⟨[], w, rfl, by simp, fun _ => rfl, rfl, by simp, by simp⟩
  | cons d rest ih =>
    intro w
    by_cases hexit : ctx.done ∧ pick rest.length
    · refine ⟨[], w, by simp [queueWorker, hexit], by simp, ?_, rfl, by simp, by simp⟩
      intro hlive
      rw [hexit.1] at hlive
      cases hlive
    · obtain ⟨evs, s, hpm, hact, hcall, hne⟩ := processMessage_default_appends unmarshal conf
        handler channel lc d ctx w
      obtain ⟨attempts, wf, hrun, hpre, hall, hturn, htr, hacts⟩ := ih ⟨w.trace ++ evs, s⟩
      have hem : emitted w ⟨w.trace ++ evs, s⟩ = evs := emitted_append w _ evs rfl
      refine ⟨⟨d, evs⟩ :: attempts, wf, ?_, ?_, ?_, ?_, ?_, ?_⟩
      · rw [queueWorker, if_neg hexit, hpm]
        simp only [hrun, hem]
      · simp only [List.map_cons]
        exact List.prefix_cons_inj d |>.mpr hpre
      · intro hlive
        simp only [List.map_cons, hall hlive]
      · show evs = emitted w (processMessage unmarshal
            (MustNewListener unmarshal conf handler channel) lc d ctx w).2 ∧ evs ≠ [] ∧
          ProcessedInTurn unmarshal (MustNewListener unmarshal conf handler channel) lc ctx
            (processMessage unmarshal (MustNewListener unmarshal conf handler channel) lc d
              ctx w).2 attempts wf
        rw [hpm]
        exact ⟨hem.symm, hne, hturn⟩
      · rw [htr]
        simp [List.append_assoc]
      · intro a ha
        rcases List.mem_cons.mp ha with rfl | hmem
        · exact ⟨hact, hcall⟩
        · exact hacts a hmem

/-- C14: one queue worker of the listener built by `MustNewListener`, started once,
on any sequence of deliveries: it returns normally; the deliveries it processes
are a prefix of the sequence, in the same order (the whole sequence while the
generation is live); they are processed one at a time: the actions for each
delivery are exactly, and all of, what `processMessage` does for it, run on the
trace and the handler state that the delivery before it left, and they are not
empty; the actions of the worker are the actions for the first delivery, followed
by those for the second, and so on, so every action for a delivery comes before
any action for a later one; and the handler calls, acknowledgements, rejections
and republishes among the actions for a delivery are for that delivery. -/
theorem worker_processes_in_order (unmarshal : Bytes → Except GoError RabbitMsgBody)
    (conf : RabbitListenerConf) (handler : ConsumeHandler σ) (channel : Channel)
    (lc : ConsumerConf) (ctx : Context) (pick : Nat → Bool) (deliveries : List Delivery)
    (w : World σ) :
    ∃ (attempts : List Attempt) (wf : World σ),
      startWorker unmarshal (MustNewListener unmarshal conf handler channel) lc ctx pick none
        deliveries w = (attempts, .ret (), wf) ∧
      attempts.map (fun a => a.delivery) <+: deliveries ∧
      (ctx.done = false → attempts.map (fun a => a.delivery) = deliveries) ∧
      ProcessedInTurn unmarshal (MustNewListener unmarshal conf handler channel) lc ctx w
        attempts wf ∧
      emitted w wf = (attempts.map (fun a => a.events)).flatten ∧
      ∀ a ∈ attempts, ActionsOf a.delivery a.events ∧
        HandlerCallsOf unmarshal a.delivery a.events := by
  obtain ⟨attempts, wf, hrun, hpre, hall, hturn, htr, hacts⟩ := queueWorker_default unmarshal
    conf handler channel lc ctx pick deliveries w
  exact ⟨attempts, wf, hrun, hpre, hall, hturn, emitted_append w wf _ htr, hacts⟩

theorem worker_processes_in_order_witness :
    (∃ (attempts : List Attempt) (wf : World Nat),
      startWorker sampleUnmarshal
        (MustNewListener sampleUnmarshal sampleConf okHandler okChannel) ordersQueue liveCtx
        (fun _ => false) none [freshDelivery, poisonDelivery, wornDelivery] startWorld =
          (attempts, .ret (), wf) ∧
      attempts.map (fun a => a.delivery) <+: [freshDelivery, poisonDelivery, wornDelivery] ∧
      (liveCtx.done = false →
        attempts.map (fun a => a.delivery) = [freshDelivery, poisonDelivery, wornDelivery]) ∧
      ProcessedInTurn sampleUnmarshal
        (MustNewListener sampleUnmarshal sampleConf okHandler okChannel) ordersQueue liveCtx
        startWorld attempts wf ∧
      emitted startWorld wf = (attempts.map (fun a => a.events)).flatten ∧
      ∀ a ∈ attempts, ActionsOf a.delivery a.events ∧
        HandlerCallsOf sampleUnmarshal a.delivery a.events) ∧
    consumes (startWorker sampleUnmarshal
        (MustNewListener sampleUnmarshal sampleConf okHandler okChannel) ordersQueue liveCtx
        (fun _ => false) none [freshDelivery, poisonDelivery, wornDelivery]
        startWorld).2.2.trace = [[7, 8]] ∧
    acks (startWorker sampleUnmarshal
        (MustNewListener sampleUnmarshal sampleConf okHandler okChannel) ordersQueue liveCtx
        (fun _ => false) none [freshDelivery, poisonDelivery, wornDelivery]
        startWorld).2.2.trace = [(1, false), (2, false), (3, false)] ∧
    (startWorker sampleUnmarshal
        (MustNewListener sampleUnmarshal sampleConf okHandler okChannel) ordersQueue liveCtx
        (fun _ => false) none [freshDelivery, poisonDelivery, wornDelivery]
        startWorld).1.map (fun a => a.events.length) = [8, 7, 7] :=
  ⟨worker_processes_in_order sampleUnmarshal sampleConf okHandler okChannel ordersQueue liveCtx
    (fun _ => false) [freshDelivery, poisonDelivery, wornDelivery] startWorld,
    by decide, by decide, by decide⟩

end Worker

end Rabbitmq

/-!
# czt-contrib: Redis connection options of the task queue (`cron/config.go`, `cron/tools.go`)

`toDuration` and `buildRedisOpts`.  A `time.Duration` is its number of
nanoseconds, an `int64`.
-/

namespace Cron

open Rabbitmq (GoError wrapInt64)

/-! ## `tools.go` -/

/-- The constant `time.Second`, in nanoseconds. -/
def Second : Int := 1000000000

/-- `toDuration`. -/
def toDuration (v : Int) : Int :=
  if v ≤ 0 then 0 else wrapInt64 (v * Second)

/-! ## `config.go` -/

def ModeSingle : String := "single"

def ModeSentinel : String := "sentinel"

def ModeCluster : String := "cluster"

/-- The struct `RedisConf`. -/
structure RedisConf where
  Mode : String
  Username : String
  Password : String
  DialTimeout : Int
  ReadTimeout : Int
  WriteTimeout : Int
  DB : Int
  PoolSize : Int
  Network : String
  Addr : String
  MasterName : String
  SentinelAddrs : List String
  SentinelUsername : String
  SentinelPassword : String
  Addrs : List String
  MaxRedirects : Int
  deriving DecidableEq, Repr

/-- A `*tls.Config`, by name; `none` is the nil pointer. -/
abbrev TLSConfig := Option String

/-- The fields of `asynq.RedisClientOpt` that `buildRedisOpts` sets. -/
structure RedisClientOpt where
  Network : String
  Addr : String
  Username : String
  Password : String
  DB : Int
  DialTimeout : Int
  ReadTimeout : Int
  WriteTimeout : Int
  PoolSize : Int
  TLSConfig : TLSConfig
  deriving DecidableEq, Repr

/-- The fields of `asynq.RedisClusterClientOpt` that `buildRedisOpts` sets. -/
structure RedisClusterClientOpt where
  Addrs : List String
  MaxRedirects : Int
  Username : String
  Password : String
  DialTimeout : Int
  ReadTimeout : Int
  WriteTimeout : Int
  TLSConfig : TLSConfig
  deriving DecidableEq, Repr

/-- The fields of `asynq.RedisFailoverClientOpt` that `buildRedisOpts` sets. -/
structure RedisFailoverClientOpt where
  MasterName : String
  SentinelAddrs : List String
  SentinelUsername : String
  SentinelPassword : String
  Username : String
  Password : String
  DB : Int
  DialTimeout : Int
  ReadTimeout : Int
  WriteTimeout : Int
  PoolSize : Int
  TLSConfig : TLSConfig
  deriving DecidableEq, Repr

/-- The interface `asynq.RedisConnOpt`, by the three implementations that
`buildRedisOpts` returns. -/
inductive RedisConnOpt where
  | client (opt : RedisClientOpt)
  | cluster (opt : RedisClusterClientOpt)
  | failover (opt : RedisFailoverClientOpt)
  deriving DecidableEq, Repr

/-- `(*RedisConf).buildRedisOpts`.  The conversions `int(...)` of an `int64` keep
the value (`int` has 64 bits). -/
def RedisConf.buildRedisOpts (r : RedisConf) (tlsConfig : TLSConfig) :
    Except GoError RedisConnOpt :=
  let mode := r.Mode
  if mode = ModeSingle then
    .ok (.client
      { Network := r.Network
        Addr := r.Addr
        Username := r.Username
        Password := r.Password
        DB := r.DB
        DialTimeout := toDuration r.DialTimeout
        ReadTimeout := toDuration r.ReadTimeout
        WriteTimeout := toDuration r.WriteTimeout
        PoolSize := r.PoolSize
        TLSConfig := tlsConfig })
  else if mode = ModeCluster then
    .ok (.cluster
      { Addrs := r.Addrs
        MaxRedirects := r.MaxRedirects
        Username := r.Username
        Password := r.Password
        DialTimeout := toDuration r.DialTimeout
        ReadTimeout := toDuration r.ReadTimeout
        WriteTimeout := toDuration r.WriteTimeout
        TLSConfig := tlsConfig })
  else if mode = ModeSentinel then
    .ok (.failover
      { MasterName := r.MasterName
        SentinelAddrs := r.SentinelAddrs
        SentinelUsername := r.SentinelUsername
        SentinelPassword := r.SentinelPassword
        Username := r.Username
        Password := r.Password
        DB := r.DB
        DialTimeout := toDuration r.DialTimeout
        ReadTimeout := toDuration r.ReadTimeout
        WriteTimeout := toDuration r.WriteTimeout
        PoolSize := r.PoolSize
        TLSConfig := tlsConfig })
  else
    .error ⟨"invalid mode"⟩

/-! ## Derived definitions and concrete inputs -/

/-- The read and write timeouts of connection options, in nanoseconds. -/
def RedisConnOpt.timeouts : RedisConnOpt → Int × Int
  | .client opt => (opt.ReadTimeout, opt.WriteTimeout)
  | .cluster opt => (opt.ReadTimeout, opt.WriteTimeout)
  | .failover opt => (opt.ReadTimeout, opt.WriteTimeout)

/-- The read and write timeouts of the options that `buildRedisOpts` returns; `none`
when it returns an error. -/
def builtTimeouts (r : RedisConf) (tlsConfig : TLSConfig) : Option (Int × Int) :=
  match r.buildRedisOpts tlsConfig with
  | .ok opt => some opt.timeouts
  | .error _ => none

/-- A single-node configuration with the default timeouts. -/
def localRedis : RedisConf :=
  { Mode := "single", Username := "", Password := "", DialTimeout := 5, ReadTimeout := 3,
    WriteTimeout := 3, DB := 0, PoolSize := 0, Network := "tcp", Addr := "127.0.0.1:6379",
    MasterName := "", SentinelAddrs := [], SentinelUsername := "", SentinelPassword := "",
    Addrs := [], MaxRedirects := 8 }

/-! ## Timeouts -/

theorem toDuration_nonneg (v : Int) (hv : v < 9223372037) : 0 ≤ toDuration v := by
  unfold toDuration Second
  split
  · exact le_refl 0
  · rw [Snake.wrapInt64_of_range _ (by omega) (by omega)]
    omega

/-- C24 on the code: `toDuration` maps -1 to the duration 0, the same as 0, so in
every mode the options that `buildRedisOpts` builds from a read and write timeout
of -1 are those it builds from 0, with both timeouts 0 and not negative; no
timeout below 9223372037 seconds gives a negative duration.  The comments of
`ReadTimeout` and `WriteTimeout` in `RedisConf` say that -1 never times out and 0
is the default. -/
theorem negative_timeout_becomes_default :
    toDuration (-1) = 0 ∧ toDuration 0 = 0 ∧
    builtTimeouts { localRedis with ReadTimeout := -1, WriteTimeout := -1 } none =
      some (0, 0) ∧
    builtTimeouts { localRedis with ReadTimeout := 0, WriteTimeout := 0 } none =
      some (0, 0) ∧
    builtTimeouts localRedis none = some (3000000000, 3000000000) ∧
    (∀ (r : RedisConf) (tlsConfig : TLSConfig),
      ({ r with ReadTimeout := -1, WriteTimeout := -1 } : RedisConf).buildRedisOpts tlsConfig =
        ({ r with ReadTimeout := 0, WriteTimeout := 0 } : RedisConf).buildRedisOpts tlsConfig) ∧
    (∀ (r : RedisConf) (tlsConfig : TLSConfig) (t : Int × Int),
      r.ReadTimeout = -1 → r.WriteTimeout = -1 → builtTimeouts r tlsConfig = some t →
        t = (0, 0)) ∧
    (∀ v : Int, v < 9223372037 → 0 ≤ toDuration v) := by
  refine ⟨by decide, by decide, by decide, by decide, by decide, ?_, ?_, toDuration_nonneg⟩
  · intro r tlsConfig
    rfl
  · intro r tlsConfig t hr hw h
    unfold builtTimeouts RedisConf.buildRedisOpts at h
    have e1 : toDuration r.ReadTimeout = 0 := by rw [hr]; rfl
    have e2 : toDuration r.WriteTimeout = 0 := by rw [hw]; rfl
    dsimp only at h
    rw [e1, e2] at h
    split_ifs at h <;> simp [RedisConnOpt.timeouts] at h <;> exact h.symm

end Cron
